import Mathlib

/-!
# lowel: chunk-streaming index arithmetic

A shallow embedding of `lowel/src/lowel.c` (with the types of
`lowel/include/lowel.h`) and theorems about it.

Conventions of the embedding:

* C `int` is `Int`; `/` and `%` on `int` are `Int.tdiv` and `Int.tmod`
  (truncation toward zero, remainder with the sign of the dividend).
  Arithmetic is unbounded: the sizes of a map are taken to stay inside the
  32-bit range.
* C `float` and `double` values are rationals. Every operation that produces
  a `float` (storing an `int` or a `double` in a `float`, `+` and `-` on
  `float`) is followed by `f32`, the rounding to the nearest IEEE 754 binary32
  value, ties to even; the product of an `int` and a `double` is followed by
  `f64`, the same for binary64. This is the arithmetic of x86-64, where every
  `float` operation is rounded to `float`. Infinities and NaN are not values
  here: the rounding has no largest exponent.
* The cast `(int) v` of a floating value is `castInt`: truncation toward zero
  for a value of the `int` range, and for a value outside it, where C leaves
  the result undefined, the value -2^31 that the conversion instruction of
  x86-64 gives. `truncToInt` is the truncation alone; the casts of the document
  loader are written with it (`LoadOptionsData32` is `LoadOptionsData` with the
  members cast by `castInt`).
* A division or remainder by zero is undefined in C (the process is killed);
  `Int.tdiv` and `Int.tmod` return a value, and the theorems about code that
  divides state that the divisors are positive.
* C arrays are lists; `readAt` and `writeAt` are the indexed read and write.
  An access outside an array is undefined in C; here a write outside is
  dropped and a read outside gives 0, and the theorems state the buffer sizes
  they rely on.
* Functions that change a record return the changed record; calls into the
  drawing backend are returned as a list of calls.
-/

namespace Lowel

/-! ## Numeric helpers -/

/-- Truncation toward zero of a floating value: the C cast `(int) v` for a
value `v` whose truncation is an `int`. -/
def truncToInt (q : ℚ) : Int := Int.tdiv q.num (q.den : Int)

/-- The C cast `(int) v` of a floating value with the 32-bit range of `int`:
truncation toward zero when the truncated value is an `int`, that is for
`-2^31 - 1 < v < 2^31`; for any other value the cast is undefined in C, and
the result here is the one of the x86-64 conversion instructions
(`cvttss2si`, `cvttsd2si`), `INT_MIN` = -2^31. -/
def castInt (v : ℚ) : Int :=
  if (-2147483649 : ℚ) < v ∧ v < (2147483648 : ℚ) then truncToInt v else -2147483648

/-- The loop `while (n >= 2) { n /= 2; k++; }` with at most `fuel` passes: the
position of the highest binary digit of `n`. -/
def log2Fuel : Nat → Nat → Nat
  | 0, _ => 0
  | fuel + 1, n => if n < 2 then 0 else log2Fuel fuel (n / 2) + 1

/-- The position of the highest binary digit of `n` (0 for `n = 0`): the
largest `k` with `2 ^ k ≤ n` for a positive `n`. -/
def ilog2 (n : Nat) : Nat := log2Fuel n n

/-- The binary exponent of a non-zero rational `q`: the integer `e` with
`2 ^ e ≤ |q| < 2 ^ (e + 1)`. -/
def binade (q : ℚ) : Int :=
  if (2 : ℚ) ^ ((ilog2 q.num.natAbs : Int) - (ilog2 q.den : Int)) ≤ |q| then
    (ilog2 q.num.natAbs : Int) - (ilog2 q.den : Int)
  else (ilog2 q.num.natAbs : Int) - (ilog2 q.den : Int) - 1

/-- The integer nearest to `q`, the even one of the two when `q` lies halfway
between two integers. -/
def roundHalfEven (q : ℚ) : Int :=
  if q - (⌊q⌋ : ℚ) < 1 / 2 then ⌊q⌋
  else if 1 / 2 < q - (⌊q⌋ : ℚ) then ⌊q⌋ + 1
  else if ⌊q⌋ % 2 = 0 then ⌊q⌋ else ⌊q⌋ + 1

/-- Rounding to the nearest binary floating-point value with a significand of
`p` binary digits and the least exponent `emin` of a unit in the last place
(ties to even, gradual underflow, no largest exponent): the multiple of
`2 ^ e` nearest to `q`, where `e` is the exponent of the unit in the last
place of the binade of `q`. -/
def roundBinary (p : Nat) (emin : Int) (q : ℚ) : ℚ :=
  if q = 0 then 0
  else
    (roundHalfEven (q / (2 : ℚ) ^ (max (binade q - ((p : Int) - 1)) emin)) : ℚ)
      * (2 : ℚ) ^ (max (binade q - ((p : Int) - 1)) emin)

/-- Rounding to `float` (IEEE 754 binary32: 24 digits, least unit
`2 ^ (-149)`). -/
def f32 (q : ℚ) : ℚ := roundBinary 24 (-149) q

/-- Rounding to `double` (IEEE 754 binary64: 53 digits, least unit
`2 ^ (-1074)`). -/
def f64 (q : ℚ) : ℚ := roundBinary 53 (-1074) q

/-- The C array read `a[i]`. -/
def readAt (a : List Int) (i : Int) : Int :=
  if 0 ≤ i then a.getD i.toNat 0 else 0

/-- The C array write `a[i] = v`. -/
def writeAt {α : Type} (a : List α) (i : Int) (v : α) : List α :=
  if 0 ≤ i then a.set i.toNat v else a

/-! ## Data model (`lowel.h`, `lowel.c`) -/

/-- The raylib type `Vector2`. -/
structure Vector2 where
  x : ℚ
  y : ℚ
deriving DecidableEq, Repr

/-- The raylib type `Texture2D` (the fields the library reads). -/
structure Texture2D where
  id : Nat
  width : Int
  height : Int
deriving DecidableEq, Repr

/-- The struct `LwMapUnit`: one extent in pixels, chunks and tiles. -/
structure LwMapUnit where
  px : Int
  c : Int
  t : Int
deriving DecidableEq, Repr

/-- The struct `LwChunk`. -/
structure LwChunk where
  _valid : Bool
  data : List Int
deriving DecidableEq, Repr

/-- The struct `LwChunkSet`. -/
structure LwChunkSet where
  tilemap : List Int
  indexes : List Int
  temp_index : Int
  chunks : List LwChunk
deriving DecidableEq, Repr

/-- The struct `LwObject`. -/
structure LwObject where
  _valid : Bool
  id : Int
  image_path : String
  texture : Texture2D
  width : LwMapUnit
  height : LwMapUnit
  tileset : Bool
  auto_split : Bool
  scale : ℚ
  rotation : ℚ
  position : Vector2
  chunkset : LwChunkSet
deriving DecidableEq, Repr

/-- The struct `LwLayer`. -/
structure LwLayer where
  _valid : Bool
  objects : List LwObject
deriving DecidableEq, Repr

/-- The struct `LwMap` (without the texture loader callback). -/
structure LwMap where
  name : String
  width : LwMapUnit
  height : LwMapUnit
  chunk_width : Int
  chunk_height : Int
  tile_width : Int
  tile_height : Int
  draw_distance : Int
  object_table : List Int
  layers : List LwLayer
deriving DecidableEq, Repr

/-! ## Tile and chunk coordinates -/

/-- `GetMapChunkX`. -/
def GetMapChunkX (map : LwMap) (index : Int) : Int := Int.tmod index map.width.c

/-- `GetMapChunkY`. -/
def GetMapChunkY (map : LwMap) (index : Int) : Int := Int.tdiv index map.width.c

/-- `GetMapTileX`. -/
def GetMapTileX (map : LwMap) (index : Int) : Int := Int.tmod index map.width.t

/-- `GetMapTileY`. -/
def GetMapTileY (map : LwMap) (index : Int) : Int := Int.tdiv index map.width.t

/-- `GetObjectChunkX`. -/
def GetObjectChunkX (object : LwObject) (index : Int) : Int := Int.tmod index object.width.c

/-- `GetObjectChunkY`. -/
def GetObjectChunkY (object : LwObject) (index : Int) : Int := Int.tdiv index object.width.c

/-- `GetObjectTileX`. -/
def GetObjectTileX (object : LwObject) (index : Int) : Int := Int.tmod index object.width.t

/-- `GetObjectTileY`. -/
def GetObjectTileY (object : LwObject) (index : Int) : Int := Int.tdiv index object.width.t

/-! ## Index engine -/

/-- `ChunkIndexToPositionMap`: the two `int` products, stored in the `float`
fields of the `Vector2`. -/
def ChunkIndexToPositionMap (map : LwMap) (index : Int) : Vector2 :=
  { x := f32 ((GetMapChunkX map index * (map.chunk_width * map.tile_width) : Int) : ℚ)
    y := f32 ((GetMapChunkY map index * (map.chunk_height * map.tile_height) : Int) : ℚ) }

/-- `ChunkIndexToPositionObject`: each `int` product is converted to `float`
and added to the `float` coordinate of the entity. -/
def ChunkIndexToPositionObject (map : LwMap) (object : LwObject) (index : Int) : Vector2 :=
  { x := f32 (object.position.x
      + f32 ((GetObjectChunkX object index * (map.chunk_width * map.tile_width) : Int) : ℚ))
    y := f32 (object.position.y
      + f32 ((GetObjectChunkY object index * (map.chunk_height * map.tile_height) : Int)
          : ℚ)) }

/-- `PositionToTileIndexMap`. -/
def PositionToTileIndexMap (map : LwMap) (position : Vector2) : Int :=
  let tile_x := Int.tmod (Int.tdiv (castInt position.x) map.tile_width) map.width.t
  let tile_y := Int.tmod (Int.tdiv (castInt position.y) map.tile_height) map.height.t
  let tile_x := if tile_x ≤ 0 then 0 else tile_x
  let tile_y := if tile_y ≤ 0 then 0 else tile_y
  (tile_y * map.width.t) + tile_x

/-- `PositionToTileIndexObject`: the `float` difference of the two positions
is cast to `int`. -/
def PositionToTileIndexObject (map : LwMap) (object : LwObject) (position : Vector2) : Int :=
  let tile_x := Int.tmod
    (Int.tdiv (castInt (f32 (position.x - object.position.x))) map.tile_width)
    object.width.t
  let tile_y := Int.tmod
    (Int.tdiv (castInt (f32 (position.y - object.position.y))) map.tile_height)
    object.height.t
  let tile_x := if tile_x ≤ 0 then 0 else tile_x
  let tile_y := if tile_y ≤ 0 then 0 else tile_y
  (tile_y * object.width.t) + tile_x

/-- `TileIndexToChunkIndexMap`. -/
def TileIndexToChunkIndexMap (map : LwMap) (index : Int) : Int :=
  let chunk_x := Int.tdiv (GetMapTileX map index) map.chunk_width
  let chunk_y := Int.tdiv (GetMapTileY map index) map.chunk_height
  (chunk_y * map.width.c) + chunk_x

/-- `TileIndexToChunkIndexObject`. -/
def TileIndexToChunkIndexObject (map : LwMap) (object : LwObject) (index : Int) : Int :=
  let chunk_x := Int.tdiv (GetObjectTileX object index) map.chunk_width
  let chunk_y := Int.tdiv (GetObjectTileY object index) map.chunk_height
  (chunk_y * object.width.c) + chunk_x

/-- `PositionToChunkIndexMap`. -/
def PositionToChunkIndexMap (map : LwMap) (position : Vector2) : Int :=
  let tile_index := PositionToTileIndexMap map position
  if tile_index < 0 then -1 else TileIndexToChunkIndexMap map tile_index

/-- `PositionToChunkIndexObject`. -/
def PositionToChunkIndexObject (map : LwMap) (object : LwObject) (position : Vector2) : Int :=
  let tile_index := PositionToTileIndexObject map object position
  if tile_index < 0 then -1 else TileIndexToChunkIndexObject map object tile_index

/-- `RelativeTileIndexToPositionMap`. -/
def RelativeTileIndexToPositionMap (map : LwMap) (chunk_index relative_tile_index : Int) :
    Vector2 :=
  let chunk_position := ChunkIndexToPositionMap map chunk_index
  { x := f32 (chunk_position.x
      + f32 ((Int.tmod relative_tile_index map.chunk_width * map.tile_width : Int) : ℚ))
    y := f32 (chunk_position.y
      + f32 ((Int.tdiv relative_tile_index map.chunk_width * map.tile_height : Int) : ℚ)) }

/-- `RelativeTileIndexToPositionObject`. -/
def RelativeTileIndexToPositionObject (map : LwMap) (object : LwObject)
    (chunk_index relative_tile_index : Int) : Vector2 :=
  let chunk_position := ChunkIndexToPositionObject map object chunk_index
  { x := f32 (chunk_position.x
      + f32 ((Int.tmod relative_tile_index map.chunk_width * map.tile_width : Int) : ℚ))
    y := f32 (chunk_position.y
      + f32 ((Int.tdiv relative_tile_index map.chunk_width * map.tile_height : Int) : ℚ)) }

/-- `TileIndexToPositionMap`: the two `int` products, stored in the `float`
fields of the `Vector2`. -/
def TileIndexToPositionMap (map : LwMap) (index : Int) : Vector2 :=
  { x := f32 ((GetMapTileX map index * map.tile_width : Int) : ℚ)
    y := f32 ((GetMapTileY map index * map.tile_height : Int) : ℚ) }

/-- `TileIndexToPositionObject`: each `int` product is converted to `float`
and added to the `float` coordinate of the entity. -/
def TileIndexToPositionObject (map : LwMap) (object : LwObject) (index : Int) : Vector2 :=
  { x := f32 (object.position.x
      + f32 ((GetObjectTileX object index * map.tile_width : Int) : ℚ))
    y := f32 (object.position.y
      + f32 ((GetObjectTileY object index * map.tile_height : Int) : ℚ)) }

/-! ## Map document and loading -/

/-- Modelled from the spec: the node type of the document codec (`json.h`,
not part of the sources). A node carries its member key (empty when it has
none), a string, a number and a boolean value, and its child nodes, as in the
document schema of the map format; a missing string is `none`. -/
inductive JsonNode where
  | mk (key : String) (string_ : Option String) (number_ : ℚ) (bool_ : Bool)
      (children : List JsonNode)

/-- The field `key` of a node. -/
def JsonNode.key : JsonNode → String
  | .mk k _ _ _ _ => k

/-- The field `string_` of a node. -/
def JsonNode.string_ : JsonNode → Option String
  | .mk _ s _ _ _ => s

/-- The field `number_` of a node. -/
def JsonNode.number_ : JsonNode → ℚ
  | .mk _ _ n _ _ => n

/-- The field `bool_` of a node. -/
def JsonNode.bool_ : JsonNode → Bool
  | .mk _ _ _ b _ => b

/-- The children of a node, in the order `json_foreach` visits them. -/
def JsonNode.children : JsonNode → List JsonNode
  | .mk _ _ _ _ cs => cs

/-- A number member `key: n` of a document object. -/
def JsonNode.number (key : String) (n : ℚ) : JsonNode := .mk key none n false []

/-- A boolean member `key: b` of a document object. -/
def JsonNode.bool (key : String) (b : Bool) : JsonNode := .mk key none 0 b []

/-- A string member `key: "s"` of a document object. -/
def JsonNode.string (key : String) (s : String) : JsonNode := .mk key (some s) 0 false []

/-- An object or array member `key: ...` with the given children. -/
def JsonNode.object (key : String) (children : List JsonNode) : JsonNode :=
  .mk key none 0 false children

/-- The constant `MAX_DRAW_DISTANCE`. -/
def MAX_DRAW_DISTANCE : Int := 32

/-- The constant `MAX_LAYER_COUNT`. -/
def MAX_LAYER_COUNT : Int := 32

/-- The constant `MAX_OBJECT_COUNT`. -/
def MAX_OBJECT_COUNT : Int := 128

/-- The chunk count of an extent of `t` tiles with chunks of `s` tiles, as
both `LoadOptionsData` and `LoadObjectsData` compute it:
`(t % s) ? (t / s) + 1 : (t / s)`. -/
def chunkCount (t s : Int) : Int :=
  if Int.tmod t s ≠ 0 then Int.tdiv t s + 1 else Int.tdiv t s

/-- One pass of the member loop of `LoadOptionsData`: store the value of a
recognised key in the map. The member is cast by truncation, which is the cast
`(int)` for a member whose truncation is an `int`; `LoadOptionsData.member32`
is the same pass for a member of any magnitude. -/
def LoadOptionsData.member (map : LwMap) (node_options : JsonNode) : LwMap :=
  if node_options.key = "width" then
    { map with width := { map.width with px := truncToInt node_options.number_ } }
  else if node_options.key = "height" then
    { map with height := { map.height with px := truncToInt node_options.number_ } }
  else if node_options.key = "tile_width" then
    { map with tile_width := truncToInt node_options.number_ }
  else if node_options.key = "tile_height" then
    { map with tile_height := truncToInt node_options.number_ }
  else if node_options.key = "chunk_width_t" then
    { map with chunk_width := truncToInt node_options.number_ }
  else if node_options.key = "chunk_height_t" then
    { map with chunk_height := truncToInt node_options.number_ }
  else if node_options.key = "draw_distance_c" then
    { map with draw_distance := truncToInt node_options.number_ }
  else map

/-- `LoadOptionsData`: the result flag and the map as the call leaves it.
The argument is the `options` node. -/
def LoadOptionsData (map : LwMap) (node_current : JsonNode) : Bool × LwMap :=
  let map := node_current.children.foldl LoadOptionsData.member map
  if map.width.px ≤ 0 ∨ map.height.px ≤ 0
      ∨ map.tile_width ≤ 0 ∨ map.tile_height ≤ 0
      ∨ map.chunk_width ≤ 0 ∨ map.chunk_height ≤ 0 then
    (false, map)
  else if map.draw_distance < 0 then
    (false, map)
  else
    let map := if map.draw_distance > MAX_DRAW_DISTANCE then
      { map with draw_distance := 16 } else map
    let width_t := Int.tdiv map.width.px map.tile_width
    let height_t := Int.tdiv map.height.px map.tile_height
    let map := { map with width := { map.width with t := width_t }
                          height := { map.height with t := height_t } }
    let map := { map with
      width := { map.width with c := chunkCount map.width.t map.chunk_width }
      height := { map.height with c := chunkCount map.height.t map.chunk_height } }
    (true, map)

/-- One pass of the member loop of `LoadOptionsData`, with the cast `(int)` of
the member as the 32-bit conversion `castInt` executes it. -/
def LoadOptionsData.member32 (map : LwMap) (node_options : JsonNode) : LwMap :=
  if node_options.key = "width" then
    { map with width := { map.width with px := castInt node_options.number_ } }
  else if node_options.key = "height" then
    { map with height := { map.height with px := castInt node_options.number_ } }
  else if node_options.key = "tile_width" then
    { map with tile_width := castInt node_options.number_ }
  else if node_options.key = "tile_height" then
    { map with tile_height := castInt node_options.number_ }
  else if node_options.key = "chunk_width_t" then
    { map with chunk_width := castInt node_options.number_ }
  else if node_options.key = "chunk_height_t" then
    { map with chunk_height := castInt node_options.number_ }
  else if node_options.key = "draw_distance_c" then
    { map with draw_distance := castInt node_options.number_ }
  else map

/-- `LoadOptionsData` with the members cast by `castInt`: the result flag and
the map as the call leaves it, for members of any magnitude. The argument is
the `options` node. -/
def LoadOptionsData32 (map : LwMap) (node_current : JsonNode) : Bool × LwMap :=
  let map := node_current.children.foldl LoadOptionsData.member32 map
  if map.width.px ≤ 0 ∨ map.height.px ≤ 0
      ∨ map.tile_width ≤ 0 ∨ map.tile_height ≤ 0
      ∨ map.chunk_width ≤ 0 ∨ map.chunk_height ≤ 0 then
    (false, map)
  else if map.draw_distance < 0 then
    (false, map)
  else
    let map := if map.draw_distance > MAX_DRAW_DISTANCE then
      { map with draw_distance := 16 } else map
    let width_t := Int.tdiv map.width.px map.tile_width
    let height_t := Int.tdiv map.height.px map.tile_height
    let map := { map with width := { map.width with t := width_t }
                          height := { map.height with t := height_t } }
    let map := { map with
      width := { map.width with c := chunkCount map.width.t map.chunk_width }
      height := { map.height with c := chunkCount map.height.t map.chunk_height } }
    (true, map)

/-- The `scale_mul` branch of the member loop of `LoadObjectsData`: store the
scale and derive the extents of the entity from its texture. The pixel extent
is the `double` product of the texture size and the scale, converted to
`int`. -/
def LoadObjectsData.scale_mul (map : LwMap) (object : LwObject) (node_object : JsonNode) :
    LwObject :=
  let object := { object with scale := node_object.number_ }
  let object := { object with
    width := { object.width with
      px := castInt (f64 ((object.texture.width : ℚ) * object.scale)) }
    height := { object.height with
      px := castInt (f64 ((object.texture.height : ℚ) * object.scale)) } }
  let object := { object with
    width := { object.width with t := Int.tdiv object.width.px map.tile_width }
    height := { object.height with t := Int.tdiv object.height.px map.tile_height } }
  { object with
    width := { object.width with c := chunkCount object.width.t map.chunk_width }
    height := { object.height with c := chunkCount object.height.t map.chunk_height } }

/-! ## Chunk store -/

/-- `GetAdjacentChunkCount`. -/
def GetAdjacentChunkCount (map : LwMap) : Int :=
  (2 * map.draw_distance + 1) * (2 * map.draw_distance + 1)

/-- A zero-filled `int` buffer of `n` elements, as `RL_CALLOC(n, sizeof(int))`
returns it. -/
def callocInts (n : Int) : List Int := List.replicate n.toNat 0

/-- A zero-filled array of `n` chunk records, each with a zero-filled buffer
of `size` tile ids: the chunk array of `LoadTileData` after its allocation
loop. -/
def callocChunks (n size : Int) : List LwChunk :=
  List.replicate n.toNat { _valid := false, data := callocInts size }

/-- The chunk record `chunks[i]`. -/
def chunkAt (chunks : List LwChunk) (i : Int) : LwChunk :=
  if 0 ≤ i then chunks.getD i.toNat { _valid := false, data := [] }
  else { _valid := false, data := [] }

/-- The slot index `LoadTileData` computes for the tile `abs_tile_index` of a
grid that is `width_t` tiles wide:
`(((abs_tile_index / width_t) % chunk_width) * chunk_width)
  + ((abs_tile_index % width_t) % chunk_width)`. -/
def relativeTileIndex (map : LwMap) (width_t abs_tile_index : Int) : Int :=
  (Int.tmod (Int.tdiv abs_tile_index width_t) map.chunk_width * map.chunk_width)
    + Int.tmod (Int.tmod abs_tile_index width_t) map.chunk_width

/-- The two statements that end a pass of the store loops of `LoadTileData`:
mark `chunks[chunk_index]` valid and write the tile id into its slot
`relative_tile_index`. -/
def storeTile (chunks : List LwChunk) (chunk_index relative_tile_index id : Int) :
    List LwChunk :=
  let chunk := chunkAt chunks chunk_index
  let chunk := if !chunk._valid then { chunk with _valid := true } else chunk
  writeAt chunks chunk_index { chunk with data := writeAt chunk.data relative_tile_index id }

/-- One pass of the store loop of the tileset branch of `LoadTileData`. -/
def LoadTileData.storeMap (map : LwMap) (tilemap : List Int) (chunks : List LwChunk)
    (abs_tile_index : Nat) : List LwChunk :=
  if readAt tilemap abs_tile_index < 0 then chunks
  else
    let chunk_index := TileIndexToChunkIndexMap map abs_tile_index
    let relative_tile_index := relativeTileIndex map map.width.t abs_tile_index
    storeTile chunks chunk_index relative_tile_index (readAt tilemap abs_tile_index)

/-- One pass of the store loop of the auto-split branch of `LoadTileData`. -/
def LoadTileData.storeObject (map : LwMap) (object : LwObject) (tilemap : List Int)
    (chunks : List LwChunk) (abs_tile_index : Nat) : List LwChunk :=
  if readAt tilemap abs_tile_index < 0 then chunks
  else
    let chunk_index := TileIndexToChunkIndexObject map object abs_tile_index
    let relative_tile_index := relativeTileIndex map object.width.t abs_tile_index
    storeTile chunks chunk_index relative_tile_index (readAt tilemap abs_tile_index)

/-- `LoadTileData`: the result flag and the entity as the call leaves it. -/
def LoadTileData (map : LwMap) (object : LwObject) (tiledata : List Int) : Bool × LwObject :=
  if !object.tileset && !object.auto_split then
    (true, object)
  else if object.tileset && !object.auto_split then
    let tile_count := (map.width.t * map.height.t).toNat
    let tilemap := (List.range tile_count).map (fun (i : Nat) => readAt tiledata i)
    let chunks := callocChunks (map.width.c * map.height.c)
      (map.chunk_width * map.chunk_height)
    let chunks := (List.range tile_count).foldl (LoadTileData.storeMap map tilemap) chunks
    (true, { object with
      position := { x := 0, y := 0 }
      chunkset := { tilemap := tilemap
                    indexes := callocInts (GetAdjacentChunkCount map)
                    temp_index := -1
                    chunks := chunks } })
  else if !object.tileset && object.auto_split then
    let tile_count := (object.width.t * object.height.t).toNat
    let tilemap := (List.range tile_count).map (fun (i : Nat) => (i : Int))
    let chunks := callocChunks (object.width.c * object.height.c)
      (map.chunk_width * map.chunk_height)
    let chunks := (List.range tile_count).foldl
      (LoadTileData.storeObject map object tilemap) chunks
    (true, { object with
      chunkset := { tilemap := tilemap
                    indexes := callocInts (GetAdjacentChunkCount map)
                    temp_index := -1
                    chunks := chunks } })
  else
    (false, object)

/-- The `tiledata` branch of the member loop of `LoadObjectsData`: build the
tile id array of a tileset entity (pre-filled with -1, then filled from the
children of the node) and pass it to `LoadTileData`. -/
def LoadObjectsData.tiledata (map : LwMap) (object : LwObject) (node_object : JsonNode) :
    Bool × LwObject :=
  let tiledata : List Int :=
    if object.tileset && !object.auto_split then
      let prefilled := List.replicate (map.width.t * map.height.t).toNat (-1 : Int)
      (node_object.children.foldl
        (fun (st : List Int × Int) node_tiledata =>
          (writeAt st.1 st.2 (truncToInt node_tiledata.number_), st.2 + 1))
        (prefilled, 0)).1
    else []
  LoadTileData map object tiledata

/-! ## Chunk window -/

/-- The values a loop variable takes in `for (v = d; v >= -d; v--)`, in order:
`d, d - 1, ..., -d` (none when `d` is negative). -/
def descRange (d : Int) : List Int :=
  (List.range (2 * d + 1).toNat).map (fun (k : Nat) => d - (k : Int))

/-- One pass of the inner loop of `UpdateAdjacentChunkIndexes`, on the window
buffer and the cursor `adjacent_index`. -/
def UpdateAdjacentChunkIndexes.step (map : LwMap) (object : LwObject) (index dy : Int)
    (st : List Int × Int) (dx : Int) : List Int × Int :=
  if object.tileset && !object.auto_split then
    let adjacent_chunk_x := GetMapChunkX map index - dx
    let adjacent_chunk_y := GetMapChunkY map index - dy
    if adjacent_chunk_x < 0 ∨ adjacent_chunk_x > map.width.c - 1
        ∨ adjacent_chunk_y < 0 ∨ adjacent_chunk_y > map.height.c - 1 then st
    else (writeAt st.1 st.2 ((adjacent_chunk_y * map.width.c) + adjacent_chunk_x), st.2 + 1)
  else
    let adjacent_chunk_x := GetObjectChunkX object index - dx
    let adjacent_chunk_y := GetObjectChunkY object index - dy
    if adjacent_chunk_x < 0 ∨ adjacent_chunk_x > object.width.c - 1
        ∨ adjacent_chunk_y < 0 ∨ adjacent_chunk_y > object.height.c - 1 then st
    else (writeAt st.1 st.2 ((adjacent_chunk_y * object.width.c) + adjacent_chunk_x), st.2 + 1)

/-- The nested loops of `UpdateAdjacentChunkIndexes`, run on the window buffer
`indexes` from the cursor 0: the buffer and the cursor when the loops end. -/
def UpdateAdjacentChunkIndexes.loops (map : LwMap) (object : LwObject) (index : Int)
    (indexes : List Int) : List Int × Int :=
  (descRange map.draw_distance).foldl
    (fun st dy =>
      (descRange map.draw_distance).foldl
        (UpdateAdjacentChunkIndexes.step map object index dy) st)
    (indexes, 0)

/-- `UpdateAdjacentChunkIndexes`: the entity as the call leaves it. -/
def UpdateAdjacentChunkIndexes (map : LwMap) (object : LwObject) (index : Int) : LwObject :=
  if object.chunkset.temp_index = index then object
  else
    { object with
      chunkset := { object.chunkset with
        temp_index := index
        indexes :=
          (UpdateAdjacentChunkIndexes.loops map object index object.chunkset.indexes).1 } }

/-- The raylib type `Rectangle`. -/
structure Rectangle where
  x : ℚ
  y : ℚ
  width : ℚ
  height : ℚ
deriving DecidableEq, Repr

/-- A call `DrawTextureRec(texture, source, position, WHITE)` of the drawing
backend. -/
structure DrawTextureRec where
  texture : Texture2D
  source : Rectangle
  position : Vector2
deriving DecidableEq, Repr

/-- `DrawChunk`: the backend calls it makes, in order. -/
def DrawChunk (map : LwMap) (object : LwObject) (index : Int) : List DrawTextureRec :=
  (List.range (map.chunk_width * map.chunk_height).toNat).map (fun (i : Nat) =>
    let tile_id := readAt (chunkAt object.chunkset.chunks index).data i
    let tile_position :=
      if object.tileset && !object.auto_split then
        RelativeTileIndexToPositionMap map index i
      else RelativeTileIndexToPositionObject map object index i
    let orig_texture_position := TileIndexToPositionObject map object tile_id
    { texture := object.texture
      source := { x := f32 (orig_texture_position.x - object.position.x)
                  y := f32 (orig_texture_position.y - object.position.y)
                  width := f32 (map.tile_width : ℚ)
                  height := f32 (map.tile_height : ℚ) }
      position := tile_position })

/-- One pass of the loop of `LoadChunks`, on the window buffer and the list of
chunk indexes passed to `DrawChunk` so far. -/
def LoadChunks.step (chunk_index : Int) (st : List Int × List Int) (adjacent_index : Nat) :
    List Int × List Int :=
  (writeAt st.1 adjacent_index chunk_index, st.2 ++ [readAt st.1 adjacent_index])

/-- `LoadChunks`: the entity as the call leaves it, and the chunk indexes of
its `DrawChunk` calls, in order. -/
def LoadChunks (map : LwMap) (object : LwObject) (position : Vector2) :
    LwObject × List Int :=
  let chunk_index :=
    if object.tileset && !object.auto_split then PositionToChunkIndexMap map position
    else PositionToChunkIndexObject map object position
  if chunk_index ≥ 0 then
    let object := UpdateAdjacentChunkIndexes map object chunk_index
    let st := (List.range (GetAdjacentChunkCount map).toNat).foldl
      (LoadChunks.step chunk_index) (object.chunkset.indexes, [])
    ({ object with chunkset := { object.chunkset with indexes := st.1 } }, st.2)
  else (object, [])

/-- The value `LoadChunks` gives its local variable `chunk_index`: the chunk
the position resolves to, on the map grid for a tileset entity and on the grid
of the entity otherwise. -/
def LoadChunks.chunk_index (map : LwMap) (object : LwObject) (position : Vector2) : Int :=
  if object.tileset && !object.auto_split then PositionToChunkIndexMap map position
  else PositionToChunkIndexObject map object position

/-- The candidate chunk coordinates in the words of the specification:
enumerate `dy` from `+d` down to `-d` (outer) and `dx` from `+d` down to `-d`
(inner) and take `(cx - dx, cy - dy)`. -/
def windowCandidates (d cx cy : Int) : List (Int × Int) :=
  (descRange d).flatMap (fun dy => (descRange d).map (fun dx => (cx - dx, cy - dy)))

/-- A candidate `(x, y)` inside the grid of `width_c` by `height_c` chunks is
kept as the linear chunk index `y * width_c + x`; a candidate outside is
dropped. -/
def keepCandidate (width_c height_c : Int) (cand : Int × Int) : Option Int :=
  if 0 ≤ cand.1 ∧ cand.1 < width_c ∧ 0 ≤ cand.2 ∧ cand.2 < height_c then
    some (cand.2 * width_c + cand.1)
  else none

/-- The window in the words of the specification: the kept candidates, in the
order of their enumeration, as linear chunk indexes. -/
def windowSpec (width_c height_c d cx cy : Int) : List Int :=
  (windowCandidates d cx cy).filterMap (keepCandidate width_c height_c)

/-! ## Layers, entities and the whole document -/

/-- The constant `MAP_FORMAT_VERSION`. -/
def MAP_FORMAT_VERSION : String := "1.0.0"

/-- A zero-filled `LwObject`, an element of `RL_CALLOC(n, sizeof(LwObject))`. -/
def zeroObject : LwObject :=
  { _valid := false
    id := 0
    image_path := ""
    texture := { id := 0, width := 0, height := 0 }
    width := { px := 0, c := 0, t := 0 }
    height := { px := 0, c := 0, t := 0 }
    tileset := false
    auto_split := false
    scale := 0
    rotation := 0
    position := { x := 0, y := 0 }
    chunkset := { tilemap := [], indexes := [], temp_index := 0, chunks := [] } }

/-- A zero-filled `LwLayer`, an element of `RL_CALLOC(n, sizeof(LwLayer))`: not
valid, no object array. -/
def zeroLayer : LwLayer := { _valid := false, objects := [] }

/-- The layer record `layers[i]`. -/
def layerAt (layers : List LwLayer) (i : Int) : LwLayer :=
  if 0 ≤ i then layers.getD i.toNat zeroLayer else zeroLayer

/-- The entity record `objects[i]`. -/
def objectAt (objects : List LwObject) (i : Int) : LwObject :=
  if 0 ≤ i then objects.getD i.toNat zeroObject else zeroObject

/-- The entity record `map->layers[layer_id].objects[object_id]`. -/
def mapObject (map : LwMap) (layer_id object_id : Int) : LwObject :=
  objectAt (layerAt map.layers layer_id).objects object_id

/-- The map after an assignment to the record
`map->layers[layer_id].objects[object_id]`. -/
def setMapObject (map : LwMap) (layer_id object_id : Int) (object : LwObject) : LwMap :=
  { map with
    layers := writeAt map.layers layer_id
      { layerAt map.layers layer_id with
        objects := writeAt (layerAt map.layers layer_id).objects object_id object } }

/-- A `json_foreach` loop whose body may execute `return false`: `body` gives
the flag "the loop goes on" and the state after one pass. The result is the
flag "the loop ran to its end" and the state where the loop stopped. -/
def forEachWithReturn {σ α : Type} (body : σ → α → Bool × σ) : σ → List α → Bool × σ
  | st, [] => (true, st)
  | st, a :: rest =>
    if (body st a).1 then forEachWithReturn body (body st a).2 rest
    else (false, (body st a).2)

/-- One pass of the member loop of `LoadHeaderData`. -/
def LoadHeaderData.member (map : LwMap) (node_header : JsonNode) : Bool × LwMap :=
  if node_header.key = "name" then
    match node_header.string_ with
    | none => (false, map)
    | some s => if s.length = 0 then (false, map) else (true, { map with name := s })
  else if node_header.key = "format_version" then
    match node_header.string_ with
    | none => (false, map)
    | some s =>
      if s.length = 0 then (false, map)
      else if s ≠ MAP_FORMAT_VERSION then (false, map)
      else (true, map)
  else (true, map)

/-- `LoadHeaderData`: the result flag, the map and the node cursor as the call
leaves them. The cursor `*node_current` is the list of the current node and
the siblings after it; a cursor past the last node has no members. -/
def LoadHeaderData (map : LwMap) (node_current : List JsonNode) :
    Bool × LwMap × List JsonNode :=
  let map := { map with name := "" }
  let r := forEachWithReturn LoadHeaderData.member map
    (match node_current.head? with
      | some node => node.children
      | none => [])
  if r.1 then (true, r.2, node_current.tail) else (false, r.2, node_current)

/-- One pass of the loop over the children of a `position` member: store the
`x` or the `y` coordinate. -/
def LoadObjectsData.position (object : LwObject) (node_offset : JsonNode) : LwObject :=
  if node_offset.key = "x" then
    { object with position := { object.position with x := f32 node_offset.number_ } }
  else if node_offset.key = "y" then
    { object with position := { object.position with y := f32 node_offset.number_ } }
  else object

/-- One pass of the member loop of `LoadObjectsData`, on the map and the local
variable `object_id`; `load_texture` is the callback field of the map (`none`
for a null pointer). The flag is false when the pass executes `return false`. -/
def LoadObjectsData.member (load_texture : Option (String → Texture2D)) (layer_id : Int)
    (st : LwMap × Int) (node_object : JsonNode) : Bool × (LwMap × Int) :=
  if node_object.key = "id" then
    let object_id := truncToInt node_object.number_
    let map := { st.1 with object_table := writeAt st.1.object_table object_id layer_id }
    let map := setMapObject map layer_id object_id
      { mapObject map layer_id object_id with _valid := true }
    let map := setMapObject map layer_id object_id
      { mapObject map layer_id object_id with id := object_id }
    (true, (map, object_id))
  else
    let map := st.1
    let object_id := st.2
    let object := mapObject map layer_id object_id
    if object_id < 0 ∨ object_id > MAX_OBJECT_COUNT - 1 then (false, st)
    else if node_object.key = "image" then
      let object := { object with image_path := node_object.string_.getD "" }
      let object :=
        match load_texture with
        | some load => { object with texture := load object.image_path }
        | none => object
      (true, (setMapObject map layer_id object_id object, object_id))
    else if node_object.key = "tileset" then
      (true, (setMapObject map layer_id object_id
        { object with tileset := node_object.bool_ }, object_id))
    else if node_object.key = "auto_split" then
      (true, (setMapObject map layer_id object_id
        { object with auto_split := node_object.bool_ }, object_id))
    else if node_object.key = "scale_mul" then
      (true, (setMapObject map layer_id object_id
        (LoadObjectsData.scale_mul map object node_object), object_id))
    else if node_object.key = "rotation_deg" then
      (true, (setMapObject map layer_id object_id
        { object with rotation := node_object.number_ }, object_id))
    else if node_object.key = "position" then
      (true, (setMapObject map layer_id object_id
        (node_object.children.foldl LoadObjectsData.position object), object_id))
    else if node_object.key = "tiledata" then
      let r := LoadObjectsData.tiledata map object node_object
      (r.1, (setMapObject map layer_id object_id r.2, object_id))
    else (true, st)

/-- `LoadObjectsData`: the value it returns (`some false` for `return false`,
`none` when control reaches the end of the function, which has no `return`)
and the map as the call leaves it. The argument `node_layer` is the `objects`
member of a layer. -/
def LoadObjectsData (load_texture : Option (String → Texture2D)) (map : LwMap)
    (node_layer : JsonNode) (layer_id : Int) : Option Bool × LwMap :=
  let map := { map with object_table := callocInts MAX_OBJECT_COUNT }
  let r := forEachWithReturn
    (fun (st : LwMap × Int) (node_objects : JsonNode) =>
      forEachWithReturn (LoadObjectsData.member load_texture layer_id) st
        node_objects.children)
    (map, -1) node_layer.children
  (if r.1 then none else some false, r.2.1)

/-- One pass of the member loop of `LoadLayersData`, on the map and the local
variable `layer_id`. The flag is false when the pass executes `return false`. -/
def LoadLayersData.member (load_texture : Option (String → Texture2D))
    (st : LwMap × Int) (node_layer : JsonNode) : Bool × (LwMap × Int) :=
  if node_layer.key = "id" then
    let layer_id := truncToInt node_layer.number_
    let map := { st.1 with
      layers := writeAt st.1.layers layer_id
        { layerAt st.1.layers layer_id with _valid := true } }
    (true, (map, layer_id))
  else
    let map := st.1
    let layer_id := st.2
    if layer_id < 0 ∨ layer_id > MAX_LAYER_COUNT then (false, st)
    else if node_layer.key = "objects" then
      let map := { map with
        layers := writeAt map.layers layer_id
          { layerAt map.layers layer_id with
            objects := List.replicate MAX_OBJECT_COUNT.toNat zeroObject } }
      (true, ((LoadObjectsData load_texture map node_layer layer_id).2, layer_id))
    else (true, st)

/-- `LoadLayersData`: the result flag and the map as the call leaves it. The
cursor `*node_current` is the list of the `layers` node and the siblings after
it. -/
def LoadLayersData (load_texture : Option (String → Texture2D)) (map : LwMap)
    (node_current : List JsonNode) : Bool × LwMap :=
  let map := { map with layers := List.replicate MAX_LAYER_COUNT.toNat zeroLayer }
  let r := forEachWithReturn
    (fun (st : LwMap × Int) (node_layers : JsonNode) =>
      forEachWithReturn (LoadLayersData.member load_texture) st node_layers.children)
    (map, -1)
    (match node_current.head? with
      | some node => node.children
      | none => [])
  (r.1, r.2.1)

/-- `LoadMapFromMemory`: the result flag and the map as the call leaves it.
The argument `node_root` is the result of `json_decode(map_data)`, `none` for
a null pointer; `load_texture` is the callback field of the map. -/
def LoadMapFromMemory (load_texture : Option (String → Texture2D)) (map : LwMap)
    (node_root : Option JsonNode) : Bool × LwMap :=
  match node_root with
  | none => (false, map)
  | some root =>
    let header := LoadHeaderData map root.children
    if !header.1 then (false, header.2.1)
    else
      let options := LoadOptionsData header.2.1
        (match header.2.2.head? with
          | some node => node
          | none => JsonNode.object "" [])
      if !options.1 then (false, options.2)
      else
        let layers := LoadLayersData load_texture options.2 header.2.2.tail
        if !layers.1 then (false, layers.2) else (true, layers.2)

/-- The outcome of a `GetObject` call: `fault` when the call reads outside an
array or through a null array pointer (undefined in C), `null` when it returns
`NULL`, `found` with the entity whose address it returns. -/
inductive GetObjectResult where
  | fault
  | null
  | found (object : LwObject)
deriving DecidableEq

/-- `GetObject`. A null `object_table`, `layers` or `objects` pointer is the
empty list, so that every index is outside it. -/
def GetObject (map : LwMap) (index : Int) : GetObjectResult :=
  if index < 0 ∨ (map.object_table.length : Int) ≤ index then GetObjectResult.fault
  else
    let layer_id := readAt map.object_table index
    if layer_id < 0 ∨ (map.layers.length : Int) ≤ layer_id then GetObjectResult.fault
    else if ((layerAt map.layers layer_id).objects.length : Int) ≤ index then
      GetObjectResult.fault
    else if !(mapObject map layer_id index)._valid then GetObjectResult.null
    else GetObjectResult.found (mapObject map layer_id index)

/-- The `options` node of a document that follows the map schema: the seven
integer members `width`, `height`, `tile_width`, `tile_height`,
`chunk_width_t`, `chunk_height_t` and `draw_distance_c`, in that order. -/
def optionsRecord (width height tile_width tile_height chunk_width_t chunk_height_t
    draw_distance_c : Int) : JsonNode :=
  JsonNode.object "options"
    [ JsonNode.number "width" (width : ℚ), JsonNode.number "height" (height : ℚ),
      JsonNode.number "tile_width" (tile_width : ℚ),
      JsonNode.number "tile_height" (tile_height : ℚ),
      JsonNode.number "chunk_width_t" (chunk_width_t : ℚ),
      JsonNode.number "chunk_height_t" (chunk_height_t : ℚ),
      JsonNode.number "draw_distance_c" (draw_distance_c : ℚ) ]

/-- An empty map record, as a caller passes it to the loader. -/
def emptyMap : LwMap :=
  { name := ""
    width := { px := 0, c := 0, t := 0 }
    height := { px := 0, c := 0, t := 0 }
    chunk_width := 0
    chunk_height := 0
    tile_width := 0
    tile_height := 0
    draw_distance := 0
    object_table := []
    layers := [] }

/-- An `options` node: 70 by 64 pixels, tiles of 16 by 16 pixels, chunks of
3 by 2 tiles, draw distance 1. -/
def demoOptions : JsonNode :=
  JsonNode.object "options"
    [ JsonNode.number "width" 70, JsonNode.number "height" 64,
      JsonNode.number "tile_width" 16, JsonNode.number "tile_height" 16,
      JsonNode.number "chunk_width_t" 3, JsonNode.number "chunk_height_t" 2,
      JsonNode.number "draw_distance_c" 1 ]


/-- A `scale_mul` member with the scale 3/2. -/
def demoScale : JsonNode := JsonNode.number "scale_mul" (3 / 2)

/-- A map of 64 by 64 pixels with 16 pixel tiles and chunks of 2 by 2 tiles:
4 by 4 tiles in 2 by 2 chunks, draw distance 1. -/
def demoMap : LwMap :=
  { name := "demo"
    width := { px := 64, c := 2, t := 4 }
    height := { px := 64, c := 2, t := 4 }
    chunk_width := 2
    chunk_height := 2
    tile_width := 16
    tile_height := 16
    draw_distance := 1
    object_table := []
    layers := [] }

/-- An entity of 48 by 32 pixels (3 by 2 tiles, 2 by 1 chunks on `demoMap`)
placed at the negative offset (-40, -7/2), with an empty chunk set. -/
def demoObject : LwObject :=
  { _valid := true
    id := 0
    image_path := "sheet.png"
    texture := { id := 1, width := 48, height := 32 }
    width := { px := 48, c := 2, t := 3 }
    height := { px := 32, c := 1, t := 2 }
    tileset := false
    auto_split := true
    scale := 1
    rotation := 0
    position := { x := -40, y := -7 / 2 }
    chunkset := { tilemap := [], indexes := [], temp_index := -1, chunks := [] } }

/-- A tileset entity with a texture of 64 by 64 pixels and the scale 1, with
the extents `LoadObjectsData` derives for it on `map`, before its tile data is
loaded. -/
def tilesetEntity (map : LwMap) : LwObject :=
  { _valid := true
    id := 1
    image_path := "tiles.png"
    texture := { id := 2, width := 64, height := 64 }
    width := { px := 64
               c := chunkCount (Int.tdiv 64 map.tile_width) map.chunk_width
               t := Int.tdiv 64 map.tile_width }
    height := { px := 64
                c := chunkCount (Int.tdiv 64 map.tile_height) map.chunk_height
                t := Int.tdiv 64 map.tile_height }
    tileset := true
    auto_split := false
    scale := 1
    rotation := 0
    position := { x := 0, y := 0 }
    chunkset := { tilemap := [], indexes := [], temp_index := 0, chunks := [] } }

/-- A map of 3 by 3 chunks of one tile each (48 by 48 pixels, 16 pixel
tiles) with the draw distance `d`. -/
def gridMap3 (d : Int) : LwMap :=
  { name := "grid3"
    width := { px := 48, c := 3, t := 3 }
    height := { px := 48, c := 3, t := 3 }
    chunk_width := 1
    chunk_height := 1
    tile_width := 16
    tile_height := 16
    draw_distance := d
    object_table := []
    layers := [] }

/-- The tileset entity of `gridMap3 d` with its nine tile ids loaded. -/
def gridObject3 (d : Int) : LwObject :=
  (LoadTileData (gridMap3 d) (tilesetEntity (gridMap3 d)) [0, 1, 2, 3, 4, 5, 6, 7, 8]).2

/-- The auto-split entity `demoObject` (3 by 2 tiles) with the extents it has
on `gridMap3 d`, 3 by 2 chunks, before its tiles are loaded. -/
def splitEntity3 : LwObject :=
  { demoObject with width := { px := 48, c := 3, t := 3 }
                    height := { px := 32, c := 2, t := 2 } }

/-- The auto-split entity `splitEntity3` with its tiles loaded on `gridMap3 d`. -/
def splitObject3 (d : Int) : LwObject :=
  (LoadTileData (gridMap3 d) splitEntity3 []).2

/-- A map of one tile by two tiles in a single chunk that is one tile wide and
two tiles high (16 by 32 pixels, 16 pixel tiles). -/
def tallChunkMap : LwMap :=
  { name := "tall"
    width := { px := 16, c := 1, t := 1 }
    height := { px := 32, c := 1, t := 2 }
    chunk_width := 1
    chunk_height := 2
    tile_width := 16
    tile_height := 16
    draw_distance := 0
    object_table := []
    layers := [] }

/-- A `tiledata` member that lists the ids 5 and 6 only. -/
def shortTiledata : JsonNode :=
  JsonNode.object "tiledata" [JsonNode.number "" 5, JsonNode.number "" 6]

/-- A texture loader that gives every image a texture of 64 by 64 pixels. -/
def demoLoader : String → Texture2D := fun _ => { id := 1, width := 64, height := 64 }

/-- The `objects` member of a layer with one entity, id 0, that sets both
`tileset` and `auto_split`. -/
def bothFlagsObjects : JsonNode :=
  JsonNode.object "objects"
    [ JsonNode.object ""
        [ JsonNode.number "id" 0, JsonNode.string "image" "tiles.png",
          JsonNode.bool "tileset" true, JsonNode.bool "auto_split" true,
          JsonNode.number "scale_mul" 1, JsonNode.number "rotation_deg" 0,
          JsonNode.object "position" [JsonNode.number "x" 0, JsonNode.number "y" 0],
          JsonNode.object "tiledata" [JsonNode.number "" 0, JsonNode.number "" 1] ] ]

/-- A map document that follows the schema: header with the supported format
version, options of a 64 by 64 pixel map, and one layer, id 0, whose only
entity sets both `tileset` and `auto_split`. -/
def bothFlagsDocument : JsonNode :=
  JsonNode.object ""
    [ JsonNode.object "header"
        [JsonNode.string "name" "demo", JsonNode.string "format_version" "1.0.0"],
      optionsRecord 64 64 16 16 2 2 1,
      JsonNode.object "layers"
        [ JsonNode.object "" [JsonNode.number "id" 0, bothFlagsObjects] ] ]

/-- The tileset entity of `gridMap3 1` after a `LoadChunks` call with the
viewer at (40, 40), chunk 8: every slot of its window buffer holds 8. -/
def staleObject : LwObject := (LoadChunks (gridMap3 1) (gridObject3 1) ⟨40, 40⟩).1

/-- An entity of a document: a plain sprite (neither tileset nor auto-split)
with the id `id`. -/
def spriteNode (id : Int) : JsonNode :=
  JsonNode.object ""
    [ JsonNode.number "id" (id : ℚ), JsonNode.string "image" "sprite.png",
      JsonNode.bool "tileset" false, JsonNode.bool "auto_split" false,
      JsonNode.number "scale_mul" 1, JsonNode.number "rotation_deg" 0,
      JsonNode.object "position" [JsonNode.number "x" 0, JsonNode.number "y" 0],
      JsonNode.object "tiledata" [] ]

/-- A layer of a document: its id and its entities. -/
def layerNode (id : Int) (objects : List JsonNode) : JsonNode :=
  JsonNode.object "" [JsonNode.number "id" (id : ℚ), JsonNode.object "objects" objects]

/-- A map document that follows the schema, with the given layers: header
with the supported format version, options of a 64 by 64 pixel map. -/
def documentOf (layers : List JsonNode) : JsonNode :=
  JsonNode.object ""
    [ JsonNode.object "header"
        [JsonNode.string "name" "demo", JsonNode.string "format_version" "1.0.0"],
      optionsRecord 64 64 16 16 2 2 1,
      JsonNode.object "layers" layers ]

/-- The map loaded from a document, with the loader `demoLoader`. -/
def loadedMap (document : JsonNode) : LwMap :=
  (LoadMapFromMemory (some demoLoader) emptyMap (some document)).2

/-- A map of two by two tiles in chunks that are two tiles wide and one tile
high: one chunk by two chunks (32 by 32 pixels, 16 pixel tiles). -/
def wideChunkMap : LwMap :=
  { name := "wide"
    width := { px := 32, c := 1, t := 2 }
    height := { px := 32, c := 2, t := 2 }
    chunk_width := 2
    chunk_height := 1
    tile_width := 16
    tile_height := 16
    draw_distance := 0
    object_table := []
    layers := [] }

/-- A map of two by three tiles in a single chunk that is two tiles wide and
three tiles high (32 by 48 pixels, 16 pixel tiles). -/
def tallGridMap : LwMap :=
  { name := "tallgrid"
    width := { px := 32, c := 1, t := 2 }
    height := { px := 48, c := 1, t := 3 }
    chunk_width := 2
    chunk_height := 3
    tile_width := 16
    tile_height := 16
    draw_distance := 0
    object_table := []
    layers := [] }

/-- The map `LoadOptionsData` builds from the options 33554432 by 1 pixels,
tiles and chunks of one pixel: a strip of 2^25 tiles. -/
def stripMap : LwMap := (LoadOptionsData emptyMap (optionsRecord 33554432 1 1 1 1 1 0)).2

/-- The entity `splitEntity3` (3 by 2 tiles of 16 pixels) placed at the
position (0.1f, 0), 0.1f being the `float` nearest to 1/10. -/
def tenthEntity : LwObject :=
  { splitEntity3 with position := { x := f32 (1 / 10), y := 0 } }

/-- The entity `splitEntity3` placed at the integer position (-40, 24). -/
def movedEntity : LwObject :=
  { splitEntity3 with position := { x := -40, y := 24 } }

/-- A `scale_mul` member with the negative scale -3/2. -/
def negativeScale : JsonNode := JsonNode.number "scale_mul" (-3 / 2)

/-- The map `LoadOptionsData` builds from the options of `documentOf`: 64 by
64 pixels, tiles of 16 by 16 pixels, chunks of 2 by 2 tiles, draw distance
1. -/
def optionsMap : LwMap := (LoadOptionsData emptyMap (optionsRecord 64 64 16 16 2 2 1)).2

/-! ## Arithmetic lemmas -/

theorem truncToInt_intCast (n : Int) : truncToInt (n : ℚ) = n := by
  simp [truncToInt]

/-! ## Floating-point rounding and the cast to `int` -/

/-- On the values whose truncation is an `int` the cast is the truncation. -/
theorem castInt_of_range {v : ℚ} (h : (-2147483649 : ℚ) < v ∧ v < (2147483648 : ℚ)) :
    castInt v = truncToInt v := by
  unfold castInt
  rw [if_pos h]

/-- The cast of an integer of the `int` range is that integer. -/
theorem castInt_intCast (n : Int) (h0 : -2147483648 ≤ n) (h1 : n < 2147483648) :
    castInt (n : ℚ) = n := by
  rw [castInt_of_range, truncToInt_intCast]
  constructor
  · have h : ((-2147483649 : Int) : ℚ) < (n : ℚ) := by
      exact_mod_cast (show (-2147483649 : Int) < n by omega)
    simpa using h
  · exact_mod_cast h1

theorem two_pow_log2Fuel_le : ∀ (fuel n : Nat), 1 ≤ n → 2 ^ log2Fuel fuel n ≤ n
  | 0, n, h => by simpa [log2Fuel] using h
  | fuel + 1, n, h => by
    unfold log2Fuel
    split_ifs with h2
    · simpa using h
    · have ih := two_pow_log2Fuel_le fuel (n / 2) (by omega)
      rw [pow_succ]
      omega

/-- A positive number below `2 ^ k` has its highest binary digit below
position `k`. -/
theorem ilog2_lt_of_lt_two_pow {n k : Nat} (hn : 1 ≤ n) (h : n < 2 ^ k) : ilog2 n < k := by
  have h1 : 2 ^ ilog2 n ≤ n := two_pow_log2Fuel_le n n hn
  by_contra hk
  have h2 : 2 ^ k ≤ 2 ^ ilog2 n := Nat.pow_le_pow_right (by norm_num) (not_lt.mp hk)
  omega

theorem binade_le (q : ℚ) :
    binade q ≤ (ilog2 q.num.natAbs : Int) - (ilog2 q.den : Int) := by
  unfold binade
  split_ifs <;> omega

theorem roundHalfEven_intCast (m : Int) : roundHalfEven (m : ℚ) = m := by
  unfold roundHalfEven
  rw [Int.floor_intCast, sub_self, if_pos (by norm_num)]

/-- An integer with fewer than `p` binary digits is a floating-point value
with a significand of `p` digits: rounding leaves it as it is. -/
theorem roundBinary_intCast (p : Nat) (emin : Int) (n : Int) (hemin : emin ≤ 0)
    (h : n.natAbs < 2 ^ p) : roundBinary p emin (n : ℚ) = (n : ℚ) := by
  unfold roundBinary
  by_cases hn : (n : ℚ) = 0
  · rw [if_pos hn, hn]
  · rw [if_neg hn]
    have hn0 : n ≠ 0 := by
      intro h0
      exact hn (by rw [h0]; simp)
    have hpos : 1 ≤ n.natAbs := Nat.one_le_iff_ne_zero.mpr (Int.natAbs_ne_zero.mpr hn0)
    have hlog := ilog2_lt_of_lt_two_pow hpos h
    have hb := binade_le (n : ℚ)
    rw [Rat.num_intCast, Rat.den_intCast] at hb
    have h1 : ilog2 1 = 0 := by decide
    rw [h1] at hb
    have he : max (binade (n : ℚ) - ((p : Int) - 1)) emin ≤ 0 := by
      rw [max_le_iff]
      constructor
      · push_cast at hb ⊢
        omega
      · exact hemin
    obtain ⟨k, hk⟩ := Int.exists_eq_neg_ofNat he
    rw [hk]
    have hscaled : (n : ℚ) / (2 : ℚ) ^ (-(k : Int)) = ((n * 2 ^ k : Int) : ℚ) := by
      rw [zpow_neg, div_inv_eq_mul, zpow_natCast]
      push_cast
      ring
    rw [hscaled, roundHalfEven_intCast, zpow_neg, zpow_natCast]
    push_cast
    field_simp

/-- An integer of magnitude below `2 ^ 24` is a `float`. -/
theorem f32_intCast (n : Int) (h : n.natAbs < 2 ^ 24) : f32 (n : ℚ) = (n : ℚ) :=
  roundBinary_intCast 24 (-149) n (by decide) h

/-- An integer of magnitude below `2 ^ 53` is a `double`. -/
theorem f64_intCast (n : Int) (h : n.natAbs < 2 ^ 53) : f64 (n : ℚ) = (n : ℚ) :=
  roundBinary_intCast 53 (-1074) n (by decide) h

theorem f32_zero : f32 0 = 0 := by
  unfold f32 roundBinary
  rw [if_pos rfl]

/-- A `float` coordinate that is an integer `v` with `0 ≤ v < bound ≤ 2^24`
is stored exactly and cast back to `v`. -/
theorem castInt_f32_intCast (v bound : Int) (h0 : 0 ≤ v) (h1 : v < bound)
    (hb : bound ≤ 16777216) : castInt (f32 (v : ℚ)) = v := by
  rw [f32_intCast v (by omega), castInt_intCast v (by omega) (by omega)]


/-- For a valid row-major index the C quotient and remainder are the row and
the column, both in range. -/
theorem tdiv_tmod_of_index {w h i : Int} (hw : 0 < w) (hi0 : 0 ≤ i) (hi : i < w * h) :
    0 ≤ Int.tmod i w ∧ Int.tmod i w < w ∧ 0 ≤ Int.tdiv i w ∧ Int.tdiv i w < h
      ∧ Int.tdiv i w * w + Int.tmod i w = i := by
  rw [Int.tmod_eq_emod hi0 hw.le, Int.tdiv_eq_ediv hi0 hw.le]
  refine ⟨Int.emod_nonneg _ hw.ne', Int.emod_lt_of_pos _ hw, Int.ediv_nonneg hi0 hw.le, ?_, ?_⟩
  · exact Int.ediv_lt_of_lt_mul hw (by rw [Int.mul_comm] at hi; exact hi)
  · exact Int.ediv_add_emod' i w

/-- Scaling a coordinate by a positive size and resolving it again gives the
coordinate back, also after the wrap and the clamp of the resolver. -/
theorem resolve_scaled {a s w : Int} (hs : 0 < s) (ha0 : 0 ≤ a) (ha : a < w) :
    (if Int.tmod (Int.tdiv (a * s) s) w ≤ 0 then 0 else Int.tmod (Int.tdiv (a * s) s) w) = a := by
  rw [Int.mul_tdiv_cancel a hs.ne', Int.tmod_eq_of_lt ha0 ha]
  split_ifs with h
  · omega
  · rfl

/-- A chunk count that is the ceiling of tiles over chunk size brackets the
tile count. -/
theorem ceil_div_bounds {t s c : Int} (hs : 0 < s) (hc : ⌈(t : ℚ) / (s : ℚ)⌉ = c) :
    (c - 1) * s < t ∧ t ≤ c * s := by
  have hsq : (0 : ℚ) < (s : ℚ) := by exact_mod_cast hs
  rw [Int.ceil_eq_iff] at hc
  obtain ⟨h1, h2⟩ := hc
  rw [lt_div_iff₀ hsq] at h1
  rw [div_le_iff₀ hsq] at h2
  constructor
  · have : (((c - 1) * s : Int) : ℚ) < (t : ℚ) := by push_cast; exact h1
    exact_mod_cast this
  · have : ((t : Int) : ℚ) ≤ ((c * s : Int) : ℚ) := by push_cast; exact h2
    exact_mod_cast this

/-! ## Round trips and composition (C1 to C4) -/

/-- C1 fails as stated: `stripMap` (tile size 1 by 1, 33554432 by 1 tiles)
has positive tile sizes and a non-empty grid and 16777217 is a valid tile index
of it, but the pixel coordinate 16777217 of that tile is not a `float`: it is
stored as 16777216, and resolving the stored position gives the tile index
16777216. -/
theorem C1_counterexample :
    (0 < stripMap.tile_width ∧ 0 < stripMap.tile_height
      ∧ 0 < stripMap.width.t ∧ 0 < stripMap.height.t)
    ∧ ((0 : Int) ≤ 16777217 ∧ 16777217 < stripMap.width.t * stripMap.height.t)
    ∧ (TileIndexToPositionMap stripMap 16777217).x = 16777216
    ∧ PositionToTileIndexMap stripMap (TileIndexToPositionMap stripMap 16777217) = 16777216
    ∧ PositionToTileIndexMap stripMap (TileIndexToPositionMap stripMap 16777217)
        ≠ 16777217 := by
  decide!

/-- C1, amended. Map-space tile round trip: on a map with positive tile sizes,
a non-empty tile grid and pixel extents `width.t * tile_width` and
`height.t * tile_height` of at most 2^24 = 16777216 (so that every pixel
coordinate of a tile is a `float`), resolving the position of a valid tile
index gives the index back. -/
theorem C1_tile_roundtrip_map (map : LwMap) (i : Int)
    (htw : 0 < map.tile_width) (hth : 0 < map.tile_height)
    (hwt : 0 < map.width.t) (_hht : 0 < map.height.t)
    (hpx : map.width.t * map.tile_width ≤ 16777216)
    (hpy : map.height.t * map.tile_height ≤ 16777216)
    (hi0 : 0 ≤ i) (hi : i < map.width.t * map.height.t) :
    PositionToTileIndexMap map (TileIndexToPositionMap map i) = i := by
  obtain ⟨hx0, hx1, hy0, hy1, hsum⟩ := tdiv_tmod_of_index hwt hi0 hi
  have hcx : castInt (f32 ((Int.tmod i map.width.t * map.tile_width : Int) : ℚ))
      = Int.tmod i map.width.t * map.tile_width :=
    castInt_f32_intCast _ (map.width.t * map.tile_width) (Int.mul_nonneg hx0 htw.le)
      (Int.mul_lt_mul_of_pos_right hx1 htw) hpx
  have hcy : castInt (f32 ((Int.tdiv i map.width.t * map.tile_height : Int) : ℚ))
      = Int.tdiv i map.width.t * map.tile_height :=
    castInt_f32_intCast _ (map.height.t * map.tile_height) (Int.mul_nonneg hy0 hth.le)
      (Int.mul_lt_mul_of_pos_right hy1 hth) hpy
  simp only [PositionToTileIndexMap, TileIndexToPositionMap, GetMapTileX, GetMapTileY,
    hcx, hcy]
  rw [resolve_scaled htw hx0 hx1, resolve_scaled hth hy0 hy1]
  exact hsum

/-- Witness of C1 as amended on `demoMap`, tile index 5. -/
theorem C1_tile_roundtrip_map_witness :
    PositionToTileIndexMap demoMap (TileIndexToPositionMap demoMap 5) = 5 :=
  C1_tile_roundtrip_map demoMap 5 (by decide) (by decide) (by decide) (by decide)
    (by decide) (by decide) (by decide) (by decide)

/-- C3 fails as stated: for the entity `tenthEntity` (3 by 2 tiles of 16
pixels) placed at (0.1f, 0) the local tile index 2 is valid, its position is
stored as the `float` sum 0.1f + 32 = 32.09999847..., the `float` difference
of that position and 0.1f is 31.99999809..., below 32, and the position
resolves to the tile index 1. -/
theorem C3_counterexample :
    (0 < tenthEntity.width.t ∧ 0 < tenthEntity.height.t)
    ∧ ((0 : Int) ≤ 2 ∧ 2 < tenthEntity.width.t * tenthEntity.height.t)
    ∧ tenthEntity.position.x = 13421773 / 134217728
    ∧ (TileIndexToPositionObject (gridMap3 1) tenthEntity 2).x = 8414822 / 262144
    ∧ f32 ((TileIndexToPositionObject (gridMap3 1) tenthEntity 2).x
        - tenthEntity.position.x) = 16777215 / 524288
    ∧ PositionToTileIndexObject (gridMap3 1) tenthEntity
        (TileIndexToPositionObject (gridMap3 1) tenthEntity 2) = 1
    ∧ PositionToTileIndexObject (gridMap3 1) tenthEntity
        (TileIndexToPositionObject (gridMap3 1) tenthEntity 2) ≠ 2 := by
  decide!

/-- C3, amended. Object-space tile round trip: on a map with positive tile
sizes, for an entity with a non-empty local tile grid and pixel extents
`width.t * tile_width` and `height.t * tile_height` of at most 2^24, resolving
the position of a valid local tile index gives the index back whenever the two
`float` sums of the entity position and the pixel offset of the tile are exact
(no rounding in `position + offset`); in particular for every entity placed at
integer coordinates `(a, b)`, negative ones included, with
`|a| + width.t * tile_width ≤ 2^24` and `|b| + height.t * tile_height ≤ 2^24`. -/
theorem C3_tile_roundtrip_object (map : LwMap) (object : LwObject) (i : Int)
    (htw : 0 < map.tile_width) (hth : 0 < map.tile_height)
    (hwt : 0 < object.width.t) (_hht : 0 < object.height.t)
    (hpx : object.width.t * map.tile_width ≤ 16777216)
    (hpy : object.height.t * map.tile_height ≤ 16777216)
    (hi0 : 0 ≤ i) (hi : i < object.width.t * object.height.t) :
    (f32 (object.position.x + ((GetObjectTileX object i * map.tile_width : Int) : ℚ))
        = object.position.x + ((GetObjectTileX object i * map.tile_width : Int) : ℚ) →
      f32 (object.position.y + ((GetObjectTileY object i * map.tile_height : Int) : ℚ))
        = object.position.y + ((GetObjectTileY object i * map.tile_height : Int) : ℚ) →
      PositionToTileIndexObject map object (TileIndexToPositionObject map object i) = i)
    ∧ (∀ a b : Int, object.position.x = (a : ℚ) → object.position.y = (b : ℚ) →
      |a| + object.width.t * map.tile_width ≤ 16777216 →
      |b| + object.height.t * map.tile_height ≤ 16777216 →
      PositionToTileIndexObject map object (TileIndexToPositionObject map object i) = i) := by
  obtain ⟨hx0, hx1, hy0, hy1, hsum⟩ := tdiv_tmod_of_index hwt hi0 hi
  have hnx0 : 0 ≤ Int.tmod i object.width.t * map.tile_width := Int.mul_nonneg hx0 htw.le
  have hny0 : 0 ≤ Int.tdiv i object.width.t * map.tile_height := Int.mul_nonneg hy0 hth.le
  have hnx1 : Int.tmod i object.width.t * map.tile_width
      < object.width.t * map.tile_width := Int.mul_lt_mul_of_pos_right hx1 htw
  have hny1 : Int.tdiv i object.width.t * map.tile_height
      < object.height.t * map.tile_height := Int.mul_lt_mul_of_pos_right hy1 hth
  have hfx : f32 ((Int.tmod i object.width.t * map.tile_width : Int) : ℚ)
      = ((Int.tmod i object.width.t * map.tile_width : Int) : ℚ) :=
    f32_intCast _ (by omega)
  have hfy : f32 ((Int.tdiv i object.width.t * map.tile_height : Int) : ℚ)
      = ((Int.tdiv i object.width.t * map.tile_height : Int) : ℚ) :=
    f32_intCast _ (by omega)
  have hcx := castInt_intCast (Int.tmod i object.width.t * map.tile_width)
    (by omega) (by omega)
  have hcy := castInt_intCast (Int.tdiv i object.width.t * map.tile_height)
    (by omega) (by omega)
  have hmain : f32 (object.position.x
        + ((GetObjectTileX object i * map.tile_width : Int) : ℚ))
        = object.position.x + ((GetObjectTileX object i * map.tile_width : Int) : ℚ) →
      f32 (object.position.y + ((GetObjectTileY object i * map.tile_height : Int) : ℚ))
        = object.position.y + ((GetObjectTileY object i * map.tile_height : Int) : ℚ) →
      PositionToTileIndexObject map object (TileIndexToPositionObject map object i)
        = i := by
    intro hex hey
    simp only [GetObjectTileX, GetObjectTileY] at hex hey
    simp only [PositionToTileIndexObject, TileIndexToPositionObject, GetObjectTileX,
      GetObjectTileY, hfx, hfy, hex, hey, add_sub_cancel_left, hcx, hcy]
    rw [resolve_scaled htw hx0 hx1, resolve_scaled hth hy0 hy1]
    exact hsum
  refine ⟨hmain, ?_⟩
  intro a b ha hb hba hbb
  have ha1 := neg_abs_le a
  have ha2 := le_abs_self a
  have hb1 := neg_abs_le b
  have hb2 := le_abs_self b
  apply hmain
  · rw [ha]
    simp only [GetObjectTileX]
    have h := f32_intCast (a + Int.tmod i object.width.t * map.tile_width) (by omega)
    push_cast at h ⊢
    exact h
  · rw [hb]
    simp only [GetObjectTileY]
    have h := f32_intCast (b + Int.tdiv i object.width.t * map.tile_height) (by omega)
    push_cast at h ⊢
    exact h

/-- Witness of C3 as amended: the entity `movedEntity` at the integer
position (-40, 24) on `gridMap3 1`, local tile index 4. -/
theorem C3_tile_roundtrip_object_witness :
    PositionToTileIndexObject (gridMap3 1) movedEntity
      (TileIndexToPositionObject (gridMap3 1) movedEntity 4) = 4 :=
  (C3_tile_roundtrip_object (gridMap3 1) movedEntity 4 (by decide) (by decide) (by decide)
    (by decide) (by decide) (by decide) (by decide) (by decide)).2 (-40) 24
    (by norm_num [movedEntity]) (by norm_num [movedEntity]) (by decide) (by decide)

theorem tdiv_eq_floor {a b : Int} (ha : 0 ≤ a) (hb : 0 < b) :
    Int.tdiv a b = ⌊(a : ℚ) / (b : ℚ)⌋ := by
  rw [Int.tdiv_eq_ediv ha hb.le]
  symm
  rw [Int.floor_eq_iff]
  have hbq : (0 : ℚ) < (b : ℚ) := by exact_mod_cast hb
  constructor
  · rw [le_div_iff₀ hbq]
    have := Int.ediv_mul_le a hb.ne'
    exact_mod_cast this
  · rw [div_lt_iff₀ hbq]
    have := Int.lt_ediv_add_one_mul_self a hb
    exact_mod_cast this

theorem chunkCount_eq_ceil {t s : Int} (ht : 0 ≤ t) (hs : 0 < s) :
    chunkCount t s = ⌈(t : ℚ) / (s : ℚ)⌉ := by
  have hsq : (0 : ℚ) < (s : ℚ) := by exact_mod_cast hs
  have hdm := Int.emod_add_ediv t s
  have hm0 := Int.emod_nonneg t hs.ne'
  have hm1 := Int.emod_lt_of_pos t hs
  unfold chunkCount
  rw [Int.tmod_eq_emod ht hs.le, Int.tdiv_eq_ediv ht hs.le]
  symm
  rw [Int.ceil_eq_iff]
  split_ifs with h
  · constructor
    · rw [lt_div_iff₀ hsq]
      have : (t / s + 1 - 1) * s < t := by
        have : (t / s) * s = s * (t / s) := Int.mul_comm _ _
        have h' : 0 < t % s := by omega
        rw [Int.add_sub_cancel]; omega
      have h2 : (((t / s + 1 - 1) * s : Int) : ℚ) < (t : ℚ) := by exact_mod_cast this
      push_cast at h2 ⊢
      exact h2
    · rw [div_le_iff₀ hsq]
      have : t ≤ (t / s + 1) * s := by
        have : (t / s + 1) * s = s * (t / s) + s := by ring
        omega
      have h2 : ((t : Int) : ℚ) ≤ (((t / s + 1) * s : Int) : ℚ) := by exact_mod_cast this
      push_cast at h2 ⊢
      exact h2
  · have h0 : t % s = 0 := by omega
    have ht' : t = (t / s) * s := by
      have : (t / s) * s = s * (t / s) := Int.mul_comm _ _
      omega
    constructor
    · rw [lt_div_iff₀ hsq]
      have : (t / s - 1) * s < t := by
        have : (t / s - 1) * s = (t / s) * s - s := by ring
        omega
      have h2 : (((t / s - 1) * s : Int) : ℚ) < (t : ℚ) := by exact_mod_cast this
      push_cast at h2 ⊢
      exact h2
    · rw [div_le_iff₀ hsq]
      have h2 : ((t : Int) : ℚ) ≤ (((t / s) * s : Int) : ℚ) := by exact_mod_cast ht'.le
      push_cast at h2 ⊢
      exact h2

/-- What a successful `LoadOptionsData` leaves in the map: positive sizes and
the derived tile and chunk counts. -/
theorem LoadOptionsData_ok (map : LwMap) (node : JsonNode)
    (hok : (LoadOptionsData map node).1 = true) :
    0 < (LoadOptionsData map node).2.width.px ∧ 0 < (LoadOptionsData map node).2.height.px
      ∧ 0 < (LoadOptionsData map node).2.tile_width
      ∧ 0 < (LoadOptionsData map node).2.tile_height
      ∧ 0 < (LoadOptionsData map node).2.chunk_width
      ∧ 0 < (LoadOptionsData map node).2.chunk_height
      ∧ (LoadOptionsData map node).2.width.t
          = Int.tdiv (LoadOptionsData map node).2.width.px
              (LoadOptionsData map node).2.tile_width
      ∧ (LoadOptionsData map node).2.height.t
          = Int.tdiv (LoadOptionsData map node).2.height.px
              (LoadOptionsData map node).2.tile_height
      ∧ (LoadOptionsData map node).2.width.c
          = chunkCount (LoadOptionsData map node).2.width.t
              (LoadOptionsData map node).2.chunk_width
      ∧ (LoadOptionsData map node).2.height.c
          = chunkCount (LoadOptionsData map node).2.height.t
              (LoadOptionsData map node).2.chunk_height := by
  revert hok
  unfold LoadOptionsData
  generalize List.foldl LoadOptionsData.member map node.children = m
  simp only
  split_ifs with h1 h2 h3
  · simp
  · simp
  · intro _
    simp only [not_or, not_le] at h1
    obtain ⟨a, b, c, d, e, f⟩ := h1
    exact ⟨a, b, c, d, e, f, rfl, rfl, rfl, rfl⟩
  · intro _
    simp only [not_or, not_le] at h1
    obtain ⟨a, b, c, d, e, f⟩ := h1
    exact ⟨a, b, c, d, e, f, rfl, rfl, rfl, rfl⟩

/-! ## Unit derivation (C5) -/

/-- After a successful `LoadOptionsData32` the sizes are positive and the tile
and chunk counts are the C quotients that the function computes from them. -/
theorem LoadOptionsData32_ok (map : LwMap) (node : JsonNode)
    (hok : (LoadOptionsData32 map node).1 = true) :
    0 < (LoadOptionsData32 map node).2.width.px ∧ 0 < (LoadOptionsData32 map node).2.height.px
      ∧ 0 < (LoadOptionsData32 map node).2.tile_width
      ∧ 0 < (LoadOptionsData32 map node).2.tile_height
      ∧ 0 < (LoadOptionsData32 map node).2.chunk_width
      ∧ 0 < (LoadOptionsData32 map node).2.chunk_height
      ∧ (LoadOptionsData32 map node).2.width.t
          = Int.tdiv (LoadOptionsData32 map node).2.width.px
              (LoadOptionsData32 map node).2.tile_width
      ∧ (LoadOptionsData32 map node).2.height.t
          = Int.tdiv (LoadOptionsData32 map node).2.height.px
              (LoadOptionsData32 map node).2.tile_height
      ∧ (LoadOptionsData32 map node).2.width.c
          = chunkCount (LoadOptionsData32 map node).2.width.t
              (LoadOptionsData32 map node).2.chunk_width
      ∧ (LoadOptionsData32 map node).2.height.c
          = chunkCount (LoadOptionsData32 map node).2.height.t
              (LoadOptionsData32 map node).2.chunk_height := by
  revert hok
  unfold LoadOptionsData32
  generalize List.foldl LoadOptionsData.member32 map node.children = m
  simp only
  split_ifs with h1 h2 h3
  · simp
  · simp
  · intro _
    simp only [not_or, not_le] at h1
    obtain ⟨a, b, c, d, e, f⟩ := h1
    exact ⟨a, b, c, d, e, f, rfl, rfl, rfl, rfl⟩
  · intro _
    simp only [not_or, not_le] at h1
    obtain ⟨a, b, c, d, e, f⟩ := h1
    exact ⟨a, b, c, d, e, f, rfl, rfl, rfl, rfl⟩

/-- C5 fails as stated for an entity: on the map loaded from `demoOptions`
(tiles of 16 pixels, chunks of 3 by 2 tiles) the entity `demoObject` (texture
of 48 by 32 pixels) with the scale -3/2 gets the pixel width -72, the tile
width -4 (the C quotient, truncated toward zero), where the floor of -72 / 16
is -5, and the chunk width 0, where the ceiling of -4 / 3 is -1; the chunk
height is 0, where the ceiling of -3 / 2 is -1. -/
theorem C5_counterexample :
    (LoadOptionsData32 emptyMap demoOptions).1 = true
    ∧ (LoadOptionsData32 emptyMap demoOptions).2.tile_width = 16
    ∧ (LoadOptionsData32 emptyMap demoOptions).2.chunk_width = 3
    ∧ (LoadOptionsData32 emptyMap demoOptions).2.chunk_height = 2
    ∧ (LoadObjectsData.scale_mul (LoadOptionsData32 emptyMap demoOptions).2 demoObject
        negativeScale).width.px = -72
    ∧ (LoadObjectsData.scale_mul (LoadOptionsData32 emptyMap demoOptions).2 demoObject
        negativeScale).width.t = -4
    ∧ ⌊((-72 : Int) : ℚ) / ((16 : Int) : ℚ)⌋ = -5
    ∧ (LoadObjectsData.scale_mul (LoadOptionsData32 emptyMap demoOptions).2 demoObject
        negativeScale).width.t
      ≠ ⌊((LoadObjectsData.scale_mul (LoadOptionsData32 emptyMap demoOptions).2 demoObject
            negativeScale).width.px : ℚ)
          / ((LoadOptionsData32 emptyMap demoOptions).2.tile_width : ℚ)⌋
    ∧ (LoadObjectsData.scale_mul (LoadOptionsData32 emptyMap demoOptions).2 demoObject
        negativeScale).width.c = 0
    ∧ ⌈((-4 : Int) : ℚ) / ((3 : Int) : ℚ)⌉ = -1
    ∧ (LoadObjectsData.scale_mul (LoadOptionsData32 emptyMap demoOptions).2 demoObject
        negativeScale).width.c
      ≠ ⌈((LoadObjectsData.scale_mul (LoadOptionsData32 emptyMap demoOptions).2 demoObject
            negativeScale).width.t : ℚ)
          / ((LoadOptionsData32 emptyMap demoOptions).2.chunk_width : ℚ)⌉
    ∧ (LoadObjectsData.scale_mul (LoadOptionsData32 emptyMap demoOptions).2 demoObject
        negativeScale).height.t = -3
    ∧ (LoadObjectsData.scale_mul (LoadOptionsData32 emptyMap demoOptions).2 demoObject
        negativeScale).height.c = 0
    ∧ ⌈((-3 : Int) : ℚ) / ((2 : Int) : ℚ)⌉ = -1 := by
  have h1 : (LoadOptionsData32 emptyMap demoOptions).2.tile_width = 16 := by decide
  have h2 : (LoadOptionsData32 emptyMap demoOptions).2.chunk_width = 3 := by decide
  have h3 : (LoadObjectsData.scale_mul (LoadOptionsData32 emptyMap demoOptions).2 demoObject
      negativeScale).width.px = -72 := by decide!
  have h4 : (LoadObjectsData.scale_mul (LoadOptionsData32 emptyMap demoOptions).2 demoObject
      negativeScale).width.t = -4 := by decide!
  have h5 : (LoadObjectsData.scale_mul (LoadOptionsData32 emptyMap demoOptions).2 demoObject
      negativeScale).width.c = 0 := by decide!
  have hf : ⌊((-72 : Int) : ℚ) / ((16 : Int) : ℚ)⌋ = -5 := by
    rw [Int.floor_eq_iff]; norm_num
  have hc : ⌈((-4 : Int) : ℚ) / ((3 : Int) : ℚ)⌉ = -1 := by
    rw [Int.ceil_eq_iff]; norm_num
  have hc2 : ⌈((-3 : Int) : ℚ) / ((2 : Int) : ℚ)⌉ = -1 := by
    rw [Int.ceil_eq_iff]; norm_num
  refine ⟨by decide, h1, by decide, by decide, h3, h4, hf, ?_, h5, hc, ?_, by decide!,
    by decide!, hc2⟩
  · rw [h3, h4, h1, hf]; decide
  · rw [h4, h5, h2, hc]; decide

/-- C5, amended. MapUnit derivation: after a successful `LoadOptionsData`
(members cast by `castInt`) the tile counts are the floors of pixels over tile
size and the chunk counts are the ceilings of tiles over chunk size; on such a
map the same equations relate the extents of an entity once its scale is
loaded, provided the pixel extents the scale gives the entity are not
negative. -/
theorem C5_map_unit_derivation (map : LwMap) (node : JsonNode)
    (object : LwObject) (node_object : JsonNode)
    (hok : (LoadOptionsData32 map node).1 = true)
    (hpw : 0 ≤ (LoadObjectsData.scale_mul (LoadOptionsData32 map node).2 object
      node_object).width.px)
    (hph : 0 ≤ (LoadObjectsData.scale_mul (LoadOptionsData32 map node).2 object
      node_object).height.px) :
    ((LoadOptionsData32 map node).2.width.t
        = ⌊((LoadOptionsData32 map node).2.width.px : ℚ)
            / ((LoadOptionsData32 map node).2.tile_width : ℚ)⌋
      ∧ (LoadOptionsData32 map node).2.height.t
        = ⌊((LoadOptionsData32 map node).2.height.px : ℚ)
            / ((LoadOptionsData32 map node).2.tile_height : ℚ)⌋
      ∧ (LoadOptionsData32 map node).2.width.c
        = ⌈((LoadOptionsData32 map node).2.width.t : ℚ)
            / ((LoadOptionsData32 map node).2.chunk_width : ℚ)⌉
      ∧ (LoadOptionsData32 map node).2.height.c
        = ⌈((LoadOptionsData32 map node).2.height.t : ℚ)
            / ((LoadOptionsData32 map node).2.chunk_height : ℚ)⌉)
    ∧ ((LoadObjectsData.scale_mul (LoadOptionsData32 map node).2 object node_object).width.t
        = ⌊((LoadObjectsData.scale_mul (LoadOptionsData32 map node).2 object
              node_object).width.px : ℚ)
            / ((LoadOptionsData32 map node).2.tile_width : ℚ)⌋
      ∧ (LoadObjectsData.scale_mul (LoadOptionsData32 map node).2 object node_object).height.t
        = ⌊((LoadObjectsData.scale_mul (LoadOptionsData32 map node).2 object
              node_object).height.px : ℚ)
            / ((LoadOptionsData32 map node).2.tile_height : ℚ)⌋
      ∧ (LoadObjectsData.scale_mul (LoadOptionsData32 map node).2 object node_object).width.c
        = ⌈((LoadObjectsData.scale_mul (LoadOptionsData32 map node).2 object
              node_object).width.t : ℚ)
            / ((LoadOptionsData32 map node).2.chunk_width : ℚ)⌉
      ∧ (LoadObjectsData.scale_mul (LoadOptionsData32 map node).2 object node_object).height.c
        = ⌈((LoadObjectsData.scale_mul (LoadOptionsData32 map node).2 object
              node_object).height.t : ℚ)
            / ((LoadOptionsData32 map node).2.chunk_height : ℚ)⌉) := by
  obtain ⟨hpx, hpy, htw, hth, hcw, hch, hwt, hht, hwc, hhc⟩ := LoadOptionsData32_ok map node hok
  generalize (LoadOptionsData32 map node).2 = m at *
  have hwt0 : 0 ≤ m.width.t := by rw [hwt]; exact Int.tdiv_nonneg hpx.le htw.le
  have hht0 : 0 ≤ m.height.t := by rw [hht]; exact Int.tdiv_nonneg hpy.le hth.le
  refine ⟨⟨?_, ?_, ?_, ?_⟩, ?_⟩
  · rw [hwt]; exact tdiv_eq_floor hpx.le htw
  · rw [hht]; exact tdiv_eq_floor hpy.le hth
  · rw [hwc]; exact chunkCount_eq_ceil hwt0 hcw
  · rw [hhc]; exact chunkCount_eq_ceil hht0 hch
  · simp only [LoadObjectsData.scale_mul] at hpw hph ⊢
    refine ⟨tdiv_eq_floor hpw htw, tdiv_eq_floor hph hth, ?_, ?_⟩
    · exact chunkCount_eq_ceil (Int.tdiv_nonneg hpw htw.le) hcw
    · exact chunkCount_eq_ceil (Int.tdiv_nonneg hph hth.le) hch

/-- Witness of C5: `demoOptions` loaded into an empty map, and `demoObject`
(texture of 48 by 32 pixels) with the scale 3/2. -/
theorem C5_map_unit_derivation_witness :
    ((LoadOptionsData32 emptyMap demoOptions).2.width.t
        = ⌊((LoadOptionsData32 emptyMap demoOptions).2.width.px : ℚ)
            / ((LoadOptionsData32 emptyMap demoOptions).2.tile_width : ℚ)⌋
      ∧ (LoadOptionsData32 emptyMap demoOptions).2.height.t
        = ⌊((LoadOptionsData32 emptyMap demoOptions).2.height.px : ℚ)
            / ((LoadOptionsData32 emptyMap demoOptions).2.tile_height : ℚ)⌋
      ∧ (LoadOptionsData32 emptyMap demoOptions).2.width.c
        = ⌈((LoadOptionsData32 emptyMap demoOptions).2.width.t : ℚ)
            / ((LoadOptionsData32 emptyMap demoOptions).2.chunk_width : ℚ)⌉
      ∧ (LoadOptionsData32 emptyMap demoOptions).2.height.c
        = ⌈((LoadOptionsData32 emptyMap demoOptions).2.height.t : ℚ)
            / ((LoadOptionsData32 emptyMap demoOptions).2.chunk_height : ℚ)⌉)
    ∧ ((LoadObjectsData.scale_mul (LoadOptionsData32 emptyMap demoOptions).2 demoObject demoScale).width.t
        = ⌊((LoadObjectsData.scale_mul (LoadOptionsData32 emptyMap demoOptions).2 demoObject
              demoScale).width.px : ℚ)
            / ((LoadOptionsData32 emptyMap demoOptions).2.tile_width : ℚ)⌋
      ∧ (LoadObjectsData.scale_mul (LoadOptionsData32 emptyMap demoOptions).2 demoObject demoScale).height.t
        = ⌊((LoadObjectsData.scale_mul (LoadOptionsData32 emptyMap demoOptions).2 demoObject
              demoScale).height.px : ℚ)
            / ((LoadOptionsData32 emptyMap demoOptions).2.tile_height : ℚ)⌋
      ∧ (LoadObjectsData.scale_mul (LoadOptionsData32 emptyMap demoOptions).2 demoObject demoScale).width.c
        = ⌈((LoadObjectsData.scale_mul (LoadOptionsData32 emptyMap demoOptions).2 demoObject
              demoScale).width.t : ℚ)
            / ((LoadOptionsData32 emptyMap demoOptions).2.chunk_width : ℚ)⌉
      ∧ (LoadObjectsData.scale_mul (LoadOptionsData32 emptyMap demoOptions).2 demoObject demoScale).height.c
        = ⌈((LoadObjectsData.scale_mul (LoadOptionsData32 emptyMap demoOptions).2 demoObject
              demoScale).height.t : ℚ)
            / ((LoadOptionsData32 emptyMap demoOptions).2.chunk_height : ℚ)⌉) :=
  C5_map_unit_derivation emptyMap demoOptions demoObject demoScale (by decide)
    (by decide!) (by decide!)

/-! ## Window buffer lemmas -/

theorem writeAt_natCast {α : Type} (a : List α) (n : Nat) (v : α) :
    writeAt a (n : Int) v = a.set n v := by
  simp [writeAt]

/-- A loop that appends the kept values of its iterations at a cursor leaves
the kept values, in order, from the start position of the cursor. -/
theorem foldl_write {β : Type} (f : β → Option Int)
    (step : List Int × Int → β → List Int × Int)
    (hstep : ∀ st b, step st b = match f b with
      | none => st
      | some v => (writeAt st.1 st.2 v, st.2 + 1)) :
    ∀ (l : List β) (buf : List Int) (n : Nat), n + (l.filterMap f).length ≤ buf.length →
      l.foldl step (buf, (n : Int))
        = (buf.take n ++ l.filterMap f ++ buf.drop (n + (l.filterMap f).length),
            ((n + (l.filterMap f).length : Nat) : Int)) := by
  intro l
  induction l with
  | nil => intro buf n _; simp
  | cons b l ih =>
    intro buf n hlen
    rw [List.foldl_cons, hstep]
    cases hb : f b with
    | none =>
      simp only [List.filterMap_cons, hb] at hlen ⊢
      exact ih buf n hlen
    | some v =>
      simp only [List.filterMap_cons, hb, List.length_cons] at hlen ⊢
      have hn : n < buf.length := by omega
      have h1 : ((n : Int) + 1) = ((n + 1 : Nat) : Int) := by push_cast; rfl
      rw [writeAt_natCast, h1, ih (buf.set n v) (n + 1) (by simp; omega)]
      have hset : buf.set n v = List.take n buf ++ v :: List.drop (n + 1) buf := by
        rw [List.set_eq_take_append_cons_drop, if_pos hn]
      have htl : (List.take n buf).length = n := by simp; omega
      congr 1
      · rw [hset]
        have e1 : List.take (n + 1) (List.take n buf ++ v :: List.drop (n + 1) buf)
            = List.take n buf ++ [v] := by
          rw [List.take_append_eq_append_take, htl]
          simp
        have e2 : List.drop (n + 1 + (List.filterMap f l).length)
              (List.take n buf ++ v :: List.drop (n + 1) buf)
            = List.drop (n + ((List.filterMap f l).length + 1)) buf := by
          rw [List.drop_append_eq_append_drop, htl]
          have : n + 1 + (List.filterMap f l).length - n
              = (List.filterMap f l).length + 1 := by omega
          rw [this, List.drop_succ_cons, List.drop_drop]
          have h0 : List.drop (n + 1 + (List.filterMap f l).length) (List.take n buf)
              = [] := by
            apply List.drop_eq_nil_of_le; omega
          rw [h0]
          simp only [List.nil_append]
          congr 1; omega
        rw [e1, e2]
        simp
      · congr 1; omega

/-- Two nested loops are one loop over the enumeration of their bodies. -/
theorem foldl_nested {σ α β γ : Type} (h : σ → γ → σ) (c : α → β → γ) (xs : List β) :
    ∀ (ys : List α) (init : σ),
      ys.foldl (fun st y => xs.foldl (fun st x => h st (c y x)) st) init
        = (ys.flatMap (fun y => xs.map (c y))).foldl h init := by
  intro ys
  induction ys with
  | nil => intro init; rfl
  | cons y ys ih =>
    intro init
    rw [List.foldl_cons, ih, List.flatMap_cons, List.foldl_append, List.foldl_map]

theorem length_descRange (d : Int) : (descRange d).length = (2 * d + 1).toNat := by
  simp [descRange]

theorem length_windowCandidates (d cx cy : Int) :
    (windowCandidates d cx cy).length = (2 * d + 1).toNat * (2 * d + 1).toNat := by
  simp [windowCandidates, List.length_flatMap, length_descRange, Function.comp_def]

theorem length_windowSpec_le (width_c height_c d cx cy : Int) :
    (windowSpec width_c height_c d cx cy).length ≤ ((2 * d + 1) * (2 * d + 1)).toNat := by
  have h1 : (windowSpec width_c height_c d cx cy).length
      ≤ (2 * d + 1).toNat * (2 * d + 1).toNat := by
    rw [← length_windowCandidates d cx cy]
    exact List.length_filterMap_le _ _
  have h2 : (2 * d + 1).toNat * (2 * d + 1).toNat ≤ ((2 * d + 1) * (2 * d + 1)).toNat := by
    rcases le_or_lt 0 (2 * d + 1) with h | h
    · lift 2 * d + 1 to Nat using h with k
      rw [← Int.natCast_mul, Int.toNat_natCast, Int.toNat_natCast]
    · rw [Int.toNat_of_nonpos h.le]
      simp
  omega

/-- The skip test of the loop body is the grid test of the specification. -/
theorem keep_step (width_c height_c x y : Int) (st : List Int × Int) :
    (if x < 0 ∨ x > width_c - 1 ∨ y < 0 ∨ y > height_c - 1 then st
      else (writeAt st.1 st.2 ((y * width_c) + x), st.2 + 1))
      = match keepCandidate width_c height_c (x, y) with
        | none => st
        | some v => (writeAt st.1 st.2 v, st.2 + 1) := by
  unfold keepCandidate
  by_cases h : 0 ≤ x ∧ x < width_c ∧ 0 ≤ y ∧ y < height_c
  · rw [if_pos h, if_neg (by omega)]
  · rw [if_neg h, if_pos (by omega)]

/-- The loops of `UpdateAdjacentChunkIndexes` on a grid of `width_c` by
`height_c` chunks around the chunk `(cx, cy)`: the kept candidates of the
specification are written from slot 0, the rest of the buffer is untouched and
the cursor ends at their number. -/
theorem loops_grid (map : LwMap) (object : LwObject) (index : Int) (indexes : List Int)
    (width_c height_c cx cy : Int)
    (hbody : ∀ dy st dx, UpdateAdjacentChunkIndexes.step map object index dy st dx
      = if cx - dx < 0 ∨ cx - dx > width_c - 1 ∨ cy - dy < 0 ∨ cy - dy > height_c - 1 then st
        else (writeAt st.1 st.2 (((cy - dy) * width_c) + (cx - dx)), st.2 + 1))
    (hlen : (GetAdjacentChunkCount map).toNat ≤ indexes.length) :
    UpdateAdjacentChunkIndexes.loops map object index indexes
      = (windowSpec width_c height_c map.draw_distance cx cy
          ++ indexes.drop (windowSpec width_c height_c map.draw_distance cx cy).length,
         ((windowSpec width_c height_c map.draw_distance cx cy).length : Int)) := by
  have hle := length_windowSpec_le width_c height_c map.draw_distance cx cy
  unfold GetAdjacentChunkCount at hlen
  have hstep : (fun (st : List Int × Int) (dy : Int) =>
        (descRange map.draw_distance).foldl
          (UpdateAdjacentChunkIndexes.step map object index dy) st)
      = (fun st dy => (descRange map.draw_distance).foldl
          (fun st dx => (fun (st : List Int × Int) (cand : Int × Int) =>
              match keepCandidate width_c height_c cand with
              | none => st
              | some v => (writeAt st.1 st.2 v, st.2 + 1)) st
            ((fun dy dx => (cx - dx, cy - dy)) dy dx))
          st) := by
    funext st dy
    congr 1
    funext st dx
    rw [hbody]
    exact keep_step _ _ _ _ _
  unfold UpdateAdjacentChunkIndexes.loops
  rw [hstep]
  refine Eq.trans (foldl_nested
    (fun (st : List Int × Int) (cand : Int × Int) =>
      match keepCandidate width_c height_c cand with
      | none => st
      | some v => (writeAt st.1 st.2 v, st.2 + 1))
    (fun dy dx => (cx - dx, cy - dy))
    (descRange map.draw_distance) (descRange map.draw_distance) (indexes, 0)) ?_
  have hw := foldl_write (keepCandidate width_c height_c) _ (fun _ _ => rfl)
    (windowCandidates map.draw_distance cx cy)
    indexes 0 (by
      have : (windowSpec width_c height_c map.draw_distance cx cy).length
          = ((windowCandidates map.draw_distance cx cy).filterMap
                (keepCandidate width_c height_c)).length := rfl
      omega)
  refine Eq.trans hw ?_
  simp [windowSpec]

/-- The loops on the map grid (tileset entity). -/
theorem loops_map (map : LwMap) (object : LwObject) (index : Int) (indexes : List Int)
    (hmode : (object.tileset && !object.auto_split) = true)
    (hlen : (GetAdjacentChunkCount map).toNat ≤ indexes.length) :
    UpdateAdjacentChunkIndexes.loops map object index indexes
      = (windowSpec map.width.c map.height.c map.draw_distance
            (GetMapChunkX map index) (GetMapChunkY map index)
          ++ indexes.drop (windowSpec map.width.c map.height.c map.draw_distance
            (GetMapChunkX map index) (GetMapChunkY map index)).length,
         ((windowSpec map.width.c map.height.c map.draw_distance
            (GetMapChunkX map index) (GetMapChunkY map index)).length : Int)) :=
  loops_grid map object index indexes _ _ _ _
    (fun dy st dx => by simp only [UpdateAdjacentChunkIndexes.step, hmode, if_true]) hlen

/-- The loops on the grid of the entity (any entity that is not a tileset
entity, auto-split entities in particular). -/
theorem loops_object (map : LwMap) (object : LwObject) (index : Int) (indexes : List Int)
    (hmode : (object.tileset && !object.auto_split) = false)
    (hlen : (GetAdjacentChunkCount map).toNat ≤ indexes.length) :
    UpdateAdjacentChunkIndexes.loops map object index indexes
      = (windowSpec object.width.c object.height.c map.draw_distance
            (GetObjectChunkX object index) (GetObjectChunkY object index)
          ++ indexes.drop (windowSpec object.width.c object.height.c map.draw_distance
            (GetObjectChunkX object index) (GetObjectChunkY object index)).length,
         ((windowSpec object.width.c object.height.c map.draw_distance
            (GetObjectChunkX object index) (GetObjectChunkY object index)).length : Int)) :=
  loops_grid map object index indexes _ _ _ _
    (fun dy st dx => by
      simp only [UpdateAdjacentChunkIndexes.step, hmode, Bool.false_eq_true, if_false]) hlen

/-! ## Properties of the window -/

/-- Every entry of the window is the linear index of a chunk of the grid. -/
theorem mem_windowSpec {width_c height_c d cx cy e : Int}
    (he : e ∈ windowSpec width_c height_c d cx cy) :
    ∃ x y, 0 ≤ x ∧ x < width_c ∧ 0 ≤ y ∧ y < height_c ∧ e = y * width_c + x := by
  unfold windowSpec at he
  rw [List.mem_filterMap] at he
  obtain ⟨cand, _, hk⟩ := he
  unfold keepCandidate at hk
  split_ifs at hk with h
  exact ⟨cand.1, cand.2, h.1, h.2.1, h.2.2.1, h.2.2.2, (Option.some.inj hk).symm⟩

/-- The chunk coordinates of a linear index built from in-range coordinates. -/
theorem coords_of_linear {w x y : Int} (hx0 : 0 ≤ x) (hx : x < w) (hy0 : 0 ≤ y) :
    Int.tmod (y * w + x) w = x ∧ Int.tdiv (y * w + x) w = y := by
  have hw : 0 < w := by omega
  have h0 : 0 ≤ y * w + x := Int.add_nonneg (Int.mul_nonneg hy0 hw.le) hx0
  rw [Int.tmod_eq_emod h0 hw.le, Int.tdiv_eq_ediv h0 hw.le]
  constructor
  · rw [Int.add_comm, Int.add_mul_emod_self]
    exact Int.emod_eq_of_lt hx0 hx
  · rw [Int.add_comm, Int.add_mul_ediv_right _ _ hw.ne', Int.ediv_eq_zero_of_lt hx0 hx]
    omega

theorem pairwise_descRange (d : Int) : (descRange d).Pairwise (fun a b => b < a) := by
  unfold descRange
  rw [List.pairwise_map]
  exact (List.pairwise_lt_range _).imp (fun {a b} h => by
    have : (a : Int) < (b : Int) := by exact_mod_cast h
    omega)

/-- The entries of the window are strictly increasing. -/
theorem pairwise_windowSpec (width_c height_c d cx cy : Int) :
    (windowSpec width_c height_c d cx cy).Pairwise (fun a b => a < b) := by
  unfold windowSpec windowCandidates
  rw [List.filterMap_flatMap, List.pairwise_flatMap]
  constructor
  · intro dy _
    rw [List.filterMap_map]
    refine List.Pairwise.filterMap _ ?_ (pairwise_descRange d)
    intro a a' haa b hb b' hb'
    simp only [Function.comp, keepCandidate, Option.mem_def] at hb hb'
    split_ifs at hb with h1
    split_ifs at hb' with h2
    have e1 := Option.some.inj hb
    have e2 := Option.some.inj hb'
    omega
  · refine (pairwise_descRange d).imp ?_
    intro dy dy' hdd e he e' he'
    rw [List.filterMap_map, List.mem_filterMap] at he he'
    obtain ⟨a, _, ha⟩ := he
    obtain ⟨a', _, ha'⟩ := he'
    simp only [Function.comp, keepCandidate] at ha ha'
    split_ifs at ha with h1
    split_ifs at ha' with h2
    have e1 := Option.some.inj ha
    have e2 := Option.some.inj ha'
    have hw : 0 ≤ width_c := by omega
    have hmul : (cy - dy + 1) * width_c ≤ (cy - dy') * width_c :=
      Int.mul_le_mul_of_nonneg_right (by omega) hw
    have hexp : (cy - dy + 1) * width_c = (cy - dy) * width_c + width_c := by ring
    omega

/-- A duplicate-free list of integers of `[0, n)` has at most `n` entries. -/
theorem length_le_of_nodup_of_bounded {l : List Int} {n : Int} (hnd : l.Nodup)
    (hb : ∀ e ∈ l, 0 ≤ e ∧ e < n) : (l.length : Int) ≤ max n 0 := by
  have hsub : l.toFinset ⊆ Finset.Ico (0 : Int) n := by
    intro e he
    rw [List.mem_toFinset] at he
    rw [Finset.mem_Ico]
    exact hb e he
  have hcard := Finset.card_le_card hsub
  rw [List.toFinset_card_of_nodup hnd, Int.card_Ico] at hcard
  omega

/-- The window has at most as many entries as the grid has chunks. -/
theorem length_windowSpec_le_grid (width_c height_c d cx cy : Int)
    (hw : 0 ≤ width_c) (hh : 0 ≤ height_c) :
    ((windowSpec width_c height_c d cx cy).length : Int) ≤ width_c * height_c := by
  have hnd : (windowSpec width_c height_c d cx cy).Nodup :=
    (pairwise_windowSpec width_c height_c d cx cy).imp (fun h => ne_of_lt h)
  have hb : ∀ e ∈ windowSpec width_c height_c d cx cy, 0 ≤ e ∧ e < width_c * height_c := by
    intro e he
    obtain ⟨x, y, hx0, hx, hy0, hy, rfl⟩ := mem_windowSpec he
    constructor
    · exact Int.add_nonneg (Int.mul_nonneg hy0 hw) hx0
    · have h1 : (y + 1) * width_c ≤ height_c * width_c :=
        Int.mul_le_mul_of_nonneg_right (by omega) hw
      have h2 : (y + 1) * width_c = y * width_c + width_c := by ring
      have h3 : height_c * width_c = width_c * height_c := Int.mul_comm _ _
      omega
  have := length_le_of_nodup_of_bounded hnd hb
  have h0 : 0 ≤ width_c * height_c := Int.mul_nonneg hw hh
  omega

/-- Reading one of the first slots of a buffer that starts with `w` gives an
entry of `w`. -/
theorem readAt_append_mem (w rest : List Int) (k : Nat) (hk : k < w.length) :
    readAt (w ++ rest) (k : Int) ∈ w := by
  have h0 : (0 : Int) ≤ (k : Int) := Int.natCast_nonneg k
  have hk2 : k < (w ++ rest).length := by rw [List.length_append]; omega
  simp only [readAt, h0, if_true, Int.toNat_natCast]
  rw [List.getD_eq_getElem _ _ hk2, List.getElem_append_left hk]
  exact List.getElem_mem hk

theorem toNat_adjacentChunkCount (map : LwMap) :
    ((GetAdjacentChunkCount map).toNat : Int) = (2 * map.draw_distance + 1) ^ 2 := by
  unfold GetAdjacentChunkCount
  rw [Int.toNat_of_nonneg (mul_self_nonneg _)]
  ring

/-! ## The chunk window (C6, C7) -/

/-- C6. Boundary clipping: on a recompute of the window for a valid chunk
index `c` of a grid with at least one chunk each way and a draw distance
`d ≥ 0`, every entry `UpdateAdjacentChunkIndexes` writes has chunk coordinates
inside the grid, and the number of entries written is at most
`min ((2d+1)^2) (width.c * height.c)`; on the map grid for a tileset entity and
on the grid of the entity for an auto-split entity. The window buffer has the
`(2d+1)^2` slots `LoadTileData` allocates (or more); the entries written are
the slots below the final cursor. -/
theorem C6_boundary_clipping (map : LwMap) (object : LwObject) (c : Int)
    (_hd : 0 ≤ map.draw_distance)
    (hne : object.chunkset.temp_index ≠ c)
    (hlen : (GetAdjacentChunkCount map).toNat ≤ object.chunkset.indexes.length) :
    (object.tileset = true ∧ object.auto_split = false →
      1 ≤ map.width.c → 1 ≤ map.height.c → 0 ≤ c → c < map.width.c * map.height.c →
      (∀ k : Nat,
        (k : Int) < (UpdateAdjacentChunkIndexes.loops map object c
          object.chunkset.indexes).2 →
        0 ≤ GetMapChunkX map
            (readAt (UpdateAdjacentChunkIndexes map object c).chunkset.indexes k)
        ∧ GetMapChunkX map
            (readAt (UpdateAdjacentChunkIndexes map object c).chunkset.indexes k)
          < map.width.c
        ∧ 0 ≤ GetMapChunkY map
            (readAt (UpdateAdjacentChunkIndexes map object c).chunkset.indexes k)
        ∧ GetMapChunkY map
            (readAt (UpdateAdjacentChunkIndexes map object c).chunkset.indexes k)
          < map.height.c)
      ∧ (UpdateAdjacentChunkIndexes.loops map object c object.chunkset.indexes).2
          ≤ min ((2 * map.draw_distance + 1) ^ 2) (map.width.c * map.height.c))
    ∧ (object.tileset = false ∧ object.auto_split = true →
      1 ≤ object.width.c → 1 ≤ object.height.c →
      0 ≤ c → c < object.width.c * object.height.c →
      (∀ k : Nat,
        (k : Int) < (UpdateAdjacentChunkIndexes.loops map object c
          object.chunkset.indexes).2 →
        0 ≤ GetObjectChunkX object
            (readAt (UpdateAdjacentChunkIndexes map object c).chunkset.indexes k)
        ∧ GetObjectChunkX object
            (readAt (UpdateAdjacentChunkIndexes map object c).chunkset.indexes k)
          < object.width.c
        ∧ 0 ≤ GetObjectChunkY object
            (readAt (UpdateAdjacentChunkIndexes map object c).chunkset.indexes k)
        ∧ GetObjectChunkY object
            (readAt (UpdateAdjacentChunkIndexes map object c).chunkset.indexes k)
          < object.height.c)
      ∧ (UpdateAdjacentChunkIndexes.loops map object c object.chunkset.indexes).2
          ≤ min ((2 * map.draw_distance + 1) ^ 2) (object.width.c * object.height.c)) := by
  have hcount := toNat_adjacentChunkCount map
  constructor
  · rintro ⟨ht, ha⟩ hw hh _ _
    have hmode : (object.tileset && !object.auto_split) = true := by simp [ht, ha]
    have hloops := loops_map map object c object.chunkset.indexes hmode hlen
    have hle := length_windowSpec_le map.width.c map.height.c map.draw_distance
      (GetMapChunkX map c) (GetMapChunkY map c)
    have hgrid := length_windowSpec_le_grid map.width.c map.height.c map.draw_distance
      (GetMapChunkX map c) (GetMapChunkY map c) (by omega) (by omega)
    simp only [UpdateAdjacentChunkIndexes, if_neg hne, hloops]
    refine ⟨?_, ?_⟩
    · intro k hk
      have hk' : k < (windowSpec map.width.c map.height.c map.draw_distance
          (GetMapChunkX map c) (GetMapChunkY map c)).length := by exact_mod_cast hk
      obtain ⟨x, y, hx0, hx, hy0, hy, he⟩ := mem_windowSpec (readAt_append_mem _
        (List.drop (windowSpec map.width.c map.height.c map.draw_distance
          (GetMapChunkX map c) (GetMapChunkY map c)).length object.chunkset.indexes) k hk')
      obtain ⟨e1, e2⟩ := coords_of_linear hx0 hx hy0
      rw [he]
      show 0 ≤ Int.tmod (y * map.width.c + x) map.width.c
        ∧ Int.tmod (y * map.width.c + x) map.width.c < map.width.c
        ∧ 0 ≤ Int.tdiv (y * map.width.c + x) map.width.c
        ∧ Int.tdiv (y * map.width.c + x) map.width.c < map.height.c
      rw [e1, e2]
      exact ⟨hx0, hx, hy0, hy⟩
    · unfold GetAdjacentChunkCount at hcount
      rw [le_min_iff]
      exact ⟨by omega, hgrid⟩
  · rintro ⟨ht, ha⟩ hw hh _ _
    have hmode : (object.tileset && !object.auto_split) = false := by simp [ht]
    have hloops := loops_object map object c object.chunkset.indexes hmode hlen
    have hle := length_windowSpec_le object.width.c object.height.c map.draw_distance
      (GetObjectChunkX object c) (GetObjectChunkY object c)
    have hgrid := length_windowSpec_le_grid object.width.c object.height.c map.draw_distance
      (GetObjectChunkX object c) (GetObjectChunkY object c) (by omega) (by omega)
    simp only [UpdateAdjacentChunkIndexes, if_neg hne, hloops]
    refine ⟨?_, ?_⟩
    · intro k hk
      have hk' : k < (windowSpec object.width.c object.height.c map.draw_distance
          (GetObjectChunkX object c) (GetObjectChunkY object c)).length := by
        exact_mod_cast hk
      obtain ⟨x, y, hx0, hx, hy0, hy, he⟩ := mem_windowSpec (readAt_append_mem _
        (List.drop (windowSpec object.width.c object.height.c map.draw_distance
          (GetObjectChunkX object c) (GetObjectChunkY object c)).length
            object.chunkset.indexes) k hk')
      obtain ⟨e1, e2⟩ := coords_of_linear hx0 hx hy0
      rw [he]
      show 0 ≤ Int.tmod (y * object.width.c + x) object.width.c
        ∧ Int.tmod (y * object.width.c + x) object.width.c < object.width.c
        ∧ 0 ≤ Int.tdiv (y * object.width.c + x) object.width.c
        ∧ Int.tdiv (y * object.width.c + x) object.width.c < object.height.c
      rw [e1, e2]
      exact ⟨hx0, hx, hy0, hy⟩
    · unfold GetAdjacentChunkCount at hcount
      rw [le_min_iff]
      exact ⟨by omega, hgrid⟩

/-- Witness of C6: the 3 by 3 chunk grid `gridMap3 5` with draw distance 5 and
the current chunk 4; at most `min 121 9` entries are written and all lie in
the grid. -/
theorem C6_boundary_clipping_witness :
    (∀ k : Nat,
        (k : Int) < (UpdateAdjacentChunkIndexes.loops (gridMap3 5) (gridObject3 5) 4
          (gridObject3 5).chunkset.indexes).2 →
        0 ≤ GetMapChunkX (gridMap3 5)
            (readAt (UpdateAdjacentChunkIndexes (gridMap3 5) (gridObject3 5) 4).chunkset.indexes
              k)
        ∧ GetMapChunkX (gridMap3 5)
            (readAt (UpdateAdjacentChunkIndexes (gridMap3 5) (gridObject3 5) 4).chunkset.indexes
              k)
          < (gridMap3 5).width.c
        ∧ 0 ≤ GetMapChunkY (gridMap3 5)
            (readAt (UpdateAdjacentChunkIndexes (gridMap3 5) (gridObject3 5) 4).chunkset.indexes
              k)
        ∧ GetMapChunkY (gridMap3 5)
            (readAt (UpdateAdjacentChunkIndexes (gridMap3 5) (gridObject3 5) 4).chunkset.indexes
              k)
          < (gridMap3 5).height.c)
      ∧ (UpdateAdjacentChunkIndexes.loops (gridMap3 5) (gridObject3 5) 4
          (gridObject3 5).chunkset.indexes).2
          ≤ min ((2 * (gridMap3 5).draw_distance + 1) ^ 2)
              ((gridMap3 5).width.c * (gridMap3 5).height.c) :=
  (C6_boundary_clipping (gridMap3 5) (gridObject3 5) 4 (by decide) (by decide)
    (by decide)).1 ⟨rfl, rfl⟩ (by decide) (by decide) (by decide) (by decide)

/-- C7. Window ordering contract: when `UpdateAdjacentChunkIndexes` recomputes
the window for the chunk index `c` (`c` differs from `temp_index`), the first
`n` slots of the buffer are, in order, the window of the specification
(`windowSpec`: `dy` from `+d` down to `-d`, then `dx` from `+d` down to `-d`,
candidate `(chunkX c - dx, chunkY c - dy)`, candidates outside the grid dropped,
each kept `(x, y)` stored as `y * width.c + x`), where `n` is the number of
kept candidates, which is also where the cursor ends; on the map grid for a
tileset entity and on the grid of the entity for an auto-split entity. The
window buffer has the `(2d+1)^2` slots `LoadTileData` allocates (or more). -/
theorem C7_window_order (map : LwMap) (object : LwObject) (c : Int)
    (hne : object.chunkset.temp_index ≠ c)
    (hlen : (GetAdjacentChunkCount map).toNat ≤ object.chunkset.indexes.length) :
    (object.tileset = true ∧ object.auto_split = false →
      (UpdateAdjacentChunkIndexes map object c).chunkset.indexes.take
          (windowSpec map.width.c map.height.c map.draw_distance
            (GetMapChunkX map c) (GetMapChunkY map c)).length
        = windowSpec map.width.c map.height.c map.draw_distance
            (GetMapChunkX map c) (GetMapChunkY map c)
      ∧ (UpdateAdjacentChunkIndexes.loops map object c object.chunkset.indexes).2
        = ((windowSpec map.width.c map.height.c map.draw_distance
            (GetMapChunkX map c) (GetMapChunkY map c)).length : Int)
      ∧ (UpdateAdjacentChunkIndexes map object c).chunkset.temp_index = c)
    ∧ (object.tileset = false ∧ object.auto_split = true →
      (UpdateAdjacentChunkIndexes map object c).chunkset.indexes.take
          (windowSpec object.width.c object.height.c map.draw_distance
            (GetObjectChunkX object c) (GetObjectChunkY object c)).length
        = windowSpec object.width.c object.height.c map.draw_distance
            (GetObjectChunkX object c) (GetObjectChunkY object c)
      ∧ (UpdateAdjacentChunkIndexes.loops map object c object.chunkset.indexes).2
        = ((windowSpec object.width.c object.height.c map.draw_distance
            (GetObjectChunkX object c) (GetObjectChunkY object c)).length : Int)
      ∧ (UpdateAdjacentChunkIndexes map object c).chunkset.temp_index = c) := by
  constructor
  · rintro ⟨ht, ha⟩
    have hmode : (object.tileset && !object.auto_split) = true := by simp [ht, ha]
    have hloops := loops_map map object c object.chunkset.indexes hmode hlen
    simp only [UpdateAdjacentChunkIndexes, if_neg hne, hloops, List.take_left, and_self]
  · rintro ⟨ht, _⟩
    have hmode : (object.tileset && !object.auto_split) = false := by simp [ht]
    have hloops := loops_object map object c object.chunkset.indexes hmode hlen
    simp only [UpdateAdjacentChunkIndexes, if_neg hne, hloops, List.take_left, and_self]

/-- Witness of C7: the auto-split entity `splitObject3 1` (3 by 2 chunks) on
`gridMap3 1`, current chunk 4. -/
theorem C7_window_order_witness :
    (UpdateAdjacentChunkIndexes (gridMap3 1) (splitObject3 1) 4).chunkset.indexes.take
          (windowSpec (splitObject3 1).width.c (splitObject3 1).height.c
            (gridMap3 1).draw_distance
            (GetObjectChunkX (splitObject3 1) 4) (GetObjectChunkY (splitObject3 1) 4)).length
        = windowSpec (splitObject3 1).width.c (splitObject3 1).height.c
            (gridMap3 1).draw_distance
            (GetObjectChunkX (splitObject3 1) 4) (GetObjectChunkY (splitObject3 1) 4)
      ∧ (UpdateAdjacentChunkIndexes.loops (gridMap3 1) (splitObject3 1) 4
          (splitObject3 1).chunkset.indexes).2
        = ((windowSpec (splitObject3 1).width.c (splitObject3 1).height.c
            (gridMap3 1).draw_distance
            (GetObjectChunkX (splitObject3 1) 4)
            (GetObjectChunkY (splitObject3 1) 4)).length : Int)
      ∧ (UpdateAdjacentChunkIndexes (gridMap3 1) (splitObject3 1) 4).chunkset.temp_index = 4 :=
  (C7_window_order (gridMap3 1) (splitObject3 1) 4 (by decide) (by decide)).2 ⟨rfl, rfl⟩

/-! ## Streaming and the chunk store (C8, C9, C10) -/

/-- C8. On the 3 by 3 chunk grid `gridMap3 1` (draw distance 1) with the viewer
at (24, 24), which resolves to the centre chunk 4, a first `LoadChunks` call
passes the chunks 0 to 8 to `DrawChunk` and leaves every slot of the window
buffer holding 4; the second call from the same position skips the recompute
and passes chunk 4 to `DrawChunk` nine times, so the neighbour chunk 0 is not
drawn during that call. -/
theorem C8_LoadChunks_stationary_viewer :
    PositionToChunkIndexMap (gridMap3 1) ⟨24, 24⟩ = 4
      ∧ (LoadChunks (gridMap3 1) (gridObject3 1) ⟨24, 24⟩).2 = [0, 1, 2, 3, 4, 5, 6, 7, 8]
      ∧ (LoadChunks (gridMap3 1) (gridObject3 1) ⟨24, 24⟩).1.chunkset.indexes
          = [4, 4, 4, 4, 4, 4, 4, 4, 4]
      ∧ (LoadChunks (gridMap3 1) (LoadChunks (gridMap3 1) (gridObject3 1) ⟨24, 24⟩).1
          ⟨24, 24⟩).2 = [4, 4, 4, 4, 4, 4, 4, 4, 4]
      ∧ 0 ∉ (LoadChunks (gridMap3 1) (LoadChunks (gridMap3 1) (gridObject3 1) ⟨24, 24⟩).1
          ⟨24, 24⟩).2 := by
  decide

/-- C9. On `tallChunkMap` (chunks one tile wide and two tiles high) the tile
(0, 1), tile index 1, is stored at slot 0, where the slot formula
`(tileY mod chunk_height) * chunk_width + (tileX mod chunk_width)` gives slot 1:
with the tile ids 7 and 9, `LoadTileData` leaves the chunk buffer `[9, 0]`, the
id 9 of tile 1 having overwritten the id 7 of tile 0. -/
theorem C9_slot_uses_chunk_width :
    relativeTileIndex tallChunkMap tallChunkMap.width.t 1 = 0
      ∧ Int.tmod (GetMapTileY tallChunkMap 1) tallChunkMap.chunk_height
            * tallChunkMap.chunk_width
          + Int.tmod (GetMapTileX tallChunkMap 1) tallChunkMap.chunk_width = 1
      ∧ (LoadTileData tallChunkMap (tilesetEntity tallChunkMap) [7, 9]).1 = true
      ∧ (LoadTileData tallChunkMap (tilesetEntity tallChunkMap) [7, 9]).2.chunkset.tilemap = [7, 9]
      ∧ (LoadTileData tallChunkMap (tilesetEntity tallChunkMap) [7, 9]).2.chunkset.chunks
          = [{ _valid := true, data := [9, 0] }] := by
  decide

/-- C10. On `gridMap3 1` (nine chunks of one tile) a tileset entity whose
`tiledata` lists two ids only gets the tile map `[5, 6, -1, ..., -1]`; the
slot of chunk 2, whose source tile is the no-tile value -1, holds 0 after
`LoadTileData`, and `DrawChunk` draws the texture region of tile id 0 (source
rectangle at (0, 0)) for it. -/
theorem C10_empty_slot_holds_zero :
    (LoadObjectsData.tiledata (gridMap3 1) (tilesetEntity (gridMap3 1)) shortTiledata).1 = true
      ∧ (LoadObjectsData.tiledata (gridMap3 1) (tilesetEntity (gridMap3 1))
          shortTiledata).2.chunkset.tilemap = [5, 6, -1, -1, -1, -1, -1, -1, -1]
      ∧ (chunkAt (LoadObjectsData.tiledata (gridMap3 1) (tilesetEntity (gridMap3 1))
          shortTiledata).2.chunkset.chunks 2) = { _valid := false, data := [0] }
      ∧ readAt (chunkAt (LoadObjectsData.tiledata (gridMap3 1) (tilesetEntity (gridMap3 1))
          shortTiledata).2.chunkset.chunks 2).data 0 = 0
      ∧ (DrawChunk (gridMap3 1) (LoadObjectsData.tiledata (gridMap3 1)
          (tilesetEntity (gridMap3 1)) shortTiledata).2 2).map (fun call => call.source)
          = [{ x := 0, y := 0, width := 16, height := 16 }] := by
  refine ⟨by decide, by decide, by decide, by decide, ?_⟩
  have h1 : (LoadObjectsData.tiledata (gridMap3 1) (tilesetEntity (gridMap3 1))
      shortTiledata).2.chunkset.chunks
      = [⟨true, [5]⟩, ⟨true, [6]⟩, ⟨false, [0]⟩, ⟨false, [0]⟩, ⟨false, [0]⟩, ⟨false, [0]⟩,
         ⟨false, [0]⟩, ⟨false, [0]⟩, ⟨false, [0]⟩] := by decide
  have h2 : (LoadObjectsData.tiledata (gridMap3 1) (tilesetEntity (gridMap3 1))
      shortTiledata).2.position = ⟨0, 0⟩ := by decide
  have h3 : (LoadObjectsData.tiledata (gridMap3 1) (tilesetEntity (gridMap3 1))
      shortTiledata).2.width.t = 4 := by decide
  simp only [DrawChunk, TileIndexToPositionObject, GetObjectTileX, GetObjectTileY, h1, h2, h3]
  have h16 : f32 16 = 16 := by decide!
  simp [gridMap3, chunkAt, readAt, List.range_succ, Function.comp_def, f32_zero, h16]

/-! ## Options (C14, C15, C16, C20) -/

/-- The member loop of `LoadOptionsData` on an options record stores the seven
values and touches nothing else. -/
theorem foldl_member_optionsRecord (map : LwMap) (w h tw th cw ch d : Int) :
    (optionsRecord w h tw th cw ch d).children.foldl LoadOptionsData.member map
      = { map with
          width := { map.width with px := w }
          height := { map.height with px := h }
          tile_width := tw
          tile_height := th
          chunk_width := cw
          chunk_height := ch
          draw_distance := d } := by
  simp [optionsRecord, JsonNode.object, JsonNode.children, JsonNode.number,
    LoadOptionsData.member, JsonNode.key, JsonNode.number_, truncToInt_intCast]

/-- A failed `LoadOptionsData`: one of the stored sizes is not positive or the
stored draw distance is negative, and the map is left as the member loop left
it. -/
theorem LoadOptionsData_fail (map : LwMap) (node : JsonNode) :
    ((LoadOptionsData map node).1 = false ↔
      ((node.children.foldl LoadOptionsData.member map).width.px ≤ 0
        ∨ (node.children.foldl LoadOptionsData.member map).height.px ≤ 0
        ∨ (node.children.foldl LoadOptionsData.member map).tile_width ≤ 0
        ∨ (node.children.foldl LoadOptionsData.member map).tile_height ≤ 0
        ∨ (node.children.foldl LoadOptionsData.member map).chunk_width ≤ 0
        ∨ (node.children.foldl LoadOptionsData.member map).chunk_height ≤ 0)
      ∨ (node.children.foldl LoadOptionsData.member map).draw_distance < 0)
    ∧ ((LoadOptionsData map node).1 = false →
      (LoadOptionsData map node).2 = node.children.foldl LoadOptionsData.member map) := by
  unfold LoadOptionsData
  generalize List.foldl LoadOptionsData.member map node.children = m
  simp only
  split_ifs with h1 h2 h3
  · simp [h1]
  · simp [h1, h2]
  · simp [h1, h2]
  · simp [h1, h2]

/-- The draw distance a successful `LoadOptionsData` stores: the literal 16
when the stored value exceeds `MAX_DRAW_DISTANCE`, the stored value
otherwise. -/
theorem LoadOptionsData_draw_distance (map : LwMap) (node : JsonNode)
    (hok : (LoadOptionsData map node).1 = true) :
    (LoadOptionsData map node).2.draw_distance
      = if (node.children.foldl LoadOptionsData.member map).draw_distance > MAX_DRAW_DISTANCE
        then 16 else (node.children.foldl LoadOptionsData.member map).draw_distance := by
  revert hok
  unfold LoadOptionsData
  generalize List.foldl LoadOptionsData.member map node.children = m
  simp only
  split_ifs with h1 h2 h3 <;> simp

/-- On a member whose truncation is an `int` the two casts agree, and so do
`LoadOptionsData.member32` and `LoadOptionsData.member`. -/
theorem member32_eq_member (map : LwMap) (node : JsonNode)
    (h : (-2147483649 : ℚ) < node.number_ ∧ node.number_ < (2147483648 : ℚ)) :
    LoadOptionsData.member32 map node = LoadOptionsData.member map node := by
  unfold LoadOptionsData.member32 LoadOptionsData.member
  rw [castInt_of_range h]

/-- On an options node all of whose members have an `int` truncation
`LoadOptionsData32` and `LoadOptionsData` are the same function. -/
theorem LoadOptionsData32_eq (map : LwMap) (node : JsonNode)
    (h : ∀ member ∈ node.children,
      (-2147483649 : ℚ) < member.number_ ∧ member.number_ < (2147483648 : ℚ)) :
    LoadOptionsData32 map node = LoadOptionsData map node := by
  have hfold : ∀ (l : List JsonNode) (m : LwMap),
      (∀ member ∈ l,
        (-2147483649 : ℚ) < member.number_ ∧ member.number_ < (2147483648 : ℚ)) →
      l.foldl LoadOptionsData.member32 m = l.foldl LoadOptionsData.member m := by
    intro l
    induction l with
    | nil => intro m _; rfl
    | cons a l ih =>
      intro m hl
      rw [List.foldl_cons, List.foldl_cons,
        member32_eq_member m a (hl a (List.mem_cons_self a l))]
      exact ih _ (fun member hm => hl member (List.mem_cons_of_mem a hm))
  unfold LoadOptionsData32 LoadOptionsData
  rw [hfold node.children map h]

/-- The member loop of `LoadOptionsData32` on an options record whose members
are `int` values stores the seven values and touches nothing else. -/
theorem foldl_member32_optionsRecord (map : LwMap) (w h tw th cw ch d : Int)
    (hr : ∀ v ∈ [w, h, tw, th, cw, ch, d], -2147483648 ≤ v ∧ v < 2147483648) :
    (optionsRecord w h tw th cw ch d).children.foldl LoadOptionsData.member32 map
      = { map with
          width := { map.width with px := w }
          height := { map.height with px := h }
          tile_width := tw
          tile_height := th
          chunk_width := cw
          chunk_height := ch
          draw_distance := d } := by
  have e1 := castInt_intCast w (hr w (by simp)).1 (hr w (by simp)).2
  have e2 := castInt_intCast h (hr h (by simp)).1 (hr h (by simp)).2
  have e3 := castInt_intCast tw (hr tw (by simp)).1 (hr tw (by simp)).2
  have e4 := castInt_intCast th (hr th (by simp)).1 (hr th (by simp)).2
  have e5 := castInt_intCast cw (hr cw (by simp)).1 (hr cw (by simp)).2
  have e6 := castInt_intCast ch (hr ch (by simp)).1 (hr ch (by simp)).2
  have e7 := castInt_intCast d (hr d (by simp)).1 (hr d (by simp)).2
  simp [optionsRecord, JsonNode.object, JsonNode.children, JsonNode.number,
    LoadOptionsData.member32, JsonNode.key, JsonNode.number_, e1, e2, e3, e4, e5, e6, e7]

/-- A failed `LoadOptionsData32`: one of the stored sizes is not positive or
the stored draw distance is negative, and the map is left as the member loop
left it. -/
theorem LoadOptionsData32_fail (map : LwMap) (node : JsonNode) :
    ((LoadOptionsData32 map node).1 = false ↔
      ((node.children.foldl LoadOptionsData.member32 map).width.px ≤ 0
        ∨ (node.children.foldl LoadOptionsData.member32 map).height.px ≤ 0
        ∨ (node.children.foldl LoadOptionsData.member32 map).tile_width ≤ 0
        ∨ (node.children.foldl LoadOptionsData.member32 map).tile_height ≤ 0
        ∨ (node.children.foldl LoadOptionsData.member32 map).chunk_width ≤ 0
        ∨ (node.children.foldl LoadOptionsData.member32 map).chunk_height ≤ 0)
      ∨ (node.children.foldl LoadOptionsData.member32 map).draw_distance < 0)
    ∧ ((LoadOptionsData32 map node).1 = false →
      (LoadOptionsData32 map node).2 = node.children.foldl LoadOptionsData.member32 map) := by
  unfold LoadOptionsData32
  generalize List.foldl LoadOptionsData.member32 map node.children = m
  simp only
  split_ifs with h1 h2 h3
  · simp [h1]
  · simp [h1, h2]
  · simp [h1, h2]
  · simp [h1, h2]

/-- C14 fails as stated: the options record with the width 10^10 and the other
members of `documentOf` has six strictly positive sizes and a non-negative
draw distance, but 10^10 is not an `int`: the cast stores the width -2^31 and
`LoadOptionsData` returns false. The record with the width 64 loads, with the
same result as under the cast by truncation. -/
theorem C14_counterexample :
    ((0 : Int) < 10000000000 ∧ (0 : Int) < 64 ∧ (0 : Int) < 16 ∧ (0 : Int) < 2
      ∧ (0 : Int) ≤ 1)
    ∧ castInt ((10000000000 : Int) : ℚ) = -2147483648
    ∧ (LoadOptionsData32 emptyMap (optionsRecord 10000000000 64 16 16 2 2 1)).1 = false
    ∧ (LoadOptionsData32 emptyMap (optionsRecord 10000000000 64 16 16 2 2 1)).2.width.px
        = -2147483648
    ∧ (LoadOptionsData32 emptyMap (optionsRecord 64 64 16 16 2 2 1)).1 = true
    ∧ LoadOptionsData32 emptyMap (optionsRecord 64 64 16 16 2 2 1)
        = LoadOptionsData emptyMap (optionsRecord 64 64 16 16 2 2 1) := by
  decide!

/-- C14, amended. Size validation: on an options record whose seven members
are `int` values (`-2^31 ≤ v < 2^31`) `LoadOptionsData` succeeds exactly when
the six sizes are strictly positive and the draw distance is non-negative;
when one of the six sizes is zero or negative it returns false and leaves the
map with the seven values stored as given and no tile or chunk count
derived. -/
theorem C14_size_validation (map : LwMap) (w h tw th cw ch d : Int)
    (hr : ∀ v ∈ [w, h, tw, th, cw, ch, d], -2147483648 ≤ v ∧ v < 2147483648) :
    ((LoadOptionsData32 map (optionsRecord w h tw th cw ch d)).1 = true
      ↔ 0 < w ∧ 0 < h ∧ 0 < tw ∧ 0 < th ∧ 0 < cw ∧ 0 < ch ∧ 0 ≤ d)
    ∧ ((w ≤ 0 ∨ h ≤ 0 ∨ tw ≤ 0 ∨ th ≤ 0 ∨ cw ≤ 0 ∨ ch ≤ 0) →
      (LoadOptionsData32 map (optionsRecord w h tw th cw ch d)).1 = false
      ∧ (LoadOptionsData32 map (optionsRecord w h tw th cw ch d)).2
        = { map with
            width := { px := w, c := map.width.c, t := map.width.t }
            height := { px := h, c := map.height.c, t := map.height.t }
            tile_width := tw
            tile_height := th
            chunk_width := cw
            chunk_height := ch
            draw_distance := d }) := by
  have hmap := (LoadOptionsData32_fail map (optionsRecord w h tw th cw ch d)).2
  have hfalse := (LoadOptionsData32_fail map (optionsRecord w h tw th cw ch d)).1
  rw [foldl_member32_optionsRecord map w h tw th cw ch d hr] at hmap hfalse
  constructor
  · constructor
    · intro hok
      have hn : ¬ ((w ≤ 0 ∨ h ≤ 0 ∨ tw ≤ 0 ∨ th ≤ 0 ∨ cw ≤ 0 ∨ ch ≤ 0) ∨ d < 0) := by
        intro hc
        rw [hfalse.mpr hc] at hok
        exact Bool.false_ne_true hok
      omega
    · intro hpos
      have hn : ¬ ((w ≤ 0 ∨ h ≤ 0 ∨ tw ≤ 0 ∨ th ≤ 0 ∨ cw ≤ 0 ∨ ch ≤ 0) ∨ d < 0) := by omega
      cases hb : (LoadOptionsData32 map (optionsRecord w h tw th cw ch d)).1 with
      | true => rfl
      | false => exact absurd (hfalse.mp hb) hn
  · intro hbad
    have hf := hfalse.mpr (Or.inl hbad)
    exact ⟨hf, hmap hf⟩

/-- Witness of C14 as amended: the record with the tile width 0 is refused
and the map keeps the zero counts of `emptyMap`. -/
theorem C14_size_validation_witness :
    ((LoadOptionsData32 emptyMap (optionsRecord 64 64 0 16 2 2 1)).1 = true
      ↔ (0 : Int) < 64 ∧ (0 : Int) < 64 ∧ (0 : Int) < 0 ∧ (0 : Int) < 16 ∧ (0 : Int) < 2
        ∧ (0 : Int) < 2 ∧ (0 : Int) ≤ 1)
    ∧ (LoadOptionsData32 emptyMap (optionsRecord 64 64 0 16 2 2 1)).1 = false
    ∧ (LoadOptionsData32 emptyMap (optionsRecord 64 64 0 16 2 2 1)).2
        = { emptyMap with
            width := { px := 64, c := emptyMap.width.c, t := emptyMap.width.t }
            height := { px := 64, c := emptyMap.height.c, t := emptyMap.height.t }
            tile_width := 0
            tile_height := 16
            chunk_width := 2
            chunk_height := 2
            draw_distance := 1 } :=
  ⟨(C14_size_validation emptyMap 64 64 0 16 2 2 1 (by decide)).1,
    (C14_size_validation emptyMap 64 64 0 16 2 2 1 (by decide)).2 (by decide)⟩

/-- C15. Draw-distance invariant: after every successful `LoadOptionsData`
(any map, any options node) the stored draw distance lies between 0 and
`MAX_DRAW_DISTANCE` = 32; on an options record a negative `draw_distance_c`
makes the load fail. -/
theorem C15_draw_distance_invariant (map : LwMap) (node : JsonNode)
    (w h tw th cw ch d : Int) :
    ((LoadOptionsData map node).1 = true →
      0 ≤ (LoadOptionsData map node).2.draw_distance
      ∧ (LoadOptionsData map node).2.draw_distance ≤ MAX_DRAW_DISTANCE
      ∧ MAX_DRAW_DISTANCE = 32)
    ∧ (d < 0 → (LoadOptionsData map (optionsRecord w h tw th cw ch d)).1 = false) := by
  constructor
  · intro hok
    have hdd := LoadOptionsData_draw_distance map node hok
    have hnf : ¬ (LoadOptionsData map node).1 = false := by simp [hok]
    have h0 : ¬ (node.children.foldl LoadOptionsData.member map).draw_distance < 0 :=
      fun hc => hnf ((LoadOptionsData_fail map node).1.mpr (Or.inr hc))
    rw [hdd]
    unfold MAX_DRAW_DISTANCE
    split_ifs with hgt
    · omega
    · unfold MAX_DRAW_DISTANCE at hgt
      omega
  · intro hd
    have hiff := (LoadOptionsData_fail map (optionsRecord w h tw th cw ch d)).1
    rw [foldl_member_optionsRecord] at hiff
    exact hiff.mpr (Or.inr hd)

/-- Instance of C15: the record with the draw distance 9999 loads and stores a
draw distance between 0 and 32. -/
theorem C15_draw_distance_invariant_witness :
    0 ≤ (LoadOptionsData emptyMap (optionsRecord 64 64 16 16 2 2 9999)).2.draw_distance
      ∧ (LoadOptionsData emptyMap (optionsRecord 64 64 16 16 2 2 9999)).2.draw_distance
        ≤ MAX_DRAW_DISTANCE
      ∧ MAX_DRAW_DISTANCE = 32 :=
  (C15_draw_distance_invariant emptyMap (optionsRecord 64 64 16 16 2 2 9999)
    0 0 0 0 0 0 0).1 (by decide)

/-- C16. The options record with `draw_distance_c` = 9999 loads, and the draw
distance it stores is 16, where `min 9999 MAX_DRAW_DISTANCE` is 32; the values
32 and 0 are stored unchanged. -/
theorem C16_clamp_stores_16 :
    (LoadOptionsData emptyMap (optionsRecord 64 64 16 16 2 2 9999)).1 = true
      ∧ (LoadOptionsData emptyMap (optionsRecord 64 64 16 16 2 2 9999)).2.draw_distance = 16
      ∧ min (9999 : Int) MAX_DRAW_DISTANCE = 32
      ∧ (LoadOptionsData emptyMap (optionsRecord 64 64 16 16 2 2 33)).2.draw_distance = 16
      ∧ (LoadOptionsData emptyMap (optionsRecord 64 64 16 16 2 2 32)).2.draw_distance = 32
      ∧ (LoadOptionsData emptyMap (optionsRecord 64 64 16 16 2 2 0)).2.draw_distance = 0 := by
  decide

/-- The chunk coordinates of a valid tile index on a grid whose chunk counts
cover its tiles: in range, and equal to the floor quotients. -/
theorem chunk_of_tile {wt ht cw ch wc hc i : Int} (hcw : 0 < cw) (hch : 0 < ch)
    (hwt : 0 < wt) (hw : wt ≤ wc * cw) (hh : ht ≤ hc * ch)
    (hi0 : 0 ≤ i) (hi : i < wt * ht) :
    0 ≤ Int.tdiv (Int.tmod i wt) cw ∧ Int.tdiv (Int.tmod i wt) cw < wc
      ∧ 0 ≤ Int.tdiv (Int.tdiv i wt) ch ∧ Int.tdiv (Int.tdiv i wt) ch < hc
      ∧ Int.tdiv (Int.tmod i wt) cw = (i % wt) / cw
      ∧ Int.tdiv (Int.tdiv i wt) ch = (i / wt) / ch := by
  obtain ⟨hx0, hx1, hy0, hy1, _⟩ := tdiv_tmod_of_index hwt hi0 hi
  have ex : Int.tmod i wt = i % wt := Int.tmod_eq_emod hi0 hwt.le
  have ey : Int.tdiv i wt = i / wt := Int.tdiv_eq_ediv hi0 hwt.le
  rw [Int.tdiv_eq_ediv hx0 hcw.le, Int.tdiv_eq_ediv hy0 hch.le]
  refine ⟨Int.ediv_nonneg hx0 hcw.le, ?_, Int.ediv_nonneg hy0 hch.le, ?_, by rw [ex], by rw [ey]⟩
  · exact Int.ediv_lt_of_lt_mul hcw (by omega)
  · exact Int.ediv_lt_of_lt_mul hch (by omega)

/-- A linear index built from in-range coordinates is in range. -/
theorem linear_index_bounds {w h x y : Int} (hx0 : 0 ≤ x) (hx : x < w)
    (hy0 : 0 ≤ y) (hy : y < h) : 0 ≤ y * w + x ∧ y * w + x < w * h := by
  have hw : 0 ≤ w := by omega
  constructor
  · exact Int.add_nonneg (Int.mul_nonneg hy0 hw) hx0
  · have h1 : (y + 1) * w ≤ h * w := Int.mul_le_mul_of_nonneg_right (by omega) hw
    have h2 : (y + 1) * w = y * w + w := by ring
    have h3 : h * w = w * h := Int.mul_comm _ _
    omega

/-- C19. Tile to chunk index: on a map with positive chunk sizes, a positive
tile width count and chunk counts that are the ceilings of tiles over chunk
size, for a valid tile index `i` the result of `TileIndexToChunkIndexMap` is
`((i div width.t) div chunk_height) * width.c + ((i mod width.t) div chunk_width)`,
it is a valid chunk index, and its chunk coordinates are
`(tileX div chunk_width, tileY div chunk_height)`. -/
theorem C19_tile_to_chunk (map : LwMap) (i : Int)
    (hcw : 0 < map.chunk_width) (hch : 0 < map.chunk_height) (hwt : 0 < map.width.t)
    (hwc : ⌈(map.width.t : ℚ) / (map.chunk_width : ℚ)⌉ = map.width.c)
    (hhc : ⌈(map.height.t : ℚ) / (map.chunk_height : ℚ)⌉ = map.height.c)
    (hi0 : 0 ≤ i) (hi : i < map.width.t * map.height.t) :
    TileIndexToChunkIndexMap map i
        = ((i / map.width.t) / map.chunk_height) * map.width.c
          + ((i % map.width.t) / map.chunk_width)
      ∧ 0 ≤ TileIndexToChunkIndexMap map i
      ∧ TileIndexToChunkIndexMap map i < map.width.c * map.height.c
      ∧ GetMapChunkX map (TileIndexToChunkIndexMap map i)
          = (GetMapTileX map i) / map.chunk_width
      ∧ GetMapChunkY map (TileIndexToChunkIndexMap map i)
          = (GetMapTileY map i) / map.chunk_height := by
  obtain ⟨_, hw2⟩ := ceil_div_bounds hcw hwc
  obtain ⟨_, hh2⟩ := ceil_div_bounds hch hhc
  obtain ⟨hx0, hx1, hy0, hy1, ex, ey⟩ := chunk_of_tile hcw hch hwt hw2 hh2 hi0 hi
  obtain ⟨hl0, hl1⟩ := linear_index_bounds hx0 hx1 hy0 hy1
  obtain ⟨e1, e2⟩ := coords_of_linear hx0 hx1 hy0
  obtain ⟨htx0, _, hty0, _, _⟩ := tdiv_tmod_of_index hwt hi0 hi
  simp only [TileIndexToChunkIndexMap, GetMapChunkX, GetMapChunkY, GetMapTileX, GetMapTileY]
  refine ⟨by rw [ex, ey], hl0, hl1, ?_, ?_⟩
  · rw [e1, Int.tdiv_eq_ediv htx0 hcw.le]
  · rw [e2, Int.tdiv_eq_ediv hty0 hch.le]

/-- Witness of C19 on `demoMap`, tile index 10. -/
theorem C19_tile_to_chunk_witness :
    TileIndexToChunkIndexMap demoMap 10
        = ((10 / demoMap.width.t) / demoMap.chunk_height) * demoMap.width.c
          + ((10 % demoMap.width.t) / demoMap.chunk_width)
      ∧ 0 ≤ TileIndexToChunkIndexMap demoMap 10
      ∧ TileIndexToChunkIndexMap demoMap 10 < demoMap.width.c * demoMap.height.c
      ∧ GetMapChunkX demoMap (TileIndexToChunkIndexMap demoMap 10)
          = (GetMapTileX demoMap 10) / demoMap.chunk_width
      ∧ GetMapChunkY demoMap (TileIndexToChunkIndexMap demoMap 10)
          = (GetMapTileY demoMap 10) / demoMap.chunk_height :=
  C19_tile_to_chunk demoMap 10 (by decide) (by decide) (by decide)
    (by norm_num [demoMap]) (by norm_num [demoMap]) (by decide) (by decide)

/-! ## Position to tile (C18) -/

theorem length_writeAt {α : Type} (a : List α) (i : Int) (v : α) :
    (writeAt a i v).length = a.length := by
  unfold writeAt
  split_ifs <;> simp

/-- Reading a chunk record after a write: the written record at the written
index when that index exists, the old record elsewhere. -/
theorem chunkAt_writeAt (chunks : List LwChunk) (c k : Int) (x : LwChunk) :
    chunkAt (writeAt chunks c x) k
      = if k = c ∧ 0 ≤ c ∧ c < (chunks.length : Int) then x else chunkAt chunks k := by
  unfold chunkAt writeAt
  by_cases hc : 0 ≤ c
  · by_cases hk : 0 ≤ k
    · simp only [hc, hk, if_true, List.getD_eq_getElem?_getD, List.getElem?_set]
      by_cases hkc : k = c
      · subst hkc
        by_cases hlen : k < (chunks.length : Int)
        · have h2 : k.toNat < chunks.length := by omega
          simp [hlen, h2]
        · have h2 : ¬ k.toNat < chunks.length := by omega
          have h3 : chunks[k.toNat]? = none := by
            rw [List.getElem?_eq_none_iff]; omega
          simp [hlen, h2, h3]
      · have hne : c.toNat ≠ k.toNat := by omega
        simp [hkc, hne]
    · have hkc : ¬ (k = c ∧ 0 ≤ c ∧ c < (chunks.length : Int)) := by omega
      simp [hk, hkc]
  · have hkc : ¬ (k = c ∧ 0 ≤ c ∧ c < (chunks.length : Int)) := by omega
    simp [hc, hkc]

theorem length_storeTile (chunks : List LwChunk) (c r v : Int) :
    (storeTile chunks c r v).length = chunks.length := by
  simp only [storeTile, length_writeAt]

theorem length_callocChunks (n size : Int) : (callocChunks n size).length = n.toNat := by
  simp [callocChunks]

/-- The chunk array `LoadTileData` builds for a tileset entity. -/
theorem LoadTileData_tileset_chunks (map : LwMap) (object : LwObject) (tiledata : List Int)
    (ht : object.tileset = true) (ha : object.auto_split = false) :
    (LoadTileData map object tiledata).2.chunkset.chunks
      = (List.range (map.width.t * map.height.t).toNat).foldl
          (LoadTileData.storeMap map
            ((List.range (map.width.t * map.height.t).toNat).map
              (fun (i : Nat) => readAt tiledata i)))
          (callocChunks (map.width.c * map.height.c) (map.chunk_width * map.chunk_height)) := by
  simp [LoadTileData, ht, ha]

/-- C13. The document `bothFlagsDocument` contains an entity with
`tileset = true` and `auto_split = true`. `LoadTileData` returns false for
every such entity and allocates nothing, and `LoadObjectsData` returns false on
the `objects` member of the document (called, as `LoadLayersData` calls it, on
the map with the options loaded, layer 0 marked valid and its object array
allocated); yet `LoadLayersData`, which drops that result, returns true and so
does `LoadMapFromMemory`. The entity is left in
the map, marked valid, with both flags set and an empty chunk set. -/
theorem C13_both_flags_document_loads :
    (LoadMapFromMemory (some demoLoader) emptyMap (some bothFlagsDocument)).1 = true
      ∧ (mapObject (LoadMapFromMemory (some demoLoader) emptyMap
          (some bothFlagsDocument)).2 0 0)._valid = true
      ∧ (mapObject (LoadMapFromMemory (some demoLoader) emptyMap
          (some bothFlagsDocument)).2 0 0).tileset = true
      ∧ (mapObject (LoadMapFromMemory (some demoLoader) emptyMap
          (some bothFlagsDocument)).2 0 0).auto_split = true
      ∧ (mapObject (LoadMapFromMemory (some demoLoader) emptyMap
          (some bothFlagsDocument)).2 0 0).chunkset
          = { tilemap := [], indexes := [], temp_index := 0, chunks := [] }
      ∧ (LoadObjectsData (some demoLoader)
          { (LoadOptionsData emptyMap (optionsRecord 64 64 16 16 2 2 1)).2 with
            layers :=
              { _valid := true, objects := List.replicate MAX_OBJECT_COUNT.toNat zeroObject }
                :: List.replicate 31 zeroLayer }
          bothFlagsObjects 0).1 = some false
      ∧ (∀ (map : LwMap) (object : LwObject) (tiledata : List Int),
          object.tileset = true → object.auto_split = true →
          LoadTileData map object tiledata = (false, object)) := by
  refine ⟨by decide, by decide, by decide, by decide, by decide, by decide, ?_⟩
  intro map object tiledata ht ha
  simp [LoadTileData, ht, ha]

/-! ## Neighbourhood size and the window cache (C21, C22, C23) -/

/-- C21. Neighbourhood size: for every draw distance `d ≥ 0`
`GetAdjacentChunkCount` returns `(2d+1)^2`; it returns 1 for `d = 0`; and for
`d` in `[0, 32]` the result is at most 4225, far below `2^31`, so the `int`
arithmetic of the source does not overflow. -/
theorem C21_neighbourhood_size (map : LwMap) (hd : 0 ≤ map.draw_distance) :
    GetAdjacentChunkCount map = (2 * map.draw_distance + 1) ^ 2
      ∧ (map.draw_distance = 0 → GetAdjacentChunkCount map = 1)
      ∧ (map.draw_distance ≤ 32 →
          0 < GetAdjacentChunkCount map ∧ GetAdjacentChunkCount map ≤ 4225
            ∧ GetAdjacentChunkCount map < 2 ^ 31) := by
  unfold GetAdjacentChunkCount
  refine ⟨by ring, ?_, ?_⟩
  · intro h0
    rw [h0]
    rfl
  · intro h32
    have h1 : 1 ≤ 2 * map.draw_distance + 1 := by omega
    have h2 : 2 * map.draw_distance + 1 ≤ 65 := by omega
    have h3 : (2 * map.draw_distance + 1) * (2 * map.draw_distance + 1) ≤ 65 * 65 :=
      Int.mul_le_mul h2 h2 (by omega) (by omega)
    have h4 : 0 < (2 * map.draw_distance + 1) * (2 * map.draw_distance + 1) :=
      Int.mul_pos (by omega) (by omega)
    refine ⟨h4, by omega, ?_⟩
    have : (2 : Int) ^ 31 = 2147483648 := by norm_num
    omega

/-- Witness of C21: `gridMap3 5`, draw distance 5, 121 chunks. -/
theorem C21_neighbourhood_size_witness :
    GetAdjacentChunkCount (gridMap3 5) = (2 * (gridMap3 5).draw_distance + 1) ^ 2
      ∧ ((gridMap3 5).draw_distance = 0 → GetAdjacentChunkCount (gridMap3 5) = 1)
      ∧ ((gridMap3 5).draw_distance ≤ 32 →
          0 < GetAdjacentChunkCount (gridMap3 5) ∧ GetAdjacentChunkCount (gridMap3 5) ≤ 4225
            ∧ GetAdjacentChunkCount (gridMap3 5) < 2 ^ 31) :=
  C21_neighbourhood_size (gridMap3 5) (by decide)

/-- C23. Window cache: `UpdateAdjacentChunkIndexes` leaves the entity as it is
when `index` equals `temp_index`, and otherwise replaces the window buffer by
the result of the nested loops; in both cases `temp_index = index` on return,
and nothing of the entity other than the window buffer and `temp_index` is
changed. -/
theorem C23_window_cache (map : LwMap) (object : LwObject) (index : Int) :
    (object.chunkset.temp_index = index →
        UpdateAdjacentChunkIndexes map object index = object)
      ∧ (object.chunkset.temp_index ≠ index →
        (UpdateAdjacentChunkIndexes map object index).chunkset.indexes
          = (UpdateAdjacentChunkIndexes.loops map object index object.chunkset.indexes).1)
      ∧ (UpdateAdjacentChunkIndexes map object index).chunkset.temp_index = index
      ∧ (UpdateAdjacentChunkIndexes map object index).chunkset.tilemap
          = object.chunkset.tilemap
      ∧ (UpdateAdjacentChunkIndexes map object index).chunkset.chunks
          = object.chunkset.chunks
      ∧ { UpdateAdjacentChunkIndexes map object index with chunkset := object.chunkset }
          = object := by
  unfold UpdateAdjacentChunkIndexes
  by_cases h : object.chunkset.temp_index = index
  · simp [h]
  · simp [h]

/-- Instance of C23: on `gridObject3 1`, whose `temp_index` is -1, the call
for chunk 4 recomputes the window. -/
theorem C23_window_cache_witness :
    (UpdateAdjacentChunkIndexes (gridMap3 1) (gridObject3 1) 4).chunkset.indexes
        = (UpdateAdjacentChunkIndexes.loops (gridMap3 1) (gridObject3 1) 4
            (gridObject3 1).chunkset.indexes).1 :=
  (C23_window_cache (gridMap3 1) (gridObject3 1) 4).2.1 (by decide)

/-- With the draw distance 0 the window of the specification is the centre
chunk alone, when it lies in the grid. -/
theorem windowSpec_zero (width_c height_c cx cy : Int) (hx0 : 0 ≤ cx) (hx : cx < width_c)
    (hy0 : 0 ≤ cy) (hy : cy < height_c) :
    windowSpec width_c height_c 0 cx cy = [cy * width_c + cx] := by
  have hr : descRange 0 = [0] := by decide
  simp [windowSpec, windowCandidates, hr, keepCandidate, hx0, hx, hy0, hy]

/-- C22. Zero draw distance: with `draw_distance = 0`, on a recompute for a
valid chunk index `c` the loops of `UpdateAdjacentChunkIndexes` write exactly
one entry (the cursor ends at 1), the entry is `c` itself, and the rest of the
window buffer is untouched; on the map grid for a tileset entity and on the
grid of the entity for an auto-split entity. -/
theorem C22_zero_draw_distance (map : LwMap) (object : LwObject) (c : Int)
    (hd : map.draw_distance = 0)
    (hne : object.chunkset.temp_index ≠ c)
    (hlen : (GetAdjacentChunkCount map).toNat ≤ object.chunkset.indexes.length) :
    (object.tileset = true ∧ object.auto_split = false →
      0 < map.width.c → 0 ≤ c → c < map.width.c * map.height.c →
      (UpdateAdjacentChunkIndexes.loops map object c object.chunkset.indexes).2 = 1
      ∧ (UpdateAdjacentChunkIndexes map object c).chunkset.indexes
          = c :: object.chunkset.indexes.drop 1)
    ∧ (object.tileset = false ∧ object.auto_split = true →
      0 < object.width.c → 0 ≤ c → c < object.width.c * object.height.c →
      (UpdateAdjacentChunkIndexes.loops map object c object.chunkset.indexes).2 = 1
      ∧ (UpdateAdjacentChunkIndexes map object c).chunkset.indexes
          = c :: object.chunkset.indexes.drop 1) := by
  constructor
  · rintro ⟨ht, ha⟩ hw hc0 hc
    have hmode : (object.tileset && !object.auto_split) = true := by simp [ht, ha]
    have hloops := loops_map map object c object.chunkset.indexes hmode hlen
    obtain ⟨hx0, hx1, hy0, hy1, hsum⟩ := tdiv_tmod_of_index hw hc0 hc
    have hW : windowSpec map.width.c map.height.c map.draw_distance
        (GetMapChunkX map c) (GetMapChunkY map c) = [c] := by
      rw [hd]
      exact (windowSpec_zero _ _ _ _ hx0 hx1 hy0 hy1).trans (by rw [hsum])
    rw [hW] at hloops
    simp only [UpdateAdjacentChunkIndexes, if_neg hne, hloops]
    simp
  · rintro ⟨ht, _⟩ hw hc0 hc
    have hmode : (object.tileset && !object.auto_split) = false := by simp [ht]
    have hloops := loops_object map object c object.chunkset.indexes hmode hlen
    obtain ⟨hx0, hx1, hy0, hy1, hsum⟩ := tdiv_tmod_of_index hw hc0 hc
    have hW : windowSpec object.width.c object.height.c map.draw_distance
        (GetObjectChunkX object c) (GetObjectChunkY object c) = [c] := by
      rw [hd]
      exact (windowSpec_zero _ _ _ _ hx0 hx1 hy0 hy1).trans (by rw [hsum])
    rw [hW] at hloops
    simp only [UpdateAdjacentChunkIndexes, if_neg hne, hloops]
    simp

/-- Witness of C22: the tileset entity on `gridMap3 0`, current chunk 7. -/
theorem C22_zero_draw_distance_witness :
    (UpdateAdjacentChunkIndexes.loops (gridMap3 0) (gridObject3 0) 7
        (gridObject3 0).chunkset.indexes).2 = 1
      ∧ (UpdateAdjacentChunkIndexes (gridMap3 0) (gridObject3 0) 7).chunkset.indexes
          = 7 :: (gridObject3 0).chunkset.indexes.drop 1 :=
  (C22_zero_draw_distance (gridMap3 0) (gridObject3 0) 7 rfl (by decide) (by decide)).1
    ⟨rfl, rfl⟩ (by decide) (by decide) (by decide)

/-! ## The draw loop of `LoadChunks` -/

/-- The loop of `LoadChunks` over the first `n` slots of a buffer that has
them: the slots are passed to `DrawChunk` in order, with the values they held
before the loop, and each is then overwritten with `c`. -/
theorem foldl_LoadChunks_step (c : Int) (buf : List Int) :
    ∀ n : Nat, n ≤ buf.length →
      (List.range n).foldl (LoadChunks.step c) (buf, [])
        = (List.replicate n c ++ buf.drop n, buf.take n) := by
  intro n
  induction n with
  | zero => intro _; simp
  | succ n ih =>
    intro hn
    have hlt : n < buf.length := by omega
    rw [List.range_succ, List.foldl_append, ih (by omega)]
    simp only [List.foldl_cons, List.foldl_nil, LoadChunks.step, writeAt_natCast]
    have hlen : (List.replicate n c ++ List.drop n buf).length = buf.length := by
      simp; omega
    have hread : readAt (List.replicate n c ++ List.drop n buf) (n : Int) = buf[n] := by
      have h0 : (0 : Int) ≤ (n : Int) := Int.natCast_nonneg n
      simp only [readAt, h0, if_true, Int.toNat_natCast]
      rw [List.getD_eq_getElem _ _ (by omega), List.getElem_append_right (by simp)]
      simp
    have hwrite : (List.replicate n c ++ List.drop n buf).set n c
        = List.replicate (n + 1) c ++ List.drop (n + 1) buf := by
      rw [List.set_append_right _ _ (by simp)]
      simp only [List.length_replicate, Nat.sub_self]
      rw [List.drop_eq_getElem_cons hlt, List.set_cons_zero, List.replicate_succ']
      simp
    rw [hread, hwrite, List.take_succ]
    simp [List.getElem?_eq_getElem hlt]

/-- The loops of `UpdateAdjacentChunkIndexes` keep the length of the window
buffer. -/
theorem length_loops (map : LwMap) (object : LwObject) (index : Int) (indexes : List Int) :
    (UpdateAdjacentChunkIndexes.loops map object index indexes).1.length = indexes.length := by
  unfold UpdateAdjacentChunkIndexes.loops
  have hstep : ∀ (dy : Int) (st : List Int × Int) (dx : Int),
      (UpdateAdjacentChunkIndexes.step map object index dy st dx).1.length = st.1.length := by
    intro dy st dx
    simp only [UpdateAdjacentChunkIndexes.step]
    split_ifs <;> simp only [length_writeAt]
  have hinner : ∀ (l : List Int) (dy : Int) (st : List Int × Int),
      (l.foldl (UpdateAdjacentChunkIndexes.step map object index dy) st).1.length
        = st.1.length := by
    intro l
    induction l with
    | nil => intro dy st; rfl
    | cons a l ih => intro dy st; rw [List.foldl_cons, ih, hstep]
  have houter : ∀ (l : List Int) (st : List Int × Int),
      (l.foldl (fun st dy => (descRange map.draw_distance).foldl
        (UpdateAdjacentChunkIndexes.step map object index dy) st) st).1.length
        = st.1.length := by
    intro l
    induction l with
    | nil => intro st; rfl
    | cons a l ih => intro st; rw [List.foldl_cons, ih, hinner]
  exact houter _ _

theorem length_indexes_Update (map : LwMap) (object : LwObject) (index : Int) :
    (UpdateAdjacentChunkIndexes map object index).chunkset.indexes.length
      = object.chunkset.indexes.length := by
  unfold UpdateAdjacentChunkIndexes
  split_ifs
  · rfl
  · exact length_loops map object index _

/-- Closed form of `LoadChunks` for a position that resolves to a chunk index
`≥ 0`, on a window buffer with at least `(2d+1)^2` slots. -/
theorem LoadChunks_resolved (map : LwMap) (object : LwObject) (p : Vector2)
    (hc : 0 ≤ LoadChunks.chunk_index map object p)
    (hlen : (GetAdjacentChunkCount map).toNat ≤ object.chunkset.indexes.length) :
    LoadChunks map object p
      = ({ UpdateAdjacentChunkIndexes map object (LoadChunks.chunk_index map object p) with
            chunkset :=
              { (UpdateAdjacentChunkIndexes map object
                  (LoadChunks.chunk_index map object p)).chunkset with
                indexes :=
                  List.replicate (GetAdjacentChunkCount map).toNat
                      (LoadChunks.chunk_index map object p)
                    ++ (UpdateAdjacentChunkIndexes map object
                        (LoadChunks.chunk_index map object p)).chunkset.indexes.drop
                          (GetAdjacentChunkCount map).toNat } },
         (UpdateAdjacentChunkIndexes map object
            (LoadChunks.chunk_index map object p)).chunkset.indexes.take
              (GetAdjacentChunkCount map).toNat) := by
  have hlen2 : (GetAdjacentChunkCount map).toNat
      ≤ (UpdateAdjacentChunkIndexes map object
          (LoadChunks.chunk_index map object p)).chunkset.indexes.length := by
    rw [length_indexes_Update]; exact hlen
  have hfold := foldl_LoadChunks_step (LoadChunks.chunk_index map object p) _ _ hlen2
  unfold LoadChunks.chunk_index at hc hfold ⊢
  simp only [LoadChunks, ge_iff_le, if_pos hc, hfold]

/-! ## The per-frame draw step (C24, C25, C30) -/

/-- C24. Per-frame draw step: in a `LoadChunks` call whose position resolves
to a chunk index `c ≥ 0`, on a window buffer with the `(2d+1)^2` slots
`LoadTileData` allocates (or more), `DrawChunk` is invoked exactly `(2d+1)^2`
times, for the values the first `(2d+1)^2` slots hold after
`UpdateAdjacentChunkIndexes` (recompute or not), in slot order; when the call
returns each of these slots holds `c`. -/
theorem C24_draw_step (map : LwMap) (object : LwObject) (p : Vector2)
    (hc : 0 ≤ LoadChunks.chunk_index map object p)
    (hlen : (GetAdjacentChunkCount map).toNat ≤ object.chunkset.indexes.length) :
    (LoadChunks map object p).2.length = (GetAdjacentChunkCount map).toNat
      ∧ ((GetAdjacentChunkCount map).toNat : Int) = (2 * map.draw_distance + 1) ^ 2
      ∧ (LoadChunks map object p).2
          = (UpdateAdjacentChunkIndexes map object
              (LoadChunks.chunk_index map object p)).chunkset.indexes.take
                (GetAdjacentChunkCount map).toNat
      ∧ (LoadChunks map object p).1.chunkset.indexes.take (GetAdjacentChunkCount map).toNat
          = List.replicate (GetAdjacentChunkCount map).toNat
              (LoadChunks.chunk_index map object p) := by
  rw [LoadChunks_resolved map object p hc hlen]
  have hlen2 := length_indexes_Update map object (LoadChunks.chunk_index map object p)
  refine ⟨?_, toNat_adjacentChunkCount map, rfl, ?_⟩
  · simp only [List.length_take]
    omega
  · simp only
    rw [List.take_append_of_le_length (by simp)]
    simp

/-- Witness of C24: the viewer at (24, 24) on `gridMap3 1`. -/
theorem C24_draw_step_witness :
    (LoadChunks (gridMap3 1) (gridObject3 1) ⟨24, 24⟩).2.length
        = (GetAdjacentChunkCount (gridMap3 1)).toNat
      ∧ ((GetAdjacentChunkCount (gridMap3 1)).toNat : Int)
          = (2 * (gridMap3 1).draw_distance + 1) ^ 2
      ∧ (LoadChunks (gridMap3 1) (gridObject3 1) ⟨24, 24⟩).2
          = (UpdateAdjacentChunkIndexes (gridMap3 1) (gridObject3 1)
              (LoadChunks.chunk_index (gridMap3 1) (gridObject3 1) ⟨24, 24⟩)).chunkset.indexes.take
                (GetAdjacentChunkCount (gridMap3 1)).toNat
      ∧ (LoadChunks (gridMap3 1) (gridObject3 1) ⟨24, 24⟩).1.chunkset.indexes.take
            (GetAdjacentChunkCount (gridMap3 1)).toNat
          = List.replicate (GetAdjacentChunkCount (gridMap3 1)).toNat
              (LoadChunks.chunk_index (gridMap3 1) (gridObject3 1) ⟨24, 24⟩) :=
  C24_draw_step (gridMap3 1) (gridObject3 1) ⟨24, 24⟩ (by decide) (by decide)

/-- C30. Window collapse on a stationary viewer: when two consecutive
`LoadChunks` calls resolve to the same chunk index `c ≥ 0` (window buffer of
at least `(2d+1)^2` slots), the second call finds `temp_index = c`, so
`UpdateAdjacentChunkIndexes` changes nothing, and each of its `(2d+1)^2`
`DrawChunk` calls is for chunk `c`. -/
theorem C30_window_collapse (map : LwMap) (object : LwObject) (p1 p2 : Vector2) (c : Int)
    (hc : 0 ≤ c)
    (h1 : LoadChunks.chunk_index map object p1 = c)
    (h2 : LoadChunks.chunk_index map (LoadChunks map object p1).1 p2 = c)
    (hlen : (GetAdjacentChunkCount map).toNat ≤ object.chunkset.indexes.length) :
    (LoadChunks map object p1).1.chunkset.temp_index = c
      ∧ UpdateAdjacentChunkIndexes map (LoadChunks map object p1).1 c
          = (LoadChunks map object p1).1
      ∧ (LoadChunks map (LoadChunks map object p1).1 p2).2
          = List.replicate (GetAdjacentChunkCount map).toNat c
      ∧ ((LoadChunks map (LoadChunks map object p1).1 p2).2.length : Int)
          = (2 * map.draw_distance + 1) ^ 2 := by
  have hfirst := LoadChunks_resolved map object p1 (by rw [h1]; exact hc) hlen
  rw [h1] at hfirst
  have hlenU := length_indexes_Update map object c
  have htemp : (LoadChunks map object p1).1.chunkset.temp_index = c := by
    rw [hfirst]
    simp only [UpdateAdjacentChunkIndexes]
    split_ifs with h
    · exact h
    · rfl
  have hidx : (LoadChunks map object p1).1.chunkset.indexes
      = List.replicate (GetAdjacentChunkCount map).toNat c
        ++ (UpdateAdjacentChunkIndexes map object c).chunkset.indexes.drop
            (GetAdjacentChunkCount map).toNat := by
    rw [hfirst]
  have hnoop : UpdateAdjacentChunkIndexes map (LoadChunks map object p1).1 c
      = (LoadChunks map object p1).1 := by
    simp only [UpdateAdjacentChunkIndexes, if_pos htemp]
  have hlen1 : (GetAdjacentChunkCount map).toNat
      ≤ (LoadChunks map object p1).1.chunkset.indexes.length := by
    rw [hidx]
    simp
  have hsecond := LoadChunks_resolved map (LoadChunks map object p1).1 p2
    (by rw [h2]; exact hc) hlen1
  rw [h2, hnoop] at hsecond
  have htrace : (LoadChunks map (LoadChunks map object p1).1 p2).2
      = List.replicate (GetAdjacentChunkCount map).toNat c := by
    rw [hsecond]
    simp only
    rw [hidx, List.take_append_of_le_length (by simp)]
    simp
  refine ⟨htemp, hnoop, htrace, ?_⟩
  rw [htrace, List.length_replicate]
  exact toNat_adjacentChunkCount map

/-- Witness of C30: the viewer at (24, 24) and then at (30, 20), both in chunk
4 of `gridMap3 1`. -/
theorem C30_window_collapse_witness :
    (LoadChunks (gridMap3 1) (gridObject3 1) ⟨24, 24⟩).1.chunkset.temp_index = 4
      ∧ UpdateAdjacentChunkIndexes (gridMap3 1)
          (LoadChunks (gridMap3 1) (gridObject3 1) ⟨24, 24⟩).1 4
          = (LoadChunks (gridMap3 1) (gridObject3 1) ⟨24, 24⟩).1
      ∧ (LoadChunks (gridMap3 1) (LoadChunks (gridMap3 1) (gridObject3 1) ⟨24, 24⟩).1
          ⟨30, 20⟩).2 = List.replicate (GetAdjacentChunkCount (gridMap3 1)).toNat 4
      ∧ ((LoadChunks (gridMap3 1) (LoadChunks (gridMap3 1) (gridObject3 1) ⟨24, 24⟩).1
          ⟨30, 20⟩).2.length : Int) = (2 * (gridMap3 1).draw_distance + 1) ^ 2 :=
  C30_window_collapse (gridMap3 1) (gridObject3 1) ⟨24, 24⟩ ⟨30, 20⟩ 4 (by decide)
    (by decide) (by decide) (by decide)

/-- C25 fails as stated: on `gridMap3 1` (draw distance 1, nine slots), after
a call with the viewer at (40, 40), chunk 8 (the entity `staleObject`), the
call with the viewer at (5, 5), chunk 0, recomputes the window and writes 4 entries, fewer than 9; yet
it makes nine `DrawChunk` calls, the last five with the value 8 that the slots
4 to 8 kept from the call before. -/
theorem C25_counterexample :
    LoadChunks.chunk_index (gridMap3 1)
        staleObject ⟨5, 5⟩ = 0
      ∧ staleObject.chunkset.temp_index ≠ 0
      ∧ staleObject.chunkset.indexes = [8, 8, 8, 8, 8, 8, 8, 8, 8]
      ∧ (UpdateAdjacentChunkIndexes.loops (gridMap3 1)
          staleObject 0
          staleObject.chunkset.indexes).2 = 4
      ∧ (4 : Int) < (2 * (gridMap3 1).draw_distance + 1) ^ 2
      ∧ (LoadChunks (gridMap3 1) staleObject
          ⟨5, 5⟩).2 = [0, 1, 3, 4, 8, 8, 8, 8, 8] := by
  decide

/-- C25, amended. In a `LoadChunks` call that recomputes the window for the
chunk index `c ≥ 0` (window buffer of at least `(2d+1)^2` slots), where the
recompute writes `n` entries, all `(2d+1)^2` slots are passed to `DrawChunk`:
the first `n` calls are for the recomputed window and the remaining
`(2d+1)^2 - n` calls are made with the values the slots at the positions
`n, n + 1, ...` held before the call; on the map grid for a tileset entity and
on the grid of the entity for an auto-split entity. -/
theorem C25_stale_slots_are_read (map : LwMap) (object : LwObject) (p : Vector2)
    (hc : 0 ≤ LoadChunks.chunk_index map object p)
    (hne : object.chunkset.temp_index ≠ LoadChunks.chunk_index map object p)
    (hlen : (GetAdjacentChunkCount map).toNat ≤ object.chunkset.indexes.length) :
    (object.tileset = true ∧ object.auto_split = false →
      (LoadChunks map object p).2
        = windowSpec map.width.c map.height.c map.draw_distance
            (GetMapChunkX map (LoadChunks.chunk_index map object p))
            (GetMapChunkY map (LoadChunks.chunk_index map object p))
          ++ (object.chunkset.indexes.drop
                (windowSpec map.width.c map.height.c map.draw_distance
                  (GetMapChunkX map (LoadChunks.chunk_index map object p))
                  (GetMapChunkY map (LoadChunks.chunk_index map object p))).length).take
              ((GetAdjacentChunkCount map).toNat
                - (windowSpec map.width.c map.height.c map.draw_distance
                    (GetMapChunkX map (LoadChunks.chunk_index map object p))
                    (GetMapChunkY map (LoadChunks.chunk_index map object p))).length))
    ∧ (object.tileset = false ∧ object.auto_split = true →
      (LoadChunks map object p).2
        = windowSpec object.width.c object.height.c map.draw_distance
            (GetObjectChunkX object (LoadChunks.chunk_index map object p))
            (GetObjectChunkY object (LoadChunks.chunk_index map object p))
          ++ (object.chunkset.indexes.drop
                (windowSpec object.width.c object.height.c map.draw_distance
                  (GetObjectChunkX object (LoadChunks.chunk_index map object p))
                  (GetObjectChunkY object (LoadChunks.chunk_index map object p))).length).take
              ((GetAdjacentChunkCount map).toNat
                - (windowSpec object.width.c object.height.c map.draw_distance
                    (GetObjectChunkX object (LoadChunks.chunk_index map object p))
                    (GetObjectChunkY object (LoadChunks.chunk_index map object p))).length))
    ∧ (LoadChunks map object p).2.length = (GetAdjacentChunkCount map).toNat := by
  have hres := LoadChunks_resolved map object p hc hlen
  have hlenU := length_indexes_Update map object (LoadChunks.chunk_index map object p)
  refine ⟨?_, ?_, ?_⟩
  · rintro ⟨ht, ha⟩
    have hmode : (object.tileset && !object.auto_split) = true := by simp [ht, ha]
    have hloops := loops_map map object (LoadChunks.chunk_index map object p)
      object.chunkset.indexes hmode hlen
    rw [hres]
    simp only [UpdateAdjacentChunkIndexes, if_neg hne, hloops]
    rw [List.take_append_eq_append_take, List.take_of_length_le]
    exact length_windowSpec_le _ _ _ _ _
  · rintro ⟨ht, _⟩
    have hmode : (object.tileset && !object.auto_split) = false := by simp [ht]
    have hloops := loops_object map object (LoadChunks.chunk_index map object p)
      object.chunkset.indexes hmode hlen
    rw [hres]
    simp only [UpdateAdjacentChunkIndexes, if_neg hne, hloops]
    rw [List.take_append_eq_append_take, List.take_of_length_le]
    exact length_windowSpec_le _ _ _ _ _
  · rw [hres]
    simp only [List.length_take]
    omega

/-- Witness of C25 as amended: the call of the counterexample, viewer at
(5, 5) on `gridMap3 1` with the entity `staleObject`. -/
theorem C25_stale_slots_are_read_witness :
    (LoadChunks (gridMap3 1) staleObject ⟨5, 5⟩).2
      = (windowSpec (gridMap3 1).width.c (gridMap3 1).height.c (gridMap3 1).draw_distance
            (GetMapChunkX (gridMap3 1) (LoadChunks.chunk_index (gridMap3 1) staleObject ⟨5, 5⟩))
            (GetMapChunkY (gridMap3 1) (LoadChunks.chunk_index (gridMap3 1) staleObject ⟨5, 5⟩)))
        ++ (staleObject.chunkset.indexes.drop
          (windowSpec (gridMap3 1).width.c (gridMap3 1).height.c (gridMap3 1).draw_distance
            (GetMapChunkX (gridMap3 1) (LoadChunks.chunk_index (gridMap3 1) staleObject ⟨5, 5⟩))
            (GetMapChunkY (gridMap3 1) (LoadChunks.chunk_index (gridMap3 1) staleObject ⟨5, 5⟩))).length).take
            ((GetAdjacentChunkCount (gridMap3 1)).toNat
              - (windowSpec (gridMap3 1).width.c (gridMap3 1).height.c (gridMap3 1).draw_distance
            (GetMapChunkX (gridMap3 1) (LoadChunks.chunk_index (gridMap3 1) staleObject ⟨5, 5⟩))
            (GetMapChunkY (gridMap3 1) (LoadChunks.chunk_index (gridMap3 1) staleObject ⟨5, 5⟩))).length) :=
  (C25_stale_slots_are_read (gridMap3 1) staleObject ⟨5, 5⟩
    (by decide) (by decide) (by decide)).1 ⟨by decide, by decide⟩

/-! ## Entity lookup and the layer table (C26, C27, C28) -/

set_option maxRecDepth 20000 in
/-- C26. The document with the single layer 1 (entity 0) loads; in the loaded
map the id 5, never loaded, has the table entry 0, and layer 0 has no object
array, so `GetObject(map, 5)` reads through a null pointer; in the map loaded
from a document without layers the table itself is null and every lookup does.
Where a lookup reads inside its arrays it returns `NULL` exactly when the slot
is not marked valid. -/
theorem C26_GetObject_missing_layer :
    (LoadMapFromMemory (some demoLoader) emptyMap
        (some (documentOf [layerNode 1 [spriteNode 0]]))).1 = true
      ∧ (0 ≤ (5 : Int) ∧ (5 : Int) < MAX_OBJECT_COUNT)
      ∧ readAt (loadedMap (documentOf [layerNode 1 [spriteNode 0]])).object_table 5 = 0
      ∧ (layerAt (loadedMap (documentOf [layerNode 1 [spriteNode 0]])).layers 0)
          = { _valid := false, objects := [] }
      ∧ GetObject (loadedMap (documentOf [layerNode 1 [spriteNode 0]])) 5
          = GetObjectResult.fault
      ∧ ¬ (GetObject (loadedMap (documentOf [layerNode 1 [spriteNode 0]])) 0
          = GetObjectResult.fault)
      ∧ (LoadMapFromMemory (some demoLoader) emptyMap (some (documentOf []))).1 = true
      ∧ GetObject (loadedMap (documentOf [])) 0 = GetObjectResult.fault
      ∧ (∀ (map : LwMap) (index : Int), GetObject map index ≠ GetObjectResult.fault →
          (GetObject map index = GetObjectResult.null
            ↔ (mapObject map (readAt map.object_table index) index)._valid = false)) := by
  refine ⟨by decide, by decide, by decide, by decide, by decide, by decide, by decide,
    by decide, ?_⟩
  intro map index hne
  unfold GetObject at hne ⊢
  by_cases h1 : index < 0 ∨ (map.object_table.length : Int) ≤ index
  · simp [h1] at hne
  · by_cases h2 : readAt map.object_table index < 0
        ∨ (map.layers.length : Int) ≤ readAt map.object_table index
    · simp [h1, h2] at hne
    · by_cases h3 : ((layerAt map.layers (readAt map.object_table index)).objects.length : Int)
          ≤ index
      · simp [h1, h2, h3] at hne
      · simp only [h1, h2, h3, if_false]
        cases hv : (mapObject map (readAt map.object_table index) index)._valid <;> simp

set_option maxRecDepth 20000 in
/-- C27. The document with layer 1 (entity 4) followed by layer 0 (entity 3)
loads, and entity 4 is stored, valid, in layer 1; but the table entry of 4 is
0, not 1, and `GetObject(map, 4)` returns `NULL`. -/
theorem C27_object_table_reset_per_layer :
    (LoadMapFromMemory (some demoLoader) emptyMap
        (some (documentOf [layerNode 1 [spriteNode 4], layerNode 0 [spriteNode 3]]))).1 = true
      ∧ (mapObject (loadedMap
          (documentOf [layerNode 1 [spriteNode 4], layerNode 0 [spriteNode 3]])) 1 4)._valid
          = true
      ∧ (mapObject (loadedMap
          (documentOf [layerNode 1 [spriteNode 4], layerNode 0 [spriteNode 3]])) 1 4).id = 4
      ∧ readAt (loadedMap
          (documentOf [layerNode 1 [spriteNode 4], layerNode 0 [spriteNode 3]])).object_table 4
          = 0
      ∧ GetObject (loadedMap
          (documentOf [layerNode 1 [spriteNode 4], layerNode 0 [spriteNode 3]])) 4
          = GetObjectResult.null
      ∧ readAt (loadedMap
          (documentOf [layerNode 1 [spriteNode 4], layerNode 0 [spriteNode 3]])).object_table 3
          = 0
      ∧ (mapObject (loadedMap
          (documentOf [layerNode 1 [spriteNode 4], layerNode 0 [spriteNode 3]])) 0 3)._valid
          = true := by
  decide

/-- C28. On `optionsMap`, the map as `LoadOptionsData` leaves it for the
options of `documentOf` (positive tile and chunk sizes), the layers node with
the single layer 32 (one entity) is accepted: `LoadLayersData` returns true
although 32 lies outside `[0, MAX_LAYER_COUNT)`, because the test is
`layer_id > MAX_LAYER_COUNT`; a layer 40 that has no member but its id is
accepted too, because the test runs on the members after the id. The layers 40
and -1 with an `objects` member are refused. The whole document with the layer
32 is loaded by `LoadMapFromMemory`. -/
theorem C28_layer_32_accepted :
    MAX_LAYER_COUNT = 32
      ∧ ((LoadOptionsData emptyMap (optionsRecord 64 64 16 16 2 2 1)).1 = true
        ∧ 0 < optionsMap.tile_width ∧ 0 < optionsMap.tile_height
        ∧ 0 < optionsMap.chunk_width ∧ 0 < optionsMap.chunk_height)
      ∧ (LoadLayersData (some demoLoader) optionsMap
          [JsonNode.object "layers" [layerNode 32 [spriteNode 0]]]).1 = true
      ∧ (LoadLayersData (some demoLoader) optionsMap
          [JsonNode.object "layers" [JsonNode.object "" [JsonNode.number "id" 40]]]).1 = true
      ∧ (LoadLayersData (some demoLoader) optionsMap
          [JsonNode.object "layers" [layerNode 40 [spriteNode 0]]]).1 = false
      ∧ (LoadLayersData (some demoLoader) optionsMap
          [JsonNode.object "layers" [layerNode (-1) [spriteNode 0]]]).1 = false
      ∧ (LoadMapFromMemory (some demoLoader) emptyMap
          (some (documentOf [layerNode 32 [spriteNode 0]]))).1 = true := by
  decide

/-! ## Format version (C29) -/

/-- A loop with `return false` in its body that runs to its end went on after
every pass. -/
theorem forEachWithReturn_true {σ α : Type} (body : σ → α → Bool × σ) :
    ∀ (l : List α) (st : σ), (forEachWithReturn body st l).1 = true →
      ∀ a ∈ l, ∃ s : σ, (body s a).1 = true := by
  intro l
  induction l with
  | nil => intro st _ a ha; simp at ha
  | cons b l ih =>
    intro st h a ha
    unfold forEachWithReturn at h
    by_cases hb : (body st b).1 = true
    · rw [if_pos hb] at h
      rcases List.mem_cons.mp ha with rfl | hmem
      · exact ⟨st, hb⟩
      · exact ih _ h a hmem
    · rw [if_neg hb] at h
      simp at h

/-- A `format_version` member lets the loop of `LoadHeaderData` go on only
when its string is the supported version. -/
theorem LoadHeaderData_member_version (map : LwMap) (node : JsonNode)
    (hkey : node.key = "format_version") (hok : (LoadHeaderData.member map node).1 = true) :
    node.string_ = some MAP_FORMAT_VERSION := by
  unfold LoadHeaderData.member at hok
  have hname : ¬ node.key = "name" := by rw [hkey]; decide
  rw [if_neg hname, if_pos hkey] at hok
  cases hs : node.string_ with
  | none => simp [hs] at hok
  | some v =>
    simp only [hs] at hok
    split_ifs at hok with h1 h2
    simp only [ne_eq, not_not] at h2
    rw [h2]

/-- C29 fails as stated: the header with the single member `name` has no
`format_version` member, and `LoadHeaderData` returns true for it. -/
theorem C29_counterexample :
    (LoadHeaderData emptyMap [JsonNode.object "header" [JsonNode.string "name" "demo"]]).1
        = true
      ∧ ∀ member ∈ (JsonNode.object "header" [JsonNode.string "name" "demo"]).children,
          member.key ≠ "format_version" := by
  decide

/-- C29, amended. If `LoadHeaderData` returns true, every `format_version`
member of the header has the string `MAP_FORMAT_VERSION`, "1.0.0" (a header
without such a member loads too); so the load fails for every header that has
a `format_version` member whose string is not the supported version string. -/
theorem C29_format_version_checked_when_present (map : LwMap) (header : JsonNode)
    (rest : List JsonNode) (hok : (LoadHeaderData map (header :: rest)).1 = true) :
    (∀ member ∈ header.children, member.key = "format_version" →
        member.string_ = some MAP_FORMAT_VERSION)
      ∧ MAP_FORMAT_VERSION = "1.0.0" := by
  refine ⟨?_, rfl⟩
  intro member hmem hkey
  have hloop : (forEachWithReturn LoadHeaderData.member { map with name := "" }
      header.children).1 = true := by
    unfold LoadHeaderData at hok
    simp only [List.head?_cons] at hok
    split_ifs at hok with h
    exact h
  obtain ⟨m, hm⟩ := forEachWithReturn_true _ _ _ hloop member hmem
  exact LoadHeaderData_member_version m member hkey hm

/-- Witness of C29 as amended: the header of a schema document. -/
theorem C29_format_version_checked_when_present_witness :
    (∀ member ∈ (JsonNode.object "header"
          [JsonNode.string "name" "demo", JsonNode.string "format_version" "1.0.0"]).children,
        member.key = "format_version" → member.string_ = some MAP_FORMAT_VERSION)
      ∧ MAP_FORMAT_VERSION = "1.0.0" :=
  C29_format_version_checked_when_present emptyMap
    (JsonNode.object "header"
      [JsonNode.string "name" "demo", JsonNode.string "format_version" "1.0.0"])
    [] (by decide)

/-! ## Position resolution in range (C33) -/

/-- The chunk index `TileIndexToChunkIndexMap` computes for a valid tile
index is a valid chunk index when the chunk counts cover the tiles. -/
theorem TileIndexToChunkIndexMap_range (map : LwMap) (i : Int)
    (hcw : 0 < map.chunk_width) (hch : 0 < map.chunk_height) (hwt : 0 < map.width.t)
    (hw : map.width.t ≤ map.width.c * map.chunk_width)
    (hh : map.height.t ≤ map.height.c * map.chunk_height)
    (hi0 : 0 ≤ i) (hi : i < map.width.t * map.height.t) :
    0 ≤ TileIndexToChunkIndexMap map i
      ∧ TileIndexToChunkIndexMap map i < map.width.c * map.height.c := by
  obtain ⟨hx0, hx1, hy0, hy1, _, _⟩ := chunk_of_tile hcw hch hwt hw hh hi0 hi
  exact linear_index_bounds hx0 hx1 hy0 hy1

/-- Chunk counts that cover a positive number of tiles are positive. -/
theorem pos_of_cover {t c s : Int} (ht : 0 < t) (hs : 0 < s) (h : t ≤ c * s) : 0 < c := by
  by_contra hneg
  have h1 := Int.mul_le_mul_of_nonneg_right (not_lt.mp hneg) hs.le
  rw [Int.zero_mul] at h1
  omega

/-- The slot index of the store loops is a slot of a buffer of `chunk_width`
rows of `chunk_width` tiles. -/
theorem relativeTileIndex_bounds (map : LwMap) (width_t i : Int)
    (hcw : 0 < map.chunk_width) (hwt : 0 < width_t) (hi0 : 0 ≤ i) :
    0 ≤ relativeTileIndex map width_t i
      ∧ relativeTileIndex map width_t i < map.chunk_width * map.chunk_width := by
  have hy0 : 0 ≤ Int.tdiv i width_t := Int.tdiv_nonneg hi0 hwt.le
  have hx0 : 0 ≤ Int.tmod i width_t := Int.tmod_nonneg _ hi0
  exact linear_index_bounds (Int.tmod_nonneg _ hx0) (Int.tmod_lt_of_pos _ hcw)
    (Int.tmod_nonneg _ hy0) (Int.tmod_lt_of_pos _ hcw)

/-- C31. On `wideChunkMap` (two by two tiles, chunks two tiles wide and one
tile high, so chunk buffers of `2 * 1 = 2` slots) the store loop of
`LoadTileData` targets for the tile index 2 the valid chunk index 1 and the
slot index 2, which is not a slot of the buffer; in the embedding the write is
dropped, and the chunk 1 is left valid with the ids 7 and 8 of its two tiles
missing. In general the chunk index is in range and the slot index lies in
`[0, chunk_width * chunk_width)`, which is inside the buffer when
`chunk_width ≤ chunk_height`. -/
theorem C31_slot_out_of_bounds :
    (0 < wideChunkMap.chunk_width ∧ 0 < wideChunkMap.chunk_height
      ∧ (0 : Int) ≤ 2 ∧ 2 < wideChunkMap.width.t * wideChunkMap.height.t
      ∧ TileIndexToChunkIndexMap wideChunkMap 2 = 1
      ∧ relativeTileIndex wideChunkMap wideChunkMap.width.t 2 = 2
      ∧ wideChunkMap.chunk_width * wideChunkMap.chunk_height = 2
      ∧ ¬ relativeTileIndex wideChunkMap wideChunkMap.width.t 2
          < wideChunkMap.chunk_width * wideChunkMap.chunk_height
      ∧ (LoadTileData wideChunkMap (tilesetEntity wideChunkMap) [5, 6, 7, 8]).1 = true
      ∧ (LoadTileData wideChunkMap (tilesetEntity wideChunkMap)
          [5, 6, 7, 8]).2.chunkset.tilemap = [5, 6, 7, 8]
      ∧ (LoadTileData wideChunkMap (tilesetEntity wideChunkMap)
          [5, 6, 7, 8]).2.chunkset.chunks
          = [{ _valid := true, data := [5, 6] }, { _valid := true, data := [0, 0] }])
    ∧ (∀ (map : LwMap) (i : Int),
        0 < map.chunk_width → 0 < map.chunk_height → 0 < map.width.t →
        map.width.t ≤ map.width.c * map.chunk_width →
        map.height.t ≤ map.height.c * map.chunk_height →
        0 ≤ i → i < map.width.t * map.height.t →
        (0 ≤ TileIndexToChunkIndexMap map i
          ∧ TileIndexToChunkIndexMap map i < map.width.c * map.height.c)
        ∧ (0 ≤ relativeTileIndex map map.width.t i
          ∧ relativeTileIndex map map.width.t i < map.chunk_width * map.chunk_width)
        ∧ (map.chunk_width ≤ map.chunk_height →
          relativeTileIndex map map.width.t i < map.chunk_width * map.chunk_height)) := by
  refine ⟨by decide, ?_⟩
  intro map i hcw hch hwt hw hh hi0 hi
  have hr := relativeTileIndex_bounds map map.width.t i hcw hwt hi0
  refine ⟨TileIndexToChunkIndexMap_range map i hcw hch hwt hw hh hi0 hi, hr, ?_⟩
  intro hle
  have := Int.mul_le_mul_of_nonneg_left hle hcw.le
  omega

/-- Instance of the general part of C31 on `demoMap` (square chunks of two by
two tiles), tile index 10: the chunk index and the slot index are in range. -/
theorem C31_slot_out_of_bounds_witness :
    (0 ≤ TileIndexToChunkIndexMap demoMap 10
        ∧ TileIndexToChunkIndexMap demoMap 10 < demoMap.width.c * demoMap.height.c)
      ∧ (0 ≤ relativeTileIndex demoMap demoMap.width.t 10
        ∧ relativeTileIndex demoMap demoMap.width.t 10
            < demoMap.chunk_width * demoMap.chunk_width)
      ∧ (demoMap.chunk_width ≤ demoMap.chunk_height →
        relativeTileIndex demoMap demoMap.width.t 10
          < demoMap.chunk_width * demoMap.chunk_height) :=
  C31_slot_out_of_bounds.2 demoMap 10 (by decide) (by decide) (by decide) (by decide)
    (by decide) (by decide) (by decide)

/-- A non-negative integer is determined by its quotient by `b` and its
remainder by `a` when `0 < b ≤ a`. -/
theorem eq_of_tdiv_eq_of_tmod_eq {y z a b : Int} (hy : 0 ≤ y) (hz : 0 ≤ z)
    (hb : 0 < b) (hba : b ≤ a) (hq : Int.tdiv y b = Int.tdiv z b)
    (hr : Int.tmod y a = Int.tmod z a) : y = z := by
  have ha : 0 < a := by omega
  rw [Int.tdiv_eq_ediv hy hb.le, Int.tdiv_eq_ediv hz hb.le] at hq
  rw [Int.tmod_eq_emod hy ha.le, Int.tmod_eq_emod hz ha.le] at hr
  have hy1 := Int.emod_add_ediv y b
  have hz1 := Int.emod_add_ediv z b
  have hy2 := Int.emod_nonneg y hb.ne'
  have hz2 := Int.emod_nonneg z hb.ne'
  have hy3 := Int.emod_lt_of_pos y hb
  have hz3 := Int.emod_lt_of_pos z hb
  have hd : a ∣ y - z := Int.ModEq.dvd (show z ≡ y [ZMOD a] from hr.symm)
  have habs : |y - z| < a := by
    rw [abs_lt]
    rw [hq] at hy1
    constructor <;> omega
  have := Int.eq_zero_of_abs_lt_dvd hd habs
  omega

/-- Reading an array after a write: the written value at the written index
when that index exists, the old value elsewhere. -/
theorem readAt_writeAt (a : List Int) (r k v : Int) :
    readAt (writeAt a r v) k
      = if k = r ∧ 0 ≤ r ∧ r < (a.length : Int) then v else readAt a k := by
  unfold readAt writeAt
  by_cases hc : 0 ≤ r
  · by_cases hk : 0 ≤ k
    · simp only [hc, hk, if_true, List.getD_eq_getElem?_getD, List.getElem?_set]
      by_cases hkc : k = r
      · subst hkc
        by_cases hlen : k < (a.length : Int)
        · have h2 : k.toNat < a.length := by omega
          simp [hlen, h2]
        · have h2 : ¬ k.toNat < a.length := by omega
          have h3 : a[k.toNat]? = none := by
            rw [List.getElem?_eq_none_iff]; omega
          simp [hlen, h2, h3]
      · have hne : r.toNat ≠ k.toNat := by omega
        simp [hkc, hne]
    · have hkc : ¬ (k = r ∧ 0 ≤ r ∧ r < (a.length : Int)) := by omega
      simp [hk, hkc]
  · have hkc : ¬ (k = r ∧ 0 ≤ r ∧ r < (a.length : Int)) := by omega
    simp [hc, hkc]

/-- The buffer of a chunk after `storeTile`: written at the slot in the
written chunk, unchanged elsewhere. -/
theorem data_storeTile (chunks : List LwChunk) (c r v k : Int) :
    (chunkAt (storeTile chunks c r v) k).data
      = if k = c ∧ 0 ≤ c ∧ c < (chunks.length : Int) then
          writeAt (chunkAt chunks c).data r v
        else (chunkAt chunks k).data := by
  simp only [storeTile, chunkAt_writeAt]
  split_ifs <;> rfl

/-- The store loop of `LoadTileData` over the first `n` of `N` tiles, when
the chunk and slot indexes of these tiles are in range and pairwise distinct as
pairs: every chunk buffer keeps its size, and every tile with a non-negative id
is read back at its chunk and slot. -/
theorem data_after_store (tilemap : List Int) (ci rel : Nat → Int)
    (step : List LwChunk → Nat → List LwChunk)
    (hstep : ∀ chunks i, step chunks i
      = if readAt tilemap i < 0 then chunks
        else storeTile chunks (ci i) (rel i) (readAt tilemap i))
    (chunks0 : List LwChunk) (size : Int) (N : Nat)
    (hsize : ∀ k : Int, 0 ≤ k → k < (chunks0.length : Int) →
      ((chunkAt chunks0 k).data.length : Int) = size)
    (hci : ∀ i : Nat, i < N → 0 ≤ ci i ∧ ci i < (chunks0.length : Int))
    (hrel : ∀ i : Nat, i < N → 0 ≤ rel i ∧ rel i < size)
    (hinj : ∀ i j : Nat, i < N → j < N → ci i = ci j → rel i = rel j → i = j) :
    ∀ n : Nat, n ≤ N →
      ((List.range n).foldl step chunks0).length = chunks0.length
      ∧ (∀ k : Int, 0 ≤ k → k < (chunks0.length : Int) →
          ((chunkAt ((List.range n).foldl step chunks0) k).data.length : Int) = size)
      ∧ (∀ i : Nat, i < n → 0 ≤ readAt tilemap i →
          readAt (chunkAt ((List.range n).foldl step chunks0) (ci i)).data (rel i)
            = readAt tilemap i) := by
  intro n
  induction n with
  | zero =>
    intro _
    exact ⟨rfl, hsize, fun i hi => absurd hi (Nat.not_lt_zero i)⟩
  | succ n ih =>
    intro hn
    obtain ⟨hlen, hsz, hrd⟩ := ih (by omega)
    rw [List.range_succ, List.foldl_append, List.foldl_cons, List.foldl_nil, hstep]
    by_cases hneg : readAt tilemap n < 0
    · rw [if_pos hneg]
      refine ⟨hlen, hsz, ?_⟩
      intro i hi h0
      rcases Nat.lt_succ_iff_lt_or_eq.mp hi with h | h
      · exact hrd i h h0
      · subst h; omega
    · rw [if_neg hneg]
      obtain ⟨hcn0, hcn1⟩ := hci n (by omega)
      obtain ⟨hrn0, hrn1⟩ := hrel n (by omega)
      have hcond : ∀ k : Int, k = ci n →
          (k = ci n ∧ 0 ≤ ci n ∧ ci n < (((List.range n).foldl step chunks0).length : Int)) := by
        intro k hk
        rw [hlen]
        exact ⟨hk, hcn0, hcn1⟩
      refine ⟨by rw [length_storeTile, hlen], ?_, ?_⟩
      · intro k hk0 hk1
        rw [data_storeTile]
        split_ifs with h
        · rw [length_writeAt]
          exact hsz _ hcn0 hcn1
        · exact hsz k hk0 hk1
      · intro i hi h0
        rw [data_storeTile]
        by_cases hc : ci i = ci n
        · rw [if_pos (hcond _ hc), readAt_writeAt]
          by_cases hr : rel i = rel n
          · have hin : i = n := hinj i n (by omega) (by omega) hc hr
            rw [if_pos ⟨hr, hrn0, by rw [hsz _ hcn0 hcn1]; exact hrn1⟩, hin]
          · rw [if_neg (fun h => hr h.1)]
            have hne : i ≠ n := fun h => hr (by rw [h])
            rw [← hc]
            exact hrd i (by omega) h0
        · rw [if_neg (fun h => hc h.1)]
          have hne : i ≠ n := fun h => hc (by rw [h])
          exact hrd i (by omega) h0

/-- The store loop of the tileset branch sends distinct tile indexes to
distinct pairs of chunk index and slot index when
`chunk_height ≤ chunk_width`. -/
theorem store_pairs_distinct (map : LwMap) (i j : Int)
    (hch : 0 < map.chunk_height) (hle : map.chunk_height ≤ map.chunk_width)
    (hwt : 0 < map.width.t) (hw : map.width.t ≤ map.width.c * map.chunk_width)
    (hi0 : 0 ≤ i) (hi : i < map.width.t * map.height.t)
    (hj0 : 0 ≤ j) (hj : j < map.width.t * map.height.t)
    (hchunk : TileIndexToChunkIndexMap map i = TileIndexToChunkIndexMap map j)
    (hslot : relativeTileIndex map map.width.t i = relativeTileIndex map map.width.t j) :
    i = j := by
  have hcw : 0 < map.chunk_width := by omega
  obtain ⟨hxi0, hxi1, hyi0, _, hi2⟩ := tdiv_tmod_of_index hwt hi0 hi
  obtain ⟨hxj0, hxj1, hyj0, _, hj2⟩ := tdiv_tmod_of_index hwt hj0 hj
  have hcxi : Int.tdiv (Int.tmod i map.width.t) map.chunk_width < map.width.c := by
    rw [Int.tdiv_eq_ediv hxi0 hcw.le]
    exact Int.ediv_lt_of_lt_mul hcw (by omega)
  have hcxj : Int.tdiv (Int.tmod j map.width.t) map.chunk_width < map.width.c := by
    rw [Int.tdiv_eq_ediv hxj0 hcw.le]
    exact Int.ediv_lt_of_lt_mul hcw (by omega)
  obtain ⟨ci1, ci2⟩ := coords_of_linear (Int.tdiv_nonneg hxi0 hcw.le) hcxi
    (Int.tdiv_nonneg hyi0 hch.le)
  obtain ⟨cj1, cj2⟩ := coords_of_linear (Int.tdiv_nonneg hxj0 hcw.le) hcxj
    (Int.tdiv_nonneg hyj0 hch.le)
  obtain ⟨si1, si2⟩ := coords_of_linear
    (Int.tmod_nonneg map.chunk_width hxi0) (Int.tmod_lt_of_pos _ hcw)
    (Int.tmod_nonneg map.chunk_width hyi0)
  obtain ⟨sj1, sj2⟩ := coords_of_linear
    (Int.tmod_nonneg map.chunk_width hxj0) (Int.tmod_lt_of_pos _ hcw)
    (Int.tmod_nonneg map.chunk_width hyj0)
  simp only [TileIndexToChunkIndexMap, GetMapTileX, GetMapTileY] at hchunk
  simp only [relativeTileIndex] at hslot
  rw [hchunk, cj1] at ci1
  rw [hchunk, cj2] at ci2
  rw [hslot, sj1] at si1
  rw [hslot, sj2] at si2
  have hx : Int.tmod i map.width.t = Int.tmod j map.width.t :=
    eq_of_tdiv_eq_of_tmod_eq hxi0 hxj0 hcw le_rfl ci1.symm si1.symm
  have hy : Int.tdiv i map.width.t = Int.tdiv j map.width.t :=
    eq_of_tdiv_eq_of_tmod_eq hyi0 hyj0 hch hle ci2.symm si2.symm
  rw [← hi2, ← hj2, hx, hy]

/-- The tile map `LoadTileData` builds for a tileset entity. -/
theorem LoadTileData_tileset_tilemap (map : LwMap) (object : LwObject) (tiledata : List Int)
    (ht : object.tileset = true) (ha : object.auto_split = false) :
    (LoadTileData map object tiledata).2.chunkset.tilemap
      = (List.range (map.width.t * map.height.t).toNat).map
          (fun (i : Nat) => readAt tiledata i) := by
  simp [LoadTileData, ht, ha]

/-- With square chunks (`chunk_height = chunk_width`) on a map whose chunk
counts cover its tiles, every tile of a tileset entity with a non-negative id
is read back after the build at the chunk index and the slot index the build
computed for it. -/
theorem LoadTileData_readback_square (map : LwMap) (object : LwObject)
    (tiledata : List Int) (i : Nat)
    (ht : object.tileset = true) (ha : object.auto_split = false)
    (hcw : 0 < map.chunk_width) (hsq : map.chunk_height = map.chunk_width)
    (hwt : 0 < map.width.t) (hw : map.width.t ≤ map.width.c * map.chunk_width)
    (hh : map.height.t ≤ map.height.c * map.chunk_height)
    (hi : (i : Int) < map.width.t * map.height.t)
    (h0 : 0 ≤ readAt (LoadTileData map object tiledata).2.chunkset.tilemap i) :
    readAt (chunkAt (LoadTileData map object tiledata).2.chunkset.chunks
        (TileIndexToChunkIndexMap map i)).data (relativeTileIndex map map.width.t i)
      = readAt (LoadTileData map object tiledata).2.chunkset.tilemap i := by
  have hch : 0 < map.chunk_height := by omega
  rw [LoadTileData_tileset_tilemap map object tiledata ht ha] at h0 ⊢
  rw [LoadTileData_tileset_chunks map object tiledata ht ha]
  have hht : 0 < map.height.t := by
    by_contra hneg
    have := Int.mul_le_mul_of_nonneg_left (not_lt.mp hneg) hwt.le
    have hi0 : (0 : Int) ≤ (i : Int) := Int.natCast_nonneg i
    omega
  have hcount : 0 ≤ map.width.c * map.height.c :=
    (Int.mul_pos (pos_of_cover hwt hcw hw) (pos_of_cover hht hch hh)).le
  have hsize0 : 0 ≤ map.chunk_width * map.chunk_height := (Int.mul_pos hcw hch).le
  have hN : ∀ k : Nat, k < (map.width.t * map.height.t).toNat →
      (0 : Int) ≤ (k : Int) ∧ (k : Int) < map.width.t * map.height.t := by
    intro k hk
    exact ⟨Int.natCast_nonneg k, by omega⟩
  exact (data_after_store
    ((List.range (map.width.t * map.height.t).toNat).map (fun (i : Nat) => readAt tiledata i))
    (fun i => TileIndexToChunkIndexMap map i)
    (fun i => relativeTileIndex map map.width.t i)
    (LoadTileData.storeMap map
      ((List.range (map.width.t * map.height.t).toNat).map (fun (i : Nat) => readAt tiledata i)))
    (fun _ _ => rfl)
    (callocChunks (map.width.c * map.height.c) (map.chunk_width * map.chunk_height))
    (map.chunk_width * map.chunk_height) (map.width.t * map.height.t).toNat
    (by
      intro k hk0 hk1
      rw [length_callocChunks] at hk1
      have hk2 : k.toNat < (map.width.c * map.height.c).toNat := by omega
      simp only [chunkAt, hk0, if_true, callocChunks, callocInts,
        List.getD_eq_getElem?_getD, List.getElem?_replicate, hk2, Option.getD_some,
        List.length_replicate]
      omega)
    (by
      intro k hk
      obtain ⟨hk0, hk1⟩ := hN k hk
      rw [length_callocChunks, Int.toNat_of_nonneg hcount]
      exact TileIndexToChunkIndexMap_range map k hcw hch hwt hw hh hk0 hk1)
    (by
      intro k hk
      obtain ⟨hk0, _⟩ := hN k hk
      have := relativeTileIndex_bounds map map.width.t k hcw hwt hk0
      rw [hsq]
      exact this)
    (by
      intro k l hk hl hc hr
      obtain ⟨hk0, hk1⟩ := hN k hk
      obtain ⟨hl0, hl1⟩ := hN l hl
      have := store_pairs_distinct map k l hch hsq.le hwt hw hk0 hk1 hl0 hl1 hc hr
      exact_mod_cast this)
    (map.width.t * map.height.t).toNat le_rfl).2.2 i (by omega) h0

/-- C32. On `tallGridMap` (two by three tiles in one chunk that is two tiles
wide and three tiles high) the store loop of `LoadTileData` sends the distinct
tile indexes 0 and 4 to the same chunk index 0 and the same slot index 0: with
the tile ids 1 to 6 the chunk buffer after the build is `[5, 6, 3, 4, 0, 0]`,
and reading back the tile 0 at the chunk and the slot the build computed for it
gives 5, the id of the tile 4, where `tilemap[0]` is 1. In general the build
sends distinct tile indexes to distinct pairs when
`chunk_height ≤ chunk_width`, and with square chunks
(`chunk_height = chunk_width`) every tile of a tileset entity with a
non-negative id is read back at its chunk and slot. -/
theorem C32_store_collision :
    ((0 : Int) ≠ 4
      ∧ (0 : Int) < tallGridMap.width.t * tallGridMap.height.t
      ∧ 4 < tallGridMap.width.t * tallGridMap.height.t
      ∧ TileIndexToChunkIndexMap tallGridMap 0 = TileIndexToChunkIndexMap tallGridMap 4
      ∧ relativeTileIndex tallGridMap tallGridMap.width.t 0
          = relativeTileIndex tallGridMap tallGridMap.width.t 4
      ∧ (LoadTileData tallGridMap (tilesetEntity tallGridMap) [1, 2, 3, 4, 5, 6]).1 = true
      ∧ (LoadTileData tallGridMap (tilesetEntity tallGridMap)
          [1, 2, 3, 4, 5, 6]).2.chunkset.chunks
          = [{ _valid := true, data := [5, 6, 3, 4, 0, 0] }]
      ∧ readAt (LoadTileData tallGridMap (tilesetEntity tallGridMap)
          [1, 2, 3, 4, 5, 6]).2.chunkset.tilemap 0 = 1
      ∧ readAt (chunkAt (LoadTileData tallGridMap (tilesetEntity tallGridMap)
            [1, 2, 3, 4, 5, 6]).2.chunkset.chunks
            (TileIndexToChunkIndexMap tallGridMap 0)).data
          (relativeTileIndex tallGridMap tallGridMap.width.t 0) = 5)
    ∧ (∀ (map : LwMap) (i j : Int),
        0 < map.chunk_height → map.chunk_height ≤ map.chunk_width → 0 < map.width.t →
        map.width.t ≤ map.width.c * map.chunk_width →
        0 ≤ i → i < map.width.t * map.height.t →
        0 ≤ j → j < map.width.t * map.height.t →
        TileIndexToChunkIndexMap map i = TileIndexToChunkIndexMap map j →
        relativeTileIndex map map.width.t i = relativeTileIndex map map.width.t j →
        i = j)
    ∧ (∀ (map : LwMap) (object : LwObject) (tiledata : List Int) (i : Nat),
        object.tileset = true → object.auto_split = false →
        0 < map.chunk_width → map.chunk_height = map.chunk_width → 0 < map.width.t →
        map.width.t ≤ map.width.c * map.chunk_width →
        map.height.t ≤ map.height.c * map.chunk_height →
        (i : Int) < map.width.t * map.height.t →
        0 ≤ readAt (LoadTileData map object tiledata).2.chunkset.tilemap i →
        readAt (chunkAt (LoadTileData map object tiledata).2.chunkset.chunks
            (TileIndexToChunkIndexMap map i)).data (relativeTileIndex map map.width.t i)
          = readAt (LoadTileData map object tiledata).2.chunkset.tilemap i) :=
  ⟨by decide, store_pairs_distinct, LoadTileData_readback_square⟩

/-- Instance of the general part of C32 on `demoMap` (square chunks of two by
two tiles) with the tile ids 100 to 115: the tile 10 is read back. -/
theorem C32_store_collision_witness :
    readAt (chunkAt (LoadTileData demoMap (tilesetEntity demoMap)
          [100, 101, 102, 103, 104, 105, 106, 107, 108, 109, 110, 111, 112, 113, 114,
            115]).2.chunkset.chunks
        (TileIndexToChunkIndexMap demoMap (10 : Nat))).data
        (relativeTileIndex demoMap demoMap.width.t (10 : Nat))
      = readAt (LoadTileData demoMap (tilesetEntity demoMap)
          [100, 101, 102, 103, 104, 105, 106, 107, 108, 109, 110, 111, 112, 113, 114,
            115]).2.chunkset.tilemap (10 : Nat) :=
  C32_store_collision.2.2 demoMap (tilesetEntity demoMap)
    [100, 101, 102, 103, 104, 105, 106, 107, 108, 109, 110, 111, 112, 113, 114, 115] 10
    rfl rfl (by decide) (by decide) (by decide) (by decide) (by decide) (by decide)
    (by decide)

/-! ## The window buffer invariant (C34) -/

theorem mem_descRange {d k : Int} : k ∈ descRange d ↔ -d ≤ k ∧ k ≤ d := by
  unfold descRange
  rw [List.mem_map]
  constructor
  · rintro ⟨n, hn, rfl⟩
    rw [List.mem_range] at hn
    omega
  · rintro ⟨h1, h2⟩
    refine ⟨(d - k).toNat, ?_, ?_⟩
    · rw [List.mem_range]; omega
    · omega

/-- The entries of the window are exactly the chunks of the grid within the
distance `d` of `(cx, cy)` on both axes. -/
theorem mem_windowSpec_iff {width_c height_c d cx cy e : Int} :
    e ∈ windowSpec width_c height_c d cx cy
      ↔ ∃ x y, 0 ≤ x ∧ x < width_c ∧ 0 ≤ y ∧ y < height_c
          ∧ |x - cx| ≤ d ∧ |y - cy| ≤ d ∧ e = y * width_c + x := by
  unfold windowSpec windowCandidates
  simp only [List.mem_filterMap, List.mem_flatMap, List.mem_map, mem_descRange]
  constructor
  · rintro ⟨cand, ⟨dy, hdy, dx, hdx, rfl⟩, hk⟩
    unfold keepCandidate at hk
    split_ifs at hk with h
    refine ⟨cx - dx, cy - dy, h.1, h.2.1, h.2.2.1, h.2.2.2, ?_, ?_,
      (Option.some.inj hk).symm⟩
    · rw [abs_le]; constructor <;> omega
    · rw [abs_le]; constructor <;> omega
  · rintro ⟨x, y, hx0, hx, hy0, hy, hax, hay, rfl⟩
    rw [abs_le] at hax hay
    refine ⟨(x, y), ⟨cy - y, by omega, cx - x, by omega, by simp⟩, ?_⟩
    unfold keepCandidate
    rw [if_pos ⟨hx0, hx, hy0, hy⟩]

/-- The number of entries of the window around a chunk `(cx, cy)` of the
grid: the product of the clipped extents on the two axes. -/
theorem length_windowSpec (width_c height_c d cx cy : Int) (hd : 0 ≤ d)
    (hx0 : 0 ≤ cx) (hx : cx < width_c) (hy0 : 0 ≤ cy) (hy : cy < height_c) :
    ((windowSpec width_c height_c d cx cy).length : Int)
      = (min (cx + d) (width_c - 1) - max (cx - d) 0 + 1)
        * (min (cy + d) (height_c - 1) - max (cy - d) 0 + 1) := by
  have hnd : (windowSpec width_c height_c d cx cy).Nodup :=
    (pairwise_windowSpec width_c height_c d cx cy).imp (fun h => ne_of_lt h)
  have hset : (windowSpec width_c height_c d cx cy).toFinset
      = (Finset.Icc (max (cx - d) 0) (min (cx + d) (width_c - 1))
          ×ˢ Finset.Icc (max (cy - d) 0) (min (cy + d) (height_c - 1))).image
          (fun q : Int × Int => q.2 * width_c + q.1) := by
    ext e
    rw [List.mem_toFinset, mem_windowSpec_iff, Finset.mem_image]
    constructor
    · rintro ⟨x, y, h1, h2, h3, h4, hax, hay, rfl⟩
      rw [abs_le] at hax hay
      refine ⟨(x, y), ?_, rfl⟩
      rw [Finset.mem_product, Finset.mem_Icc, Finset.mem_Icc]
      simp only [max_le_iff, le_min_iff]
      omega
    · rintro ⟨⟨x, y⟩, hq, rfl⟩
      rw [Finset.mem_product, Finset.mem_Icc, Finset.mem_Icc] at hq
      simp only [max_le_iff, le_min_iff] at hq
      refine ⟨x, y, by omega, by omega, by omega, by omega, ?_, ?_, rfl⟩
      · rw [abs_le]; omega
      · rw [abs_le]; omega
  have hinj : Set.InjOn (fun q : Int × Int => q.2 * width_c + q.1)
      ↑(Finset.Icc (max (cx - d) 0) (min (cx + d) (width_c - 1))
          ×ˢ Finset.Icc (max (cy - d) 0) (min (cy + d) (height_c - 1))) := by
    rintro ⟨x, y⟩ hq ⟨x2, y2⟩ hq2 heq
    simp only [Finset.coe_product, Set.mem_prod, Finset.coe_Icc, Set.mem_Icc, max_le_iff,
      le_min_iff] at hq hq2
    simp only at heq
    obtain ⟨a1, a2⟩ := coords_of_linear (show 0 ≤ x by omega) (show x < width_c by omega)
      (show 0 ≤ y by omega)
    obtain ⟨b1, b2⟩ := coords_of_linear (show 0 ≤ x2 by omega) (show x2 < width_c by omega)
      (show 0 ≤ y2 by omega)
    rw [heq, b1] at a1
    rw [heq, b2] at a2
    rw [a1, a2]
  have hcard := List.toFinset_card_of_nodup hnd
  rw [hset, Finset.card_image_of_injOn hinj, Finset.card_product, Int.card_Icc,
    Int.card_Icc] at hcard
  have hxs : 0 ≤ min (cx + d) (width_c - 1) + 1 - max (cx - d) 0 := by
    have : max (cx - d) 0 ≤ min (cx + d) (width_c - 1) := by
      rw [max_le_iff, le_min_iff, le_min_iff]; omega
    omega
  have hys : 0 ≤ min (cy + d) (height_c - 1) + 1 - max (cy - d) 0 := by
    have : max (cy - d) 0 ≤ min (cy + d) (height_c - 1) := by
      rw [max_le_iff, le_min_iff, le_min_iff]; omega
    omega
  rw [← hcard]
  push_cast
  rw [Int.toNat_of_nonneg hxs, Int.toNat_of_nonneg hys]
  ring

/-- C35. Window characterisation: for a draw distance `d ≥ 0` and a valid
current chunk `c` with the coordinates `(cx, cy)` on a grid of at least one
chunk each way, the entries a recompute of `UpdateAdjacentChunkIndexes` writes
(the slots below the final cursor) are strictly increasing in linear chunk
index, hence pairwise distinct; they are exactly the indexes `y * width.c + x`
of the chunks `(x, y)` of the grid with `|x - cx| ≤ d` and `|y - cy| ≤ d`;
their number is
`(min (cx + d) (width.c - 1) - max (cx - d) 0 + 1)
  * (min (cy + d) (height.c - 1) - max (cy - d) 0 + 1)`; and `c` is among them.
The grid is the map grid for a tileset entity and the grid of the entity for an
auto-split entity; the window buffer has the `(2d+1)^2` slots `LoadTileData`
allocates (or more). -/
theorem C35_window_characterisation (map : LwMap) (object : LwObject) (c : Int)
    (hd : 0 ≤ map.draw_distance)
    (hne : object.chunkset.temp_index ≠ c)
    (hlen : (GetAdjacentChunkCount map).toNat ≤ object.chunkset.indexes.length) :
    (object.tileset = true ∧ object.auto_split = false →
      1 ≤ map.width.c → 1 ≤ map.height.c → 0 ≤ c → c < map.width.c * map.height.c →
      ((UpdateAdjacentChunkIndexes map object c).chunkset.indexes.take
          (UpdateAdjacentChunkIndexes.loops map object c
            object.chunkset.indexes).2.toNat).Pairwise (fun a b => a < b)
      ∧ ((UpdateAdjacentChunkIndexes map object c).chunkset.indexes.take
          (UpdateAdjacentChunkIndexes.loops map object c
            object.chunkset.indexes).2.toNat).Nodup
      ∧ (∀ e : Int,
          e ∈ (UpdateAdjacentChunkIndexes map object c).chunkset.indexes.take
            (UpdateAdjacentChunkIndexes.loops map object c
              object.chunkset.indexes).2.toNat
          ↔ ∃ x y, 0 ≤ x ∧ x < map.width.c ∧ 0 ≤ y ∧ y < map.height.c
              ∧ |x - GetMapChunkX map c| ≤ map.draw_distance
              ∧ |y - GetMapChunkY map c| ≤ map.draw_distance
              ∧ e = y * map.width.c + x)
      ∧ (UpdateAdjacentChunkIndexes.loops map object c object.chunkset.indexes).2
          = (min (GetMapChunkX map c + map.draw_distance) (map.width.c - 1)
              - max (GetMapChunkX map c - map.draw_distance) 0 + 1)
            * (min (GetMapChunkY map c + map.draw_distance) (map.height.c - 1)
              - max (GetMapChunkY map c - map.draw_distance) 0 + 1)
      ∧ c ∈ (UpdateAdjacentChunkIndexes map object c).chunkset.indexes.take
          (UpdateAdjacentChunkIndexes.loops map object c
            object.chunkset.indexes).2.toNat)
    ∧ (object.tileset = false ∧ object.auto_split = true →
      1 ≤ object.width.c → 1 ≤ object.height.c →
      0 ≤ c → c < object.width.c * object.height.c →
      ((UpdateAdjacentChunkIndexes map object c).chunkset.indexes.take
          (UpdateAdjacentChunkIndexes.loops map object c
            object.chunkset.indexes).2.toNat).Pairwise (fun a b => a < b)
      ∧ ((UpdateAdjacentChunkIndexes map object c).chunkset.indexes.take
          (UpdateAdjacentChunkIndexes.loops map object c
            object.chunkset.indexes).2.toNat).Nodup
      ∧ (∀ e : Int,
          e ∈ (UpdateAdjacentChunkIndexes map object c).chunkset.indexes.take
            (UpdateAdjacentChunkIndexes.loops map object c
              object.chunkset.indexes).2.toNat
          ↔ ∃ x y, 0 ≤ x ∧ x < object.width.c ∧ 0 ≤ y ∧ y < object.height.c
              ∧ |x - GetObjectChunkX object c| ≤ map.draw_distance
              ∧ |y - GetObjectChunkY object c| ≤ map.draw_distance
              ∧ e = y * object.width.c + x)
      ∧ (UpdateAdjacentChunkIndexes.loops map object c object.chunkset.indexes).2
          = (min (GetObjectChunkX object c + map.draw_distance) (object.width.c - 1)
              - max (GetObjectChunkX object c - map.draw_distance) 0 + 1)
            * (min (GetObjectChunkY object c + map.draw_distance) (object.height.c - 1)
              - max (GetObjectChunkY object c - map.draw_distance) 0 + 1)
      ∧ c ∈ (UpdateAdjacentChunkIndexes map object c).chunkset.indexes.take
          (UpdateAdjacentChunkIndexes.loops map object c
            object.chunkset.indexes).2.toNat) := by
  constructor
  · rintro ⟨ht, ha⟩ hw hh hc0 hc1
    have hmode : (object.tileset && !object.auto_split) = true := by simp [ht, ha]
    have hloops := loops_map map object c object.chunkset.indexes hmode hlen
    obtain ⟨hx0, hx1, hy0, hy1, hrec⟩ :=
      tdiv_tmod_of_index (show 0 < map.width.c by omega) hc0 hc1
    have hW : (UpdateAdjacentChunkIndexes map object c).chunkset.indexes.take
        (UpdateAdjacentChunkIndexes.loops map object c object.chunkset.indexes).2.toNat
        = windowSpec map.width.c map.height.c map.draw_distance
            (GetMapChunkX map c) (GetMapChunkY map c) := by
      simp only [UpdateAdjacentChunkIndexes, if_neg hne, hloops, Int.toNat_natCast,
        List.take_left]
    have hn : (UpdateAdjacentChunkIndexes.loops map object c object.chunkset.indexes).2
        = ((windowSpec map.width.c map.height.c map.draw_distance
            (GetMapChunkX map c) (GetMapChunkY map c)).length : Int) := by
      rw [hloops]
    rw [hW, hn]
    have hp := pairwise_windowSpec map.width.c map.height.c map.draw_distance
      (GetMapChunkX map c) (GetMapChunkY map c)
    refine ⟨hp, hp.imp (fun h => ne_of_lt h), fun e => mem_windowSpec_iff,
      length_windowSpec _ _ _ _ _ hd hx0 hx1 hy0 hy1, ?_⟩
    rw [mem_windowSpec_iff]
    refine ⟨GetMapChunkX map c, GetMapChunkY map c, hx0, hx1, hy0, hy1, ?_, ?_, hrec.symm⟩
    · rw [sub_self, abs_zero]; exact hd
    · rw [sub_self, abs_zero]; exact hd
  · rintro ⟨ht, ha⟩ hw hh hc0 hc1
    have hmode : (object.tileset && !object.auto_split) = false := by simp [ht]
    have hloops := loops_object map object c object.chunkset.indexes hmode hlen
    obtain ⟨hx0, hx1, hy0, hy1, hrec⟩ :=
      tdiv_tmod_of_index (show 0 < object.width.c by omega) hc0 hc1
    have hW : (UpdateAdjacentChunkIndexes map object c).chunkset.indexes.take
        (UpdateAdjacentChunkIndexes.loops map object c object.chunkset.indexes).2.toNat
        = windowSpec object.width.c object.height.c map.draw_distance
            (GetObjectChunkX object c) (GetObjectChunkY object c) := by
      simp only [UpdateAdjacentChunkIndexes, if_neg hne, hloops, Int.toNat_natCast,
        List.take_left]
    have hn : (UpdateAdjacentChunkIndexes.loops map object c object.chunkset.indexes).2
        = ((windowSpec object.width.c object.height.c map.draw_distance
            (GetObjectChunkX object c) (GetObjectChunkY object c)).length : Int) := by
      rw [hloops]
    rw [hW, hn]
    have hp := pairwise_windowSpec object.width.c object.height.c map.draw_distance
      (GetObjectChunkX object c) (GetObjectChunkY object c)
    refine ⟨hp, hp.imp (fun h => ne_of_lt h), fun e => mem_windowSpec_iff,
      length_windowSpec _ _ _ _ _ hd hx0 hx1 hy0 hy1, ?_⟩
    rw [mem_windowSpec_iff]
    refine ⟨GetObjectChunkX object c, GetObjectChunkY object c, hx0, hx1, hy0, hy1, ?_, ?_,
      hrec.symm⟩
    · rw [sub_self, abs_zero]; exact hd
    · rw [sub_self, abs_zero]; exact hd

/-- Witness of C35: the corner chunk 0 of the 3 by 3 chunk grid `gridMap3 1`
with the draw distance 1; the window has `2 * 2 = 4` entries. -/
theorem C35_window_characterisation_witness :
    ((UpdateAdjacentChunkIndexes (gridMap3 1) (gridObject3 1) 0).chunkset.indexes.take
          (UpdateAdjacentChunkIndexes.loops (gridMap3 1) (gridObject3 1) 0
            (gridObject3 1).chunkset.indexes).2.toNat).Pairwise (fun a b => a < b)
      ∧ ((UpdateAdjacentChunkIndexes (gridMap3 1) (gridObject3 1) 0).chunkset.indexes.take
          (UpdateAdjacentChunkIndexes.loops (gridMap3 1) (gridObject3 1) 0
            (gridObject3 1).chunkset.indexes).2.toNat).Nodup
      ∧ (∀ e : Int,
          e ∈ (UpdateAdjacentChunkIndexes (gridMap3 1) (gridObject3 1) 0).chunkset.indexes.take
            (UpdateAdjacentChunkIndexes.loops (gridMap3 1) (gridObject3 1) 0
              (gridObject3 1).chunkset.indexes).2.toNat
          ↔ ∃ x y, 0 ≤ x ∧ x < (gridMap3 1).width.c ∧ 0 ≤ y ∧ y < (gridMap3 1).height.c
              ∧ |x - GetMapChunkX (gridMap3 1) 0| ≤ (gridMap3 1).draw_distance
              ∧ |y - GetMapChunkY (gridMap3 1) 0| ≤ (gridMap3 1).draw_distance
              ∧ e = y * (gridMap3 1).width.c + x)
      ∧ (UpdateAdjacentChunkIndexes.loops (gridMap3 1) (gridObject3 1) 0
            (gridObject3 1).chunkset.indexes).2
          = (min (GetMapChunkX (gridMap3 1) 0 + (gridMap3 1).draw_distance)
                ((gridMap3 1).width.c - 1)
              - max (GetMapChunkX (gridMap3 1) 0 - (gridMap3 1).draw_distance) 0 + 1)
            * (min (GetMapChunkY (gridMap3 1) 0 + (gridMap3 1).draw_distance)
                ((gridMap3 1).height.c - 1)
              - max (GetMapChunkY (gridMap3 1) 0 - (gridMap3 1).draw_distance) 0 + 1)
      ∧ 0 ∈ (UpdateAdjacentChunkIndexes (gridMap3 1) (gridObject3 1) 0).chunkset.indexes.take
          (UpdateAdjacentChunkIndexes.loops (gridMap3 1) (gridObject3 1) 0
            (gridObject3 1).chunkset.indexes).2.toNat :=
  (C35_window_characterisation (gridMap3 1) (gridObject3 1) 0 (by decide) (by decide)
    (by decide)).1 ⟨rfl, rfl⟩ (by decide) (by decide) (by decide) (by decide)

end Lowel
